import Mathlib

/-!
# weeve-agent: the data-service lifecycle and the status ledger

A shallow embedding of `internal/dataservice/dataservice.go` (the deployment
orchestrator), `internal/manifest/status.go` (the status ledger) and the parts of
`internal/docker/container.go` the orchestrator calls.

The container engine is an external collaborator.  It is represented by a record of
state-passing operations over an arbitrary engine state `σ`; every theorem about the
orchestrator is stated for all such records.  Each call the orchestrator makes to the
`docker` package and each `manifest.SetStatus` call is appended, with its outcome, to a
trace, so that "which calls were issued, in which order, with which result" is a
property of the final state.

Go `error` values are represented by their message; logging is not modelled.
-/

set_option autoImplicit false

namespace WeeveAgent

/-! ## Data model -/

/-- A Go `error`, represented by its message. -/
abbrev Error := String

/-- The identity of a data service, `model.ManifestUniqueID`. -/
structure ManifestUniqueID where
  ManifestName : String
  VersionNumber : String
deriving DecidableEq, Repr

/-- A ledger entry, `model.ManifestStatus`, with the fields `SetStatus` fills in. -/
structure ManifestStatus where
  ManifestID : String
  ManifestUniqueID : ManifestUniqueID
  Status : String
  ContainerCount : Int
  InTransition : Bool
deriving DecidableEq, Repr

/-- The registry details of a module, `manifest.RegistryDetails`; the orchestrator reads
`ImageName` only. -/
structure RegistryDetails where
  ImageName : String
deriving DecidableEq, Repr

/-- The per-module container configuration, `manifest.ContainerConfig`, with the fields
read by `dataservice.go` and `container.go`.  Fields of engine library types
(`ExposedPorts`, `PortBinding`, `MountConfigs`, `Resources`) are handed to the engine
unchanged and are kept as plain strings. -/
structure ContainerConfig where
  ContainerName : String
  ImageName : String
  ImageTag : String
  EntryPointArgs : List String
  EnvArgs : List String
  ExposedPorts : List String
  PortBinding : List String
  Labels : List (String × String)
  NetworkName : String
  NetworkDriver : String
  MountConfigs : List String
  Resources : String
  Registry : RegistryDetails
deriving DecidableEq, Repr

/-- The manifest as `DeployDataService` reads it: `man.ID`, `man.VersionName`,
`man.ApplicationID`, `man.Labels`, `man.Modules`, and the network name that
`UpdateManifest` assigns. -/
structure Manifest where
  ID : String
  VersionName : String
  ApplicationID : String
  Labels : List (String × String)
  Modules : List ContainerConfig
  NetworkName : String
deriving DecidableEq, Repr

/-- The fields of the engine's `types.Container` that the orchestrator and the tests
read. -/
structure Container where
  ID : String
  Names : List String
  ImageID : String
  State : String
  Status : String
  Labels : List (String × String)
deriving DecidableEq, Repr

/-- The fields of the engine's `types.NetworkResource` that matter here; the orchestrator
only takes the length of a network listing. -/
structure Network where
  Name : String
  Labels : List (String × String)
deriving DecidableEq, Repr

/-! ## Constants of `dataservice.go` -/

def CMDDeploy : String := "deploy"
def CMDReDeploy : String := "redeploy"
def CMDDeployLocal : String := "local_deploy"
def CMDStopService : String := "stopservice"
def CMDStartService : String := "startservice"
def CMDUndeploy : String := "undeploy"

/-- Go `strings.ToUpper` on the characters of a string.  The lifecycle commands are ASCII,
where this agrees with the Go function; Go additionally maps non-ASCII letters. -/
def ToUpper (s : String) : String := ⟨s.data.map Char.toUpper⟩

/-! ## The status ledger (`status.go`) -/

/-- The loop of `SetStatus` (status.go 23-30): the first entry whose identity equals
`manifestUniqueID` gets the new `Status` and `InTransition`, and the loop breaks.
`none` stands for `manifestKnown == false`. -/
def updateKnown (manifestUniqueID : ManifestUniqueID) (status : String) (inTransition : Bool) :
    List ManifestStatus → Option (List ManifestStatus)
  | [] => none
  | manifest :: rest =>
    if manifest.ManifestUniqueID = manifestUniqueID then
      some ({ manifest with Status := status, InTransition := inTransition } :: rest)
    else
      (updateKnown manifestUniqueID status inTransition rest).map (manifest :: ·)

/-- The in-memory effect of `manifest.SetStatus` (status.go 20-39) on `knownManifests`.
Writing the collection to `known_manifests.jsonl` (status.go 41-49) is not modelled. -/
def SetStatus (manifestID : String) (containerCount : Int) (manifestUniqueID : ManifestUniqueID)
    (status : String) (inTransition : Bool) (knownManifests : List ManifestStatus) :
    List ManifestStatus :=
  match updateKnown manifestUniqueID status inTransition knownManifests with
  | some updated => updated
  | none =>
    knownManifests ++ [{ ManifestID := manifestID, ManifestUniqueID := manifestUniqueID,
                         Status := status, ContainerCount := containerCount,
                         InTransition := inTransition }]

/-- The status recorded in the ledger for an identity, if it has an entry. -/
def statusOf (manifestUniqueID : ManifestUniqueID) (knownManifests : List ManifestStatus) :
    Option String :=
  (knownManifests.find? (fun m => m.ManifestUniqueID = manifestUniqueID)).map (·.Status)

/-! ## The container runtime -/

/-- The operations the orchestrator reaches the container engine through, as
state-passing functions on an engine state `σ`.

The first group are the `dockerClient` methods called by `container.go`.  The second
group are functions of the `docker` package whose files (networks, images) are not part
of the sources at hand; they are taken as parameters with the signatures of their call
sites in `dataservice.go`.  `statusArgs` supplies the arguments of `SetStatus` that the
three-argument call sites in `dataservice.go` do not pass.  `rangeOrder` is the order in
which Go iterates over the keys of a map, which the language leaves unspecified: any
permutation of the keys. -/
structure Runtime (σ : Type) where
  ContainerCreate : ContainerConfig → σ → Except Error String × σ
  ContainerStart : String → σ → Option Error × σ
  ContainerStop : String → σ → Option Error × σ
  ContainerRemove : String → σ → Option Error × σ
  ContainerList : Option (String × String) → σ → Except Error (List Container) × σ
  ReadDataServiceNetworks : String → String → σ → Except Error (List Network) × σ
  ImageExists : String → σ → Except Error Bool × σ
  PullImage : RegistryDetails → σ → Option Error × σ
  CreateNetwork : String → List (String × String) → σ → Except Error String × σ
  ImageRemove : String → σ → Option Error × σ
  NetworkPrune : String → String → σ → Option Error × σ
  statusArgs : String → String → String → String × Int × Bool
  rangeOrder : List String → List String
  rangeOrder_perm : ∀ keys, (rangeOrder keys).Perm keys

/-! ### `container.go` -/

section Container
variable {σ : Type}

/-- Embeds `createContainer` (container.go 43-89): one `ContainerCreate` call built from
the configuration.  On failure Go also returns the response ID, which no caller reads. -/
def createContainer (rt : Runtime σ) (containerConfig : ContainerConfig) (w : σ) :
    Except Error String × σ :=
  rt.ContainerCreate containerConfig w

/-- Embeds `StartContainer` (container.go 91-99). -/
def StartContainer (rt : Runtime σ) (containerID : String) (w : σ) : Option Error × σ :=
  rt.ContainerStart containerID w

/-- Embeds `CreateAndStartContainer` (container.go 101-113). -/
def CreateAndStartContainer (rt : Runtime σ) (containerConfig : ContainerConfig) (w : σ) :
    Except Error String × σ :=
  match createContainer rt containerConfig w with
  | (.error err, w1) => (.error err, w1)
  | (.ok id, w1) =>
    match StartContainer rt id w1 with
    | (some err, w2) => (.error err, w2)
    | (none, w2) => (.ok id, w2)

/-- Embeds `StopContainer` (container.go 115-121). -/
def StopContainer (rt : Runtime σ) (containerID : String) (w : σ) : Option Error × σ :=
  rt.ContainerStop containerID w

/-- Embeds `StopAndRemoveContainer` (container.go 123-139): a failed stop is logged and
ignored, the forced removal decides the result. -/
def StopAndRemoveContainer (rt : Runtime σ) (containerID : String) (w : σ) :
    Option Error × σ :=
  match StopContainer rt containerID w with
  | (_, w1) => rt.ContainerRemove containerID w1

/-- Embeds `ReadAllContainers` (container.go 141-151): an unfiltered listing. -/
def ReadAllContainers (rt : Runtime σ) (w : σ) : Except Error (List Container) × σ :=
  rt.ContainerList none w

/-- Embeds `ReadDataServiceContainers` (container.go 153-164): a listing filtered by the
labels `manifestName` and `versionNumber`.  `container.go` takes the two as one
`ManifestUniqueID`; the call sites in `dataservice.go` pass them as two strings. -/
def ReadDataServiceContainers (rt : Runtime σ) (applicationID versionName : String) (w : σ) :
    Except Error (List Container) × σ :=
  rt.ContainerList (some (applicationID, versionName)) w

end Container

/-! ## Traces -/

/-- A call issued by `dataservice.go`: to the `docker` package, or `manifest.SetStatus`. -/
inductive Call where
  | ReadDataServiceNetworks (applicationID versionName : String)
  | ImageExists (imageName : String)
  | PullImage (imgDetails : RegistryDetails)
  | CreateNetwork (applicationID : String) (labels : List (String × String))
  | CreateAndStartContainer (containerConfig : ContainerConfig)
  | ReadDataServiceContainers (applicationID versionName : String)
  | ReadAllContainers
  | StopContainer (containerID : String)
  | StartContainer (containerID : String)
  | StopAndRemoveContainer (containerID : String)
  | ImageRemove (imageID : String)
  | NetworkPrune (applicationID versionName : String)
  | SetStatus (applicationID versionName status : String)
deriving DecidableEq, Repr

/-- A call together with the error it returned (`none` for `nil`). -/
structure Event where
  call : Call
  err : Option Error
deriving DecidableEq, Repr

/-- The state the orchestrator runs in: the engine, the ledger (`knownManifests`) and the
trace of calls issued so far. -/
structure St (σ : Type) where
  rt : σ
  knownManifests : List ManifestStatus
  trace : List Event

section Orchestrator
variable {σ : Type}

/-- The error component of a Go `(value, error)` result. -/
def errOf {α : Type} : Except Error α → Option Error
  | .ok _ => none
  | .error e => some e

/-- Issue a call returning `(value, error)` and record it. -/
def St.callE {α : Type} (s : St σ) (c : Call) (f : σ → Except Error α × σ) :
    Except Error α × St σ :=
  ((f s.rt).1, { s with rt := (f s.rt).2, trace := s.trace ++ [⟨c, errOf (f s.rt).1⟩] })

/-- Issue a call returning `error` and record it. -/
def St.callO (s : St σ) (c : Call) (f : σ → Option Error × σ) : Option Error × St σ :=
  ((f s.rt).1, { s with rt := (f s.rt).2, trace := s.trace ++ [⟨c, (f s.rt).1⟩] })

/-- Modelled from the spec: the three-argument `manifest.SetStatus(applicationID,
versionName, status)` that `dataservice.go` calls, whose source is absent (`status.go`
holds the five-argument function).  It is the upsert of `status.go` under the identity
`{applicationID, versionName}`, with the arguments the call sites do not pass taken from
`statusArgs`; the call is recorded in the trace. -/
def setStatus (rt : Runtime σ) (applicationID versionName status : String) (s : St σ) : St σ :=
  { s with
    knownManifests :=
      SetStatus (rt.statusArgs applicationID versionName status).1
        (rt.statusArgs applicationID versionName status).2.1
        ⟨applicationID, versionName⟩ status
        (rt.statusArgs applicationID versionName status).2.2 s.knownManifests
    trace := s.trace ++ [⟨.SetStatus applicationID versionName status, none⟩] }

/-! ### `dataservice.go` -/

/-- Embeds `DataServiceExist` (dataservice.go 280-290). -/
def DataServiceExist (rt : Runtime σ) (applicationID versionName : String) (s : St σ) :
    Except Error Bool × St σ :=
  match s.callE (.ReadDataServiceNetworks applicationID versionName)
      (rt.ReadDataServiceNetworks applicationID versionName) with
  | (.error err, s1) => (.error err, s1)
  | (.ok networks, s1) => if networks.length > 0 then (.ok true, s1) else (.ok false, s1)

/-- The Go assignment `m[key] = value` on a map kept as an association list. -/
def mapSet (m : List (String × Nat)) (key : String) (value : Nat) : List (String × Nat) :=
  match m with
  | [] => [(key, value)]
  | (k, v) :: rest => if k = key then (k, value) :: rest else (k, v) :: mapSet rest key value

/-- The Go read `m[key]` (zero when the key is absent). -/
def mapGet (m : List (String × Nat)) (key : String) : Nat :=
  match m with
  | [] => 0
  | (k, v) :: rest => if k = key then v else mapGet rest key

/-- The loop of `UndeployDataService` step 1 (dataservice.go 223-232): every listed
container is registered in `numContainersPerImage` and stop-and-removed; a failure sets
`UNDEPLOY_FAILED`, is appended to `errorlist`, and the loop goes on. -/
def removeContainers (rt : Runtime σ) (applicationID versionName : String) :
    List Container → List (String × Nat) → String → St σ →
      List (String × Nat) × String × St σ
  | [], numContainersPerImage, errorlist, s => (numContainersPerImage, errorlist, s)
  | dsContainer :: rest, numContainersPerImage, errorlist, s =>
    match s.callO (.StopAndRemoveContainer dsContainer.ID)
        (StopAndRemoveContainer rt dsContainer.ID) with
    | (some err, s1) =>
      removeContainers rt applicationID versionName rest
        (mapSet numContainersPerImage dsContainer.ImageID 0) (errorlist ++ "," ++ err)
        (setStatus rt applicationID versionName "UNDEPLOY_FAILED" s1)
    | (none, s1) =>
      removeContainers rt applicationID versionName rest
        (mapSet numContainersPerImage dsContainer.ImageID 0) errorlist s1

/-- The loop of `UndeployDataService` step 2 (dataservice.go 242-258) over the keys of
`numContainersPerImage` in iteration order: the containers of the host-wide listing with
that image are counted onto the entry, and the image is removed when the count is zero. -/
def removeImages (rt : Runtime σ) (applicationID versionName : String)
    (containers : List Container) (numContainersPerImage : List (String × Nat)) :
    List String → String → St σ → String × St σ
  | [], errorlist, s => (errorlist, s)
  | imageID :: rest, errorlist, s =>
    if mapGet numContainersPerImage imageID
        + (containers.filter (fun container => container.ImageID = imageID)).length = 0 then
      match s.callO (.ImageRemove imageID) (rt.ImageRemove imageID) with
      | (some err, s1) =>
        removeImages rt applicationID versionName containers numContainersPerImage rest
          (errorlist ++ "," ++ err) (setStatus rt applicationID versionName "UNDEPLOY_FAILED" s1)
      | (none, s1) =>
        removeImages rt applicationID versionName containers numContainersPerImage rest
          errorlist s1
    else
      removeImages rt applicationID versionName containers numContainersPerImage rest
        errorlist s

/-- Step 3 of `UndeployDataService` (dataservice.go 263-268): the network prune; a failure
sets `UNDEPLOY_FAILED` and is appended to `errorlist`. -/
def pruneNetwork (rt : Runtime σ) (applicationID versionName : String) (errorlist : String)
    (s : St σ) : String × St σ :=
  match s.callO (.NetworkPrune applicationID versionName)
      (rt.NetworkPrune applicationID versionName) with
  | (some err, s1) =>
    (errorlist ++ "," ++ err, setStatus rt applicationID versionName "UNDEPLOY_FAILED" s1)
  | (none, s1) => (errorlist, s1)

/-- Embeds `UndeployDataService` (dataservice.go 191-278). -/
def UndeployDataService (rt : Runtime σ) (applicationID versionName : String) (s : St σ) :
    Option Error × St σ :=
  match DataServiceExist rt applicationID versionName s with
  | (.error err, s1) => (some err, setStatus rt applicationID versionName "UNDEPLOY_FAILED" s1)
  | (.ok false, s1) => (none, setStatus rt applicationID versionName "UNDEPLOY_FAILED" s1)
  | (.ok true, s1) =>
    match s1.callE (.ReadDataServiceContainers applicationID versionName)
        (ReadDataServiceContainers rt applicationID versionName) with
    | (.error err, s2) => (some err, setStatus rt applicationID versionName "UNDEPLOY_FAILED" s2)
    | (.ok dsContainers, s2) =>
      match removeContainers rt applicationID versionName dsContainers [] "" s2 with
      | (numContainersPerImage, errorlist, s3) =>
        match s3.callE .ReadAllContainers (ReadAllContainers rt) with
        | (.error err, s4) =>
          (some err, setStatus rt applicationID versionName "UNDEPLOY_FAILED" s4)
        | (.ok containers, s4) =>
          match removeImages rt applicationID versionName containers numContainersPerImage
              (rt.rangeOrder (numContainersPerImage.map Prod.fst)) errorlist s4 with
          | (errorlist, s5) =>
            match pruneNetwork rt applicationID versionName errorlist s5 with
            | (errorlist, s6) =>
              if errorlist ≠ "" then
                (some ("Data Service could not be undeployed completely. Cause(s): "
                    ++ errorlist),
                  setStatus rt applicationID versionName "UNDEPLOYED" s6)
              else
                (none, setStatus rt applicationID versionName "UNDEPLOYED" s6)

/-- The two container listings of a run of `UndeployDataService` from `s`, when the service
exists and both succeed: the listing by identity labels taken before the removals
(dataservice.go 215) and the host-wide listing taken after them (dataservice.go 235). -/
def undeployListings (rt : Runtime σ) (applicationID versionName : String) (s : St σ) :
    Option (List Container × List Container) :=
  match DataServiceExist rt applicationID versionName s with
  | (.ok true, s1) =>
    match s1.callE (.ReadDataServiceContainers applicationID versionName)
        (ReadDataServiceContainers rt applicationID versionName) with
    | (.ok dsContainers, s2) =>
      match (removeContainers rt applicationID versionName dsContainers [] "" s2).2.2.callE
          .ReadAllContainers (ReadAllContainers rt) with
      | (.ok containers, _) => some (dsContainers, containers)
      | (.error _, _) => none
    | (.error _, _) => none
  | (_, _) => none

/-- The loop of `DeployDataService` step 2 (dataservice.go 52-74): for every module the
image is looked up and pulled when missing.  A failed lookup returns the error without
writing a status; a failed pull writes the upper-cased command as the status. -/
def pullImages (rt : Runtime σ) (man : Manifest) (command : String) :
    List ContainerConfig → St σ → Option Error × St σ
  | [], s => (none, s)
  | module :: rest, s =>
    match s.callE (.ImageExists module.Registry.ImageName)
        (rt.ImageExists module.Registry.ImageName) with
    | (.error err, s1) => (some err, s1)
    | (.ok true, s1) => pullImages rt man command rest s1
    | (.ok false, s1) =>
      match s1.callO (.PullImage module.Registry) (rt.PullImage module.Registry) with
      | (some _, s2) =>
        (some "unable to pull image/s", setStatus rt man.ID man.VersionName (ToUpper command) s2)
      | (none, s2) => pullImages rt man command rest s2

/-- The loop of `DeployDataService` step 4 (dataservice.go 102-114): the containers are
created and started in order; the first failure writes `<COMMAND>_FAILED`, runs
`UndeployDataService` (its result is discarded) and returns the error. -/
def startContainers (rt : Runtime σ) (man : Manifest) (command : String) :
    List ContainerConfig → St σ → Option Error × St σ
  | [], s => (none, s)
  | containerConfig :: rest, s =>
    match s.callE (.CreateAndStartContainer containerConfig)
        (CreateAndStartContainer rt containerConfig) with
    | (.error err, s1) =>
      (some err,
        (UndeployDataService rt man.ID man.VersionName
          (setStatus rt man.ID man.VersionName (ToUpper command ++ "_FAILED") s1)).2)
    | (.ok _, s1) => startContainers rt man command rest s1

/-- Modelled from the spec: `Manifest.UpdateManifest`, whose file is not part of the
sources at hand.  The network name is recorded on the manifest and on every container
configuration ("all subsequent container configs reference it"). -/
def UpdateManifest (man : Manifest) (networkName : String) : Manifest :=
  { man with
    NetworkName := networkName
    Modules := man.Modules.map (fun m => { m with NetworkName := networkName }) }

/-- Steps 2 to 4 of `DeployDataService` (dataservice.go 49-118), entered once the
existence check and, for a redeployment, the teardown are through. -/
def deploySteps (rt : Runtime σ) (man : Manifest) (command : String) (s : St σ) :
    Option Error × St σ :=
  match pullImages rt man command man.Modules s with
  | (some err, s1) => (some err, s1)
  | (none, s1) =>
    match s1.callE (.CreateNetwork man.ApplicationID man.Labels)
        (rt.CreateNetwork man.ApplicationID man.Labels) with
    | (.error err, s2) =>
      (some err, setStatus rt man.ID man.VersionName (ToUpper command ++ "_FAILED") s2)
    | (.ok networkName, s2) =>
      if (UpdateManifest man networkName).Modules.length = 0 then
        (some "no valid contianers in manifest",
          (UndeployDataService rt man.ID man.VersionName
            (setStatus rt man.ID man.VersionName (ToUpper command ++ "_FAILED") s2)).2)
      else
        match startContainers rt (UpdateManifest man networkName) command
            (UpdateManifest man networkName).Modules s2 with
        | (some err, s3) => (some err, s3)
        | (none, s3) =>
          (none, setStatus rt man.ID man.VersionName (ToUpper command ++ "ED") s3)

/-- Embeds `DeployDataService` (dataservice.go 20-119). -/
def DeployDataService (rt : Runtime σ) (man : Manifest) (command : String) (s : St σ) :
    Option Error × St σ :=
  match DataServiceExist rt man.ID man.VersionName s with
  | (.error err, s1) =>
    (some err, setStatus rt man.ID man.VersionName (ToUpper command ++ "_FAILED") s1)
  | (.ok false, s1) => deploySteps rt man command s1
  | (.ok true, s1) =>
    if command = CMDDeploy then
      (some "data service already exists", s1)
    else if command = CMDReDeploy ∨ command = CMDDeployLocal then
      match UndeployDataService rt man.ID man.VersionName s1 with
      | (some _, s2) =>
        (some "redeployment failed",
          setStatus rt man.ID man.VersionName (ToUpper command ++ "_FAILED") s2)
      | (none, s2) => deploySteps rt man command s2
    else
      deploySteps rt man command s1

/-- The loop of `StopDataService` (dataservice.go 133-147). -/
def stopContainers (rt : Runtime σ) (applicationID versionName : String) :
    List Container → St σ → Option Error × St σ
  | [], s => (none, s)
  | container :: rest, s =>
    if container.State = "running" then
      match s.callO (.StopContainer container.ID) (StopContainer rt container.ID) with
      | (some err, s1) =>
        (some err, setStatus rt applicationID versionName "STOP_CONTAINER_FAILED" s1)
      | (none, s1) => stopContainers rt applicationID versionName rest s1
    else
      stopContainers rt applicationID versionName rest s

/-- Embeds `StopDataService` (dataservice.go 121-152). -/
def StopDataService (rt : Runtime σ) (applicationID versionName : String) (s : St σ) :
    Option Error × St σ :=
  match s.callE (.ReadDataServiceContainers applicationID versionName)
      (ReadDataServiceContainers rt applicationID versionName) with
  | (.error err, s1) =>
    (some err, setStatus rt applicationID versionName "STOP_SERVICE_FAILED" s1)
  | (.ok containers, s1) =>
    match stopContainers rt applicationID versionName containers s1 with
    | (some err, s2) => (some err, s2)
    | (none, s2) => (none, setStatus rt applicationID versionName "STOPPED" s2)

/-- The loop of `StartDataService` (dataservice.go 173-184). -/
def startStopped (rt : Runtime σ) (applicationID versionName : String) :
    List Container → St σ → Option Error × St σ
  | [], s => (none, s)
  | container :: rest, s =>
    if container.State = "exited" ∨ container.State = "created"
        ∨ container.State = "paused" then
      match s.callO (.StartContainer container.ID) (StartContainer rt container.ID) with
      | (some err, s1) => (some err, setStatus rt applicationID versionName "START_FAILED" s1)
      | (none, s1) => startStopped rt applicationID versionName rest s1
    else
      startStopped rt applicationID versionName rest s

/-- Embeds `StartDataService` (dataservice.go 154-189). -/
def StartDataService (rt : Runtime σ) (applicationID versionName : String) (s : St σ) :
    Option Error × St σ :=
  match s.callE (.ReadDataServiceContainers applicationID versionName)
      (ReadDataServiceContainers rt applicationID versionName) with
  | (.error err, s1) => (some err, setStatus rt applicationID versionName "UNDEPLOY_FAILED" s1)
  | (.ok containers, s1) =>
    if containers.length = 0 then
      (some "no data service containers found",
        setStatus rt applicationID versionName "START_FAILED" s1)
    else
      match startStopped rt applicationID versionName containers s1 with
      | (some err, s2) => (some err, s2)
      | (none, s2) => (none, setStatus rt applicationID versionName "STARTED" s2)

end Orchestrator

/-! ## A simulated container engine

A small executable engine on which the orchestrator can be run on concrete inputs.  It
keeps the networks, containers and local images of a host; `faults` lists the
`(operation, argument)` pairs the engine answers with an error. -/

/-- The state of the simulated engine. -/
structure World where
  networks : List Network
  containers : List Container
  images : List String
  faults : List (String × String)
deriving DecidableEq, Repr

/-- The label filter of the listings: `manifestName=<applicationID>` and
`versionNumber=<versionName>`. -/
def hasLabels (labels : List (String × String)) (applicationID versionName : String) : Bool :=
  decide (("manifestName", applicationID) ∈ labels)
    && decide (("versionNumber", versionName) ∈ labels)

/-- Whether the simulated engine answers this operation with an error. -/
def World.refuses (w : World) (operation argument : String) : Bool :=
  decide ((operation, argument) ∈ w.faults)

/-- Set the state of the containers with the given ID. -/
def World.setState (w : World) (containerID state : String) : World :=
  { w with containers :=
      w.containers.map (fun c => if c.ID = containerID then { c with State := state } else c) }

/-- Set the state of the containers with one of the given IDs, ID after ID: what a
sequence of successful stops, or of successful starts, does to the simulated engine. -/
def World.setStates (w : World) (containerIDs : List String) (state : String) : World :=
  containerIDs.foldl (fun w containerID => w.setState containerID state) w

/-- Whether a container with the given ID exists. -/
def World.hasContainer (w : World) (containerID : String) : Bool :=
  w.containers.any (fun c => decide (c.ID = containerID))

/-- The simulated `ContainerCreate`: the new container gets its name as ID, the image
reference `ImageName:ImageTag` as image ID, and the state `created`. -/
def simContainerCreate (cfg : ContainerConfig) (w : World) : Except Error String × World :=
  if w.refuses "ContainerCreate" cfg.ContainerName then
    (.error ("cannot create container " ++ cfg.ContainerName), w)
  else
    (.ok cfg.ContainerName,
      { w with containers := w.containers ++
          [{ ID := cfg.ContainerName, Names := ["/" ++ cfg.ContainerName],
             ImageID := cfg.ImageName ++ ":" ++ cfg.ImageTag, State := "created",
             Status := "Created", Labels := cfg.Labels }] })

/-- The simulated `ContainerStart`. -/
def simContainerStart (containerID : String) (w : World) : Option Error × World :=
  if w.refuses "ContainerStart" containerID then
    (some ("cannot start container " ++ containerID), w)
  else if w.hasContainer containerID then (none, w.setState containerID "running")
  else (some ("No such container: " ++ containerID), w)

/-- The simulated `ContainerStop`. -/
def simContainerStop (containerID : String) (w : World) : Option Error × World :=
  if w.refuses "ContainerStop" containerID then
    (some ("cannot stop container " ++ containerID), w)
  else if w.hasContainer containerID then (none, w.setState containerID "exited")
  else (some ("No such container: " ++ containerID), w)

/-- The simulated forced `ContainerRemove`. -/
def simContainerRemove (containerID : String) (w : World) : Option Error × World :=
  if w.refuses "ContainerRemove" containerID then
    (some ("cannot remove container " ++ containerID), w)
  else if w.hasContainer containerID then
    (none, { w with containers := w.containers.filter (fun c => c.ID ≠ containerID) })
  else (some ("No such container: " ++ containerID), w)

/-- The simulated `ContainerList` with `All: true`: every container, or those carrying
the identity labels. -/
def simContainerList (filter : Option (String × String)) (w : World) :
    Except Error (List Container) × World :=
  match filter with
  | none =>
    if w.refuses "ContainerList" "" then (.error "cannot list containers", w)
    else (.ok w.containers, w)
  | some (applicationID, versionName) =>
    if w.refuses "ContainerList" applicationID then (.error "cannot list containers", w)
    else (.ok (w.containers.filter (fun c => hasLabels c.Labels applicationID versionName)), w)

/-- Modelled from the spec: `docker.ReadDataServiceNetworks`, absent from the sources at
hand: `ListNetworks(appID, version)`, the networks matching the identity labels. -/
def simReadDataServiceNetworks (applicationID versionName : String) (w : World) :
    Except Error (List Network) × World :=
  if w.refuses "NetworkList" applicationID then (.error "cannot list networks", w)
  else (.ok (w.networks.filter (fun n => hasLabels n.Labels applicationID versionName)), w)

/-- Modelled from the spec: `docker.ImageExists`, absent from the sources at hand:
`ImageExists(ref)`, whether the image is present locally. -/
def simImageExists (imageName : String) (w : World) : Except Error Bool × World :=
  if w.refuses "ImageExists" imageName then (.error "cannot inspect image", w)
  else (.ok (decide (imageName ∈ w.images)), w)

/-- Modelled from the spec: `docker.PullImage`, absent from the sources at hand:
`PullImage(ref)` makes the image present locally. -/
def simPullImage (imgDetails : RegistryDetails) (w : World) : Option Error × World :=
  if w.refuses "PullImage" imgDetails.ImageName then
    (some ("cannot pull " ++ imgDetails.ImageName), w)
  else (none, { w with images := w.images ++ [imgDetails.ImageName] })

/-- Modelled from the spec: `docker.CreateNetwork`, absent from the sources at hand:
`CreateNetwork(appID, labels)` creates one network carrying the labels and returns its
name. -/
def simCreateNetwork (applicationID : String) (labels : List (String × String)) (w : World) :
    Except Error String × World :=
  if w.refuses "NetworkCreate" applicationID then (.error "cannot create network", w)
  else (.ok applicationID,
    { w with networks := w.networks ++ [{ Name := applicationID, Labels := labels }] })

/-- Modelled from the spec: `docker.ImageRemove`, absent from the sources at hand:
`ImageRemove(imageID)` deletes the local image. -/
def simImageRemove (imageID : String) (w : World) : Option Error × World :=
  if w.refuses "ImageRemove" imageID then (some ("cannot remove image " ++ imageID), w)
  else (none, { w with images := w.images.filter (fun i => i ≠ imageID) })

/-- Modelled from the spec: `docker.NetworkPrune`, absent from the sources at hand:
`NetworkPrune(appID, version)` removes the networks matching the identity labels. -/
def simNetworkPrune (applicationID versionName : String) (w : World) : Option Error × World :=
  if w.refuses "NetworkPrune" applicationID then (some "cannot prune networks", w)
  else
    (none, { w with
      networks := w.networks.filter (fun n => !hasLabels n.Labels applicationID versionName) })

/-- The simulated engine as a runtime.  The ledger arguments the call sites leave out are
the application ID, a container count of zero and `InTransition = false`; map keys are
iterated in insertion order. -/
def sim : Runtime World where
  ContainerCreate := simContainerCreate
  ContainerStart := simContainerStart
  ContainerStop := simContainerStop
  ContainerRemove := simContainerRemove
  ContainerList := simContainerList
  ReadDataServiceNetworks := simReadDataServiceNetworks
  ImageExists := simImageExists
  PullImage := simPullImage
  CreateNetwork := simCreateNetwork
  ImageRemove := simImageRemove
  NetworkPrune := simNetworkPrune
  statusArgs := fun applicationID _ _ => (applicationID, 0, false)
  rangeOrder := fun keys => keys
  rangeOrder_perm := fun keys => List.Perm.refl keys

/-- A state with an empty trace. -/
def St.init {σ : Type} (w : σ) (knownManifests : List ManifestStatus) : St σ :=
  { rt := w, knownManifests := knownManifests, trace := [] }

/-! ### Concrete inputs -/

/-- The identity labels of the service `demo`, version `1`. -/
def demoLabels : List (String × String) := [("manifestName", "demo"), ("versionNumber", "1")]

/-- A module of the service `demo` with the given container name and image. -/
def demoModule (name image : String) : ContainerConfig :=
  { ContainerName := name, ImageName := image, ImageTag := "latest", EntryPointArgs := [],
    EnvArgs := [], ExposedPorts := [], PortBinding := [], Labels := demoLabels,
    NetworkName := "", NetworkDriver := "bridge", MountConfigs := [], Resources := "",
    Registry := ⟨image ++ ":latest"⟩ }

/-- The two-module manifest `{name: "demo", version: "1"}`. -/
def demoManifest : Manifest :=
  { ID := "demo", VersionName := "1", ApplicationID := "app", Labels := demoLabels,
    Modules := [demoModule "m1" "img1", demoModule "m2" "img2"], NetworkName := "" }

/-- The manifest `demo` without modules. -/
def bareManifest : Manifest := { demoManifest with Modules := [] }

/-- A container of the service `demo`. -/
def demoContainer (name image state : String) : Container :=
  { ID := name, Names := ["/" ++ name], ImageID := image ++ ":latest", State := state,
    Status := "", Labels := demoLabels }

/-- A host with nothing on it. -/
def emptyWorld : World := { networks := [], containers := [], images := [], faults := [] }

/-- A host on which `demo` is deployed: its network, its two running containers, its two
images. -/
def deployedWorld : World :=
  { networks := [{ Name := "app", Labels := demoLabels }]
    containers := [demoContainer "m1" "img1" "running", demoContainer "m2" "img2" "running"]
    images := ["img1:latest", "img2:latest"]
    faults := [] }

/-- The host where `demo` is deployed, with an engine that refuses to prune its network. -/
def pruneRefusingWorld : World := { deployedWorld with faults := [("NetworkPrune", "demo")] }

/-- The host where `demo` is deployed, with an engine that refuses the host-wide container
listing. -/
def listRefusingWorld : World := { deployedWorld with faults := [("ContainerList", "")] }

/-- An empty host whose engine refuses to pull the image of the second module. -/
def pullRefusingWorld : World := { emptyWorld with faults := [("PullImage", "img2:latest")] }

/-- An empty host whose engine refuses to start the container of the second module. -/
def startRefusingWorld : World := { emptyWorld with faults := [("ContainerStart", "m2")] }

/-- The host where `demo` is deployed, with an engine that refuses to stop the first
container. -/
def stopRefusingWorld : World := { deployedWorld with faults := [("ContainerStop", "m1")] }

/-- The host where `demo` is deployed and has been stopped: both containers exited. -/
def stoppedWorld : World :=
  { deployedWorld with
    containers := [demoContainer "m1" "img1" "exited", demoContainer "m2" "img2" "exited"] }

/-- The ledger after `demo` has been deployed. -/
def deployedLedger : List ManifestStatus :=
  [{ ManifestID := "demo", ManifestUniqueID := ⟨"demo", "1"⟩, Status := "DEPLOYED",
     ContainerCount := 0, InTransition := false }]

end WeeveAgent

namespace WeeveAgent

/-! ## Reading traces -/

/-- The calls of a trace that go to the `docker` package, in order. -/
def dockerCalls (evs : List Event) : List Call :=
  (evs.map (·.call)).filter (fun c => match c with | .SetStatus _ _ _ => false | _ => true)

/-- The errors returned along a trace, in order. -/
def errorsOf (evs : List Event) : List Error := evs.filterMap (·.err)

/-- The value of `errorlist` after the errors have been appended to it with
`fmt.Sprintf("%v,%v", errorlist, err)`. -/
def appendErrors (errorlist : String) (errs : List Error) : String :=
  errs.foldl (fun acc err => acc ++ "," ++ err) errorlist

/-- The test of dataservice.go 249 for a key of `numContainersPerImage`: after the
containers of the host-wide listing with that image have been counted onto the entry, the
entry is zero. -/
def countIsZero (m : List (String × Nat)) (cs : List Container) (k : String) : Bool :=
  decide (mapGet m k + (cs.filter (fun c => c.ImageID = k)).length = 0)

/-- Calls that only read or tear down: the listings, the removals, the prune, and the
status writes.  `UndeployDataService` issues no other call. -/
def Call.isTeardown : Call → Bool
  | .ReadDataServiceNetworks _ _ => true
  | .ReadDataServiceContainers _ _ => true
  | .ReadAllContainers => true
  | .StopAndRemoveContainer _ => true
  | .ImageRemove _ => true
  | .NetworkPrune _ _ => true
  | .SetStatus _ _ _ => true
  | _ => false

/-- Calls that provision a deployment: image pull, network creation, container creation. -/
def Call.isProvision : Call → Bool
  | .PullImage _ => true
  | .CreateNetwork _ _ => true
  | .CreateAndStartContainer _ => true
  | _ => false

/-- The configurations passed to `CreateAndStartContainer` along a trace, in order. -/
def createdConfigs (evs : List Event) : List ContainerConfig :=
  evs.filterMap (fun ev =>
    match ev.call with
    | .CreateAndStartContainer containerConfig => some containerConfig
    | _ => none)

/-- The keys of `numContainersPerImage` once the removal loop has registered the listed
containers, in insertion order. -/
def imageKeys (dsContainers : List Container) : List String :=
  (dsContainers.foldl (fun acc c => mapSet acc c.ImageID 0) []).map Prod.fst

/-- A successful `CreateAndStartContainer` call on a configuration. -/
def created (containerConfig : ContainerConfig) : Event :=
  ⟨.CreateAndStartContainer containerConfig, none⟩

/-- Calls of the image step of a deployment: image lookup and image pull. -/
def Call.isImageStep : Call → Bool
  | .ImageExists _ => true
  | .PullImage _ => true
  | _ => false

/-- The statuses written along a trace, in order. -/
def statusWrites (evs : List Event) : List String :=
  evs.filterMap (fun ev =>
    match ev.call with
    | .SetStatus _ _ status => some status
    | _ => none)

/-- Calls that create a resource: a network or a container. -/
def Call.creates : Call → Bool
  | .CreateNetwork _ _ => true
  | .CreateAndStartContainer _ => true
  | _ => false

/-- The run that ended in `sf` wrote `status` for the identity as its last call, and the
ledger holds that status for the identity. -/
def endsWithStatus {σ : Type} (sf : St σ) (applicationID versionName status : String) : Prop :=
  sf.trace.getLast? = some ⟨.SetStatus applicationID versionName status, none⟩
    ∧ statusOf ⟨applicationID, versionName⟩ sf.knownManifests = some status

/-- A run of `UndeployDataService` from `s` that does nothing to the service: it returns
`nil`, its only calls are the network listing and the status write `UNDEPLOY_FAILED`, and
the engine is left as the listing left it. -/
def undeployIsNoop {σ : Type} (rt : Runtime σ) (applicationID versionName : String)
    (s : St σ) : Prop :=
  (UndeployDataService rt applicationID versionName s).1 = none
    ∧ (UndeployDataService rt applicationID versionName s).2.trace
        = s.trace ++ [⟨.ReadDataServiceNetworks applicationID versionName, none⟩,
            ⟨.SetStatus applicationID versionName "UNDEPLOY_FAILED", none⟩]
    ∧ (UndeployDataService rt applicationID versionName s).2.rt
        = (rt.ReadDataServiceNetworks applicationID versionName s.rt).2

/-- The test of `StopDataService` on a listed container (dataservice.go 134). -/
def isRunning (c : Container) : Bool := decide (c.State = "running")

/-- The test of `StartDataService` on a listed container (dataservice.go 174). -/
def isStartable (c : Container) : Bool :=
  decide (c.State = "exited" ∨ c.State = "created" ∨ c.State = "paused")

/-- A successful `StopContainer` call on a listed container. -/
def stopped (c : Container) : Event := ⟨.StopContainer c.ID, none⟩

/-- A successful `StartContainer` call on a listed container. -/
def started (c : Container) : Event := ⟨.StartContainer c.ID, none⟩

/-- What comes before step 2 in a run that gets there: the existence check and, for a
redeployment of an existing service, a teardown that returned no error.  All of it is
teardown calls, and none of them failed. -/
def isPrelude (evs : List Event) : Prop :=
  evs.all (fun ev => ev.call.isTeardown) = true ∧ errorsOf evs = []

/-- The image step up to the point where it ends: lookups and pulls that succeeded. -/
def isImagePhase (evs : List Event) : Prop :=
  evs.all (fun ev => ev.call.isImageStep) = true ∧ errorsOf evs = []

/-- The ways a run of `DeployDataService` from `s` can go, one constructor per exit of the
function: `r` is the returned error, `evs` the events of the run, `sf` the final state. -/
inductive DeployRun {σ : Type} (rt : Runtime σ) (man : Manifest) (command : String) (s : St σ)
    (r : Option Error) (evs : List Event) (sf : St σ) : Prop where
  /-- The existence check failed (dataservice.go 27-31). -/
  | existFailed (e : Error) (s1 : St σ)
      (hr : r = some e)
      (hevs : evs = [⟨.ReadDataServiceNetworks man.ID man.VersionName, some e⟩,
        ⟨.SetStatus man.ID man.VersionName (ToUpper command ++ "_FAILED"), none⟩])
      (hsf : sf = setStatus rt man.ID man.VersionName (ToUpper command ++ "_FAILED") s1)
  /-- The service exists and the command is `deploy` (dataservice.go 34-36). -/
  | alreadyExists
      (hc : command = CMDDeploy)
      (hex : (DataServiceExist rt man.ID man.VersionName s).1 = .ok true)
      (hr : r = some "data service already exists")
      (hevs : evs = [⟨.ReadDataServiceNetworks man.ID man.VersionName, none⟩])
      (hsf : sf.knownManifests = s.knownManifests)
  /-- The teardown before a redeployment returned an error (dataservice.go 38-45). -/
  | teardownFailed (evsU : List Event) (s1 : St σ)
      (hc : command = CMDReDeploy ∨ command = CMDDeployLocal)
      (hex : (DataServiceExist rt man.ID man.VersionName s).1 = .ok true)
      (hU : evsU.all (fun ev => ev.call.isTeardown) = true)
      (hfail : errorsOf evsU ≠ [])
      (hr : r = some "redeployment failed")
      (hevs : evs = [⟨.ReadDataServiceNetworks man.ID man.VersionName, none⟩] ++ evsU
        ++ [⟨.SetStatus man.ID man.VersionName (ToUpper command ++ "_FAILED"), none⟩])
      (hsf : sf = setStatus rt man.ID man.VersionName (ToUpper command ++ "_FAILED") s1)
  /-- An image lookup failed (dataservice.go 55-59). -/
  | lookupFailed (pre evsP : List Event) (img : String) (e : Error)
      (hpre : isPrelude pre) (hP : isImagePhase evsP)
      (hr : r = some e)
      (hevs : evs = pre ++ evsP ++ [⟨.ImageExists img, some e⟩])
  /-- An image pull failed (dataservice.go 65-72). -/
  | pullFailed (pre evsP : List Event) (img : RegistryDetails) (e : Error) (s1 : St σ)
      (hpre : isPrelude pre) (hP : isImagePhase evsP)
      (hr : r = some "unable to pull image/s")
      (hevs : evs = pre ++ evsP ++ [⟨.PullImage img, some e⟩,
        ⟨.SetStatus man.ID man.VersionName (ToUpper command), none⟩])
      (hsf : sf = setStatus rt man.ID man.VersionName (ToUpper command) s1)
  /-- The network creation failed (dataservice.go 79-84). -/
  | networkFailed (pre evsP : List Event) (e : Error) (s1 : St σ)
      (hpre : isPrelude pre) (hP : isImagePhase evsP)
      (hr : r = some e)
      (hevs : evs = pre ++ evsP ++ [⟨.CreateNetwork man.ApplicationID man.Labels, some e⟩,
        ⟨.SetStatus man.ID man.VersionName (ToUpper command ++ "_FAILED"), none⟩])
      (hsf : sf = setStatus rt man.ID man.VersionName (ToUpper command ++ "_FAILED") s1)
  /-- The manifest has no modules (dataservice.go 94-100). -/
  | noModules (pre evsP evsU : List Event) (sMid : St σ)
      (hpre : isPrelude pre) (hP : isImagePhase evsP)
      (hmods : man.Modules = [])
      (hr : r = some "no valid contianers in manifest")
      (hmid : sMid.trace = s.trace ++ pre ++ evsP
        ++ [⟨.CreateNetwork man.ApplicationID man.Labels, none⟩,
            ⟨.SetStatus man.ID man.VersionName (ToUpper command ++ "_FAILED"), none⟩])
      (hU : evsU.all (fun ev => ev.call.isTeardown) = true)
      (hevs : evs = pre ++ evsP
        ++ [⟨.CreateNetwork man.ApplicationID man.Labels, none⟩,
            ⟨.SetStatus man.ID man.VersionName (ToUpper command ++ "_FAILED"), none⟩] ++ evsU)
      (hsf : sf = (UndeployDataService rt man.ID man.VersionName sMid).2)
  /-- A container could not be created or started (dataservice.go 104-111). -/
  | createFailed (pre evsP evsU : List Event) (networkName : String)
      (done : List ContainerConfig) (m : ContainerConfig) (rest : List ContainerConfig)
      (e : Error) (sMid : St σ)
      (hpre : isPrelude pre) (hP : isImagePhase evsP)
      (hmods : (UpdateManifest man networkName).Modules = done ++ m :: rest)
      (hr : r = some e)
      (hmid : sMid.trace = s.trace ++ pre ++ evsP
        ++ [⟨.CreateNetwork man.ApplicationID man.Labels, none⟩] ++ done.map created
        ++ [⟨.CreateAndStartContainer m, some e⟩,
            ⟨.SetStatus man.ID man.VersionName (ToUpper command ++ "_FAILED"), none⟩])
      (hU : evsU.all (fun ev => ev.call.isTeardown) = true)
      (hevs : evs = pre ++ evsP
        ++ [⟨.CreateNetwork man.ApplicationID man.Labels, none⟩] ++ done.map created
        ++ [⟨.CreateAndStartContainer m, some e⟩,
            ⟨.SetStatus man.ID man.VersionName (ToUpper command ++ "_FAILED"), none⟩] ++ evsU)
      (hsf : sf = (UndeployDataService rt man.ID man.VersionName sMid).2)
  /-- Every step went through (dataservice.go 116-118). -/
  | succeeded (pre evsP : List Event) (networkName : String) (s1 : St σ)
      (hpre : isPrelude pre) (hP : isImagePhase evsP)
      (hmods : man.Modules ≠ [])
      (hr : r = none)
      (hevs : evs = pre ++ evsP
        ++ [⟨.CreateNetwork man.ApplicationID man.Labels, none⟩]
        ++ (UpdateManifest man networkName).Modules.map created
        ++ [⟨.SetStatus man.ID man.VersionName (ToUpper command ++ "ED"), none⟩])
      (hsf : sf = setStatus rt man.ID man.VersionName (ToUpper command ++ "ED") s1)

end WeeveAgent

namespace WeeveAgent

/-! ## Basic facts about calls, status writes and `errorlist` -/

section Basics
variable {σ : Type}

theorem callE_eq {α : Type} {s s1 : St σ} {c : Call} {f : σ → Except Error α × σ}
    {r : Except Error α} (h : s.callE c f = (r, s1)) :
    s1.trace = s.trace ++ [⟨c, errOf r⟩] ∧ s1.knownManifests = s.knownManifests
      ∧ f s.rt = (r, s1.rt) := by
  simp only [St.callE, Prod.mk.injEq] at h
  obtain ⟨h1, h2⟩ := h
  subst h2
  subst h1
  exact ⟨rfl, rfl, rfl⟩

theorem callO_eq {s s1 : St σ} {c : Call} {f : σ → Option Error × σ} {o : Option Error}
    (h : s.callO c f = (o, s1)) :
    s1.trace = s.trace ++ [⟨c, o⟩] ∧ s1.knownManifests = s.knownManifests
      ∧ f s.rt = (o, s1.rt) := by
  simp only [St.callO, Prod.mk.injEq] at h
  obtain ⟨h1, h2⟩ := h
  subst h2
  subst h1
  exact ⟨rfl, rfl, rfl⟩

@[simp] theorem setStatus_trace (rt : Runtime σ) (a v st : String) (s : St σ) :
    (setStatus rt a v st s).trace = s.trace ++ [⟨.SetStatus a v st, none⟩] := rfl

@[simp] theorem setStatus_rt (rt : Runtime σ) (a v st : String) (s : St σ) :
    (setStatus rt a v st s).rt = s.rt := rfl

theorem append_comma_ne_empty (a e : String) : a ++ "," ++ e ≠ "" := by
  intro h
  have := congrArg String.data h
  simp at this

theorem appendErrors_append (errorlist : String) (xs ys : List Error) :
    appendErrors errorlist (xs ++ ys) = appendErrors (appendErrors errorlist xs) ys := by
  simp [appendErrors, List.foldl_append]

theorem appendErrors_ne_empty (errs : List Error) :
    ∀ errorlist : String, errorlist ≠ "" ∨ errs ≠ [] → appendErrors errorlist errs ≠ "" := by
  induction errs with
  | nil => intro errorlist h; simpa [appendErrors] using h
  | cons e rest ih =>
    intro errorlist _
    have := ih (errorlist ++ "," ++ e) (Or.inl (append_comma_ne_empty errorlist e))
    simpa [appendErrors] using this

theorem errorsOf_eq_nil_iff (evs : List Event) :
    errorsOf evs = [] ↔ ∀ ev ∈ evs, ev.err = none := by
  simp [errorsOf]

@[simp] theorem errorsOf_append (xs ys : List Event) :
    errorsOf (xs ++ ys) = errorsOf xs ++ errorsOf ys := by
  simp [errorsOf, List.filterMap_append]

@[simp] theorem dockerCalls_append (xs ys : List Event) :
    dockerCalls (xs ++ ys) = dockerCalls xs ++ dockerCalls ys := by
  simp [dockerCalls]

end Basics

/-! ## The map `numContainersPerImage` -/

theorem mem_mapSet_keys (m : List (String × Nat)) (key : String) (value : Nat) (k : String) :
    k ∈ (mapSet m key value).map Prod.fst ↔ k ∈ m.map Prod.fst ∨ k = key := by
  induction m with
  | nil => simp [mapSet]
  | cons p rest ih =>
    obtain ⟨k0, v0⟩ := p
    by_cases h : k0 = key
    · subst h
      simp only [mapSet, if_true, List.map_cons, List.mem_cons]
      tauto
    · simp only [mapSet, if_neg h, List.map_cons, List.mem_cons, ih]
      tauto

theorem nodup_mapSet_keys (m : List (String × Nat)) (key : String) (value : Nat)
    (h : (m.map Prod.fst).Nodup) : ((mapSet m key value).map Prod.fst).Nodup := by
  induction m with
  | nil => simp [mapSet]
  | cons p rest ih =>
    obtain ⟨k0, v0⟩ := p
    simp only [List.map_cons, List.nodup_cons] at h
    by_cases hk : k0 = key
    · subst hk
      simpa [mapSet] using h
    · simp only [mapSet, if_neg hk, List.map_cons, List.nodup_cons, mem_mapSet_keys]
      exact ⟨fun hc => hc.elim h.1 hk, ih h.2⟩

theorem mapSet_zero_values (m : List (String × Nat)) (key : String)
    (h : ∀ p ∈ m, p.2 = 0) : ∀ p ∈ mapSet m key 0, p.2 = 0 := by
  induction m with
  | nil => intro p hp; simp [mapSet] at hp; simp [hp]
  | cons q rest ih =>
    obtain ⟨k0, v0⟩ := q
    have hrest : ∀ p ∈ rest, p.2 = 0 := fun p hp => h p (List.mem_cons_of_mem _ hp)
    intro p hp
    by_cases hk : k0 = key
    · simp only [mapSet, if_pos hk, List.mem_cons] at hp
      rcases hp with hp | hp
      · simp [hp]
      · exact hrest p hp
    · simp only [mapSet, if_neg hk, List.mem_cons] at hp
      rcases hp with hp | hp
      · subst hp
        exact h (k0, v0) (List.mem_cons_self _ _)
      · exact ih hrest p hp

theorem mapGet_eq_zero (m : List (String × Nat)) (h : ∀ p ∈ m, p.2 = 0) (k : String) :
    mapGet m k = 0 := by
  induction m with
  | nil => simp [mapGet]
  | cons q rest ih =>
    obtain ⟨k0, v0⟩ := q
    have hv : v0 = 0 := h (k0, v0) (List.mem_cons_self _ _)
    have hrest : ∀ p ∈ rest, p.2 = 0 := fun p hp => h p (List.mem_cons_of_mem _ hp)
    by_cases hk : k0 = k
    · simp [mapGet, hk, hv]
    · simp [mapGet, hk, ih hrest]

/-! ## `UndeployDataService` -/

section Undeploy
variable {σ : Type}

theorem DataServiceExist_eq {rt : Runtime σ} {a v : String} {s s1 : St σ}
    {r : Except Error Bool} (h : DataServiceExist rt a v s = (r, s1)) :
    s1.trace = s.trace ++ [⟨.ReadDataServiceNetworks a v, errOf r⟩]
      ∧ s1.knownManifests = s.knownManifests := by
  unfold DataServiceExist at h
  rcases hc : s.callE (.ReadDataServiceNetworks a v) (rt.ReadDataServiceNetworks a v)
    with ⟨r0, s0⟩
  obtain ⟨ht, hk, -⟩ := callE_eq hc
  rw [hc] at h
  cases r0 with
  | error e =>
    simp only [Prod.mk.injEq] at h
    obtain ⟨h1, h2⟩ := h
    subst h1 h2
    exact ⟨ht, hk⟩
  | ok nets =>
    simp only at h
    split at h <;>
    · simp only [Prod.mk.injEq] at h
      obtain ⟨h1, h2⟩ := h
      subst h1 h2
      exact ⟨ht, hk⟩

/-- The removal loop issues `StopAndRemoveContainer` for every listed container, in order,
whatever fails; `errorlist` collects the errors and the map collects the image IDs. -/
theorem removeContainers_spec (rt : Runtime σ) (a v : String) :
    ∀ (ds : List Container) (m : List (String × Nat)) (errorlist : String) (s : St σ),
      ∃ evs, (removeContainers rt a v ds m errorlist s).2.2.trace = s.trace ++ evs
        ∧ dockerCalls evs = ds.map (fun c => Call.StopAndRemoveContainer c.ID)
        ∧ evs.all (fun ev => ev.call.isTeardown) = true
        ∧ (removeContainers rt a v ds m errorlist s).2.1
            = appendErrors errorlist (errorsOf evs)
        ∧ (removeContainers rt a v ds m errorlist s).1
            = ds.foldl (fun acc c => mapSet acc c.ImageID 0) m := by
  intro ds
  induction ds with
  | nil =>
    intro m errorlist s
    exact ⟨[], by simp [removeContainers, dockerCalls, errorsOf, appendErrors]⟩
  | cons d rest ih =>
    intro m errorlist s
    rcases hc : s.callO (.StopAndRemoveContainer d.ID) (StopAndRemoveContainer rt d.ID)
      with ⟨o, s1⟩
    obtain ⟨ht, -, -⟩ := callO_eq hc
    cases o with
    | none =>
      obtain ⟨evs, h1, h2, h3, h4, h5⟩ := ih (mapSet m d.ImageID 0) errorlist s1
      refine ⟨⟨.StopAndRemoveContainer d.ID, none⟩ :: evs, ?_, ?_, ?_, ?_, ?_⟩
      · simp [removeContainers, hc, h1, ht]
      · simpa [dockerCalls] using h2
      · simp [h3]; simp [Call.isTeardown]
      · simp only [removeContainers, hc, h4]
        simp [errorsOf]
      · simp only [removeContainers, hc, h5, List.foldl_cons]
    | some e =>
      obtain ⟨evs, h1, h2, h3, h4, h5⟩ :=
        ih (mapSet m d.ImageID 0) (errorlist ++ "," ++ e) (setStatus rt a v "UNDEPLOY_FAILED" s1)
      refine ⟨⟨.StopAndRemoveContainer d.ID, some e⟩
        :: ⟨.SetStatus a v "UNDEPLOY_FAILED", none⟩ :: evs, ?_, ?_, ?_, ?_, ?_⟩
      · simp [removeContainers, hc, h1, ht]
      · simpa [dockerCalls] using h2
      · simp [h3]; simp [Call.isTeardown]
      · simp only [removeContainers, hc, h4]
        simp [errorsOf, appendErrors]
      · simp only [removeContainers, hc, h5, List.foldl_cons]

/-- The image loop issues `ImageRemove` exactly for the keys whose count is zero, in
iteration order, whatever fails. -/
theorem removeImages_spec (rt : Runtime σ) (a v : String) (cs : List Container)
    (m : List (String × Nat)) :
    ∀ (keys : List String) (errorlist : String) (s : St σ),
      ∃ evs, (removeImages rt a v cs m keys errorlist s).2.trace = s.trace ++ evs
        ∧ dockerCalls evs = (keys.filter (countIsZero m cs)).map Call.ImageRemove
        ∧ evs.all (fun ev => ev.call.isTeardown) = true
        ∧ (removeImages rt a v cs m keys errorlist s).1
            = appendErrors errorlist (errorsOf evs) := by
  intro keys
  induction keys with
  | nil =>
    intro errorlist s
    exact ⟨[], by simp [removeImages, dockerCalls, errorsOf, appendErrors]⟩
  | cons k rest ih =>
    intro errorlist s
    by_cases hz : mapGet m k + (cs.filter (fun c => c.ImageID = k)).length = 0
    · have hp : countIsZero m cs k = true := decide_eq_true hz
      rcases hc : s.callO (.ImageRemove k) (rt.ImageRemove k) with ⟨o, s1⟩
      obtain ⟨ht, -, -⟩ := callO_eq hc
      cases o with
      | none =>
        obtain ⟨evs, h1, h2, h3, h4⟩ := ih errorlist s1
        refine ⟨⟨.ImageRemove k, none⟩ :: evs, ?_, ?_, ?_, ?_⟩
        · simp only [removeImages, if_pos hz, hc]
          simp [h1, ht]
        · rw [List.filter_cons_of_pos hp, List.map_cons, ← h2]
          rfl
        · simp [h3]; simp [Call.isTeardown]
        · simp only [removeImages, if_pos hz, hc, h4]
          simp [errorsOf]
      | some e =>
        obtain ⟨evs, h1, h2, h3, h4⟩ :=
          ih (errorlist ++ "," ++ e) (setStatus rt a v "UNDEPLOY_FAILED" s1)
        refine ⟨⟨.ImageRemove k, some e⟩
          :: ⟨.SetStatus a v "UNDEPLOY_FAILED", none⟩ :: evs, ?_, ?_, ?_, ?_⟩
        · simp only [removeImages, if_pos hz, hc]
          simp [h1, ht]
        · rw [List.filter_cons_of_pos hp, List.map_cons, ← h2]
          rfl
        · simp [h3]; simp [Call.isTeardown]
        · simp only [removeImages, if_pos hz, hc, h4]
          simp [errorsOf, appendErrors]
    · have hp : ¬ countIsZero m cs k = true := by
        simpa [countIsZero] using hz
      obtain ⟨evs, h1, h2, h3, h4⟩ := ih errorlist s
      refine ⟨evs, ?_, ?_, h3, ?_⟩
      · simp only [removeImages, if_neg hz, h1]
      · rw [List.filter_cons_of_neg hp, ← h2]
      · simp only [removeImages, if_neg hz, h4]

theorem pruneNetwork_spec (rt : Runtime σ) (a v : String) (errorlist : String) (s : St σ) :
    ∃ evs, (pruneNetwork rt a v errorlist s).2.trace = s.trace ++ evs
      ∧ dockerCalls evs = [Call.NetworkPrune a v]
      ∧ evs.all (fun ev => ev.call.isTeardown) = true
      ∧ (pruneNetwork rt a v errorlist s).1 = appendErrors errorlist (errorsOf evs) := by
  rcases hc : s.callO (.NetworkPrune a v) (rt.NetworkPrune a v) with ⟨o, s1⟩
  obtain ⟨ht, -, -⟩ := callO_eq hc
  cases o with
  | none =>
    refine ⟨[⟨.NetworkPrune a v, none⟩], ?_, ?_, ?_, ?_⟩
    · simp only [pruneNetwork, hc, ht]
    · simp [dockerCalls]
    · simp [Call.isTeardown]
    · simp [pruneNetwork, hc, errorsOf, appendErrors]
  | some e =>
    refine ⟨[⟨.NetworkPrune a v, some e⟩, ⟨.SetStatus a v "UNDEPLOY_FAILED", none⟩],
      ?_, ?_, ?_, ?_⟩
    · simp [pruneNetwork, hc, ht]
    · simp [dockerCalls]
    · simp [Call.isTeardown]
    · simp [pruneNetwork, hc, errorsOf, appendErrors]

/-- Every run of `UndeployDataService` only issues teardown calls, returns `nil` exactly
when no call failed, and ends with a status write of `UNDEPLOY_FAILED` or `UNDEPLOYED`. -/
theorem UndeployDataService_spec (rt : Runtime σ) (a v : String) (s : St σ) :
    ∃ evs, (UndeployDataService rt a v s).2.trace = s.trace ++ evs
      ∧ evs.all (fun ev => ev.call.isTeardown) = true
      ∧ ((UndeployDataService rt a v s).1 = none ↔ errorsOf evs = [])
      ∧ ∃ st s1, (st = "UNDEPLOY_FAILED" ∨ st = "UNDEPLOYED")
          ∧ (UndeployDataService rt a v s).2 = setStatus rt a v st s1
          ∧ evs.getLast? = some ⟨.SetStatus a v st, none⟩ := by
  rcases hE : DataServiceExist rt a v s with ⟨r, s1⟩
  obtain ⟨ht1, -⟩ := DataServiceExist_eq hE
  cases r with
  | error e =>
    refine ⟨[⟨.ReadDataServiceNetworks a v, some e⟩, ⟨.SetStatus a v "UNDEPLOY_FAILED", none⟩],
      ?_, ?_, ?_, "UNDEPLOY_FAILED", s1, Or.inl rfl, ?_, rfl⟩
    · simp [UndeployDataService, hE, ht1, errOf]
    · simp [Call.isTeardown]
    · simp [UndeployDataService, hE, errorsOf]
    · simp only [UndeployDataService, hE]
  | ok b =>
    cases b with
    | false =>
      refine ⟨[⟨.ReadDataServiceNetworks a v, none⟩, ⟨.SetStatus a v "UNDEPLOY_FAILED", none⟩],
        ?_, ?_, ?_, "UNDEPLOY_FAILED", s1, Or.inl rfl, ?_, rfl⟩
      · simp [UndeployDataService, hE, ht1, errOf]
      · simp [Call.isTeardown]
      · simp [UndeployDataService, hE, errorsOf]
      · simp only [UndeployDataService, hE]
    | true =>
      rcases hL : s1.callE (.ReadDataServiceContainers a v) (ReadDataServiceContainers rt a v)
        with ⟨rl, s2⟩
      obtain ⟨ht2, -, -⟩ := callE_eq hL
      cases rl with
      | error e =>
        refine ⟨[⟨.ReadDataServiceNetworks a v, none⟩,
          ⟨.ReadDataServiceContainers a v, some e⟩, ⟨.SetStatus a v "UNDEPLOY_FAILED", none⟩],
          ?_, ?_, ?_, "UNDEPLOY_FAILED", s2, Or.inl rfl, ?_, rfl⟩
        · simp [UndeployDataService, hE, hL, ht1, ht2, errOf]
        · simp [Call.isTeardown]
        · simp [UndeployDataService, hE, hL, errorsOf]
        · simp only [UndeployDataService, hE, hL]
      | ok ds =>
        obtain ⟨evs3, h3t, -, h3k, h3e, -⟩ := removeContainers_spec rt a v ds [] "" s2
        rcases hR : removeContainers rt a v ds [] "" s2 with ⟨m, el3, s3⟩
        rw [hR] at h3t h3e
        simp only at h3t h3e
        rcases hA : s3.callE .ReadAllContainers (ReadAllContainers rt) with ⟨ra, s4⟩
        obtain ⟨ht4, -, -⟩ := callE_eq hA
        cases ra with
        | error e =>
          refine ⟨[⟨.ReadDataServiceNetworks a v, none⟩,
            ⟨.ReadDataServiceContainers a v, none⟩] ++ evs3 ++
            [⟨.ReadAllContainers, some e⟩] ++ [⟨.SetStatus a v "UNDEPLOY_FAILED", none⟩],
            ?_, ?_, ?_, "UNDEPLOY_FAILED", s4, Or.inl rfl, ?_, List.getLast?_concat _⟩
          · simp [UndeployDataService, hE, hL, hR, hA, ht1, ht2, h3t, ht4, errOf]
          · simp [h3k]; simp [Call.isTeardown]
          · simp [UndeployDataService, hE, hL, hR, hA, errorsOf]
          · simp only [UndeployDataService, hE, hL, hR, hA]
        | ok cs =>
          obtain ⟨evs5, h5t, -, h5k, h5e⟩ :=
            removeImages_spec rt a v cs m (rt.rangeOrder (m.map Prod.fst)) el3 s4
          rcases hI : removeImages rt a v cs m (rt.rangeOrder (m.map Prod.fst)) el3 s4
            with ⟨el5, s5⟩
          rw [hI] at h5t h5e
          simp only at h5t h5e
          obtain ⟨evs6, h6t, -, h6k, h6e⟩ := pruneNetwork_spec rt a v el5 s5
          rcases hP : pruneNetwork rt a v el5 s5 with ⟨el6, s6⟩
          rw [hP] at h6t h6e
          simp only at h6t h6e
          have hel : el6 = appendErrors "" (errorsOf (evs3 ++ evs5 ++ evs6)) := by
            rw [h6e, h5e, h3e, errorsOf_append, errorsOf_append, appendErrors_append,
              appendErrors_append]
          refine ⟨[⟨.ReadDataServiceNetworks a v, none⟩,
            ⟨.ReadDataServiceContainers a v, none⟩] ++ evs3 ++ [⟨.ReadAllContainers, none⟩]
            ++ evs5 ++ evs6 ++ [⟨.SetStatus a v "UNDEPLOYED", none⟩],
            ?_, ?_, ?_, "UNDEPLOYED", s6, Or.inr rfl, ?_, List.getLast?_concat _⟩
          · simp only [UndeployDataService, hE, hL, hR, hA, hI, hP]
            split <;> simp [ht1, ht2, h3t, ht4, h5t, h6t, errOf]
          · simp [h3k, h5k, h6k]; simp [Call.isTeardown]
          · simp only [UndeployDataService, hE, hL, hR, hA, hI, hP]
            have hsplit : errorsOf ([⟨.ReadDataServiceNetworks a v, none⟩,
                ⟨.ReadDataServiceContainers a v, none⟩] ++ evs3 ++ [⟨.ReadAllContainers, none⟩]
                ++ evs5 ++ evs6 ++ [⟨.SetStatus a v "UNDEPLOYED", none⟩])
                = errorsOf (evs3 ++ evs5 ++ evs6) := by
              simp [errorsOf]
            rw [hsplit]
            by_cases hne : errorsOf (evs3 ++ evs5 ++ evs6) = []
            · have hempty : el6 = "" := by rw [hel, hne]; rfl
              rw [if_neg (not_not.2 hempty)]
              exact ⟨fun _ => hne, fun _ => rfl⟩
            · have hnonempty : el6 ≠ "" := by
                rw [hel]; exact appendErrors_ne_empty _ _ (Or.inr hne)
              rw [if_pos hnonempty]
              exact ⟨fun h => by simp at h, fun h => absurd h hne⟩
          · simp only [UndeployDataService, hE, hL, hR, hA, hI, hP]
            split <;> rfl

/-! ### The keys of `numContainersPerImage` -/

theorem foldl_mapSet_values (ds : List Container) :
    ∀ m : List (String × Nat), (∀ p ∈ m, p.2 = 0) →
      ∀ p ∈ ds.foldl (fun acc c => mapSet acc c.ImageID 0) m, p.2 = 0 := by
  induction ds with
  | nil => intro m hm; simpa using hm
  | cons d rest ih =>
    intro m hm
    simpa using ih (mapSet m d.ImageID 0) (mapSet_zero_values m d.ImageID hm)

theorem mem_foldl_mapSet_keys (ds : List Container) (k : String) :
    ∀ m : List (String × Nat),
      k ∈ (ds.foldl (fun acc c => mapSet acc c.ImageID 0) m).map Prod.fst
        ↔ k ∈ m.map Prod.fst ∨ ∃ c ∈ ds, c.ImageID = k := by
  induction ds with
  | nil => intro m; simp
  | cons d rest ih =>
    intro m
    rw [List.foldl_cons, ih (mapSet m d.ImageID 0), mem_mapSet_keys]
    simp only [List.mem_cons, exists_eq_or_imp]
    constructor
    · rintro ((h | h) | h)
      · exact Or.inl h
      · exact Or.inr (Or.inl h.symm)
      · exact Or.inr (Or.inr h)
    · rintro (h | h | h)
      · exact Or.inl (Or.inl h)
      · exact Or.inl (Or.inr h.symm)
      · exact Or.inr h

theorem nodup_foldl_mapSet_keys (ds : List Container) :
    ∀ m : List (String × Nat), (m.map Prod.fst).Nodup →
      ((ds.foldl (fun acc c => mapSet acc c.ImageID 0) m).map Prod.fst).Nodup := by
  induction ds with
  | nil => intro m hm; simpa using hm
  | cons d rest ih =>
    intro m hm
    simpa using ih (mapSet m d.ImageID 0) (nodup_mapSet_keys m d.ImageID 0 hm)

theorem mem_imageKeys (ds : List Container) (k : String) :
    k ∈ imageKeys ds ↔ ∃ c ∈ ds, c.ImageID = k := by
  unfold imageKeys
  rw [mem_foldl_mapSet_keys]
  simp

theorem nodup_imageKeys (ds : List Container) : (imageKeys ds).Nodup :=
  nodup_foldl_mapSet_keys ds [] (by simp)

theorem countIsZero_eq (m : List (String × Nat)) (hm : ∀ p ∈ m, p.2 = 0)
    (cs : List Container) (k : String) :
    countIsZero m cs k = cs.all (fun c => decide (c.ImageID ≠ k)) := by
  rw [Bool.eq_iff_iff]
  simp [countIsZero, mapGet_eq_zero m hm, List.filter_eq_nil_iff]

/-- The calls of a run of `UndeployDataService` in which the service exists and both
listings succeed: the three teardown steps in full, whatever the removals and the prune
return. -/
theorem UndeployDataService_calls (rt : Runtime σ) (a v : String) (s : St σ)
    (ds cs : List Container) (h : undeployListings rt a v s = some (ds, cs)) :
    ∃ evs, (UndeployDataService rt a v s).2.trace = s.trace ++ evs
      ∧ dockerCalls evs
        = [Call.ReadDataServiceNetworks a v, Call.ReadDataServiceContainers a v]
          ++ ds.map (fun c => Call.StopAndRemoveContainer c.ID)
          ++ [Call.ReadAllContainers]
          ++ ((rt.rangeOrder (imageKeys ds)).filter
                (fun k => cs.all (fun c => decide (c.ImageID ≠ k)))).map Call.ImageRemove
          ++ [Call.NetworkPrune a v] := by
  rcases hE : DataServiceExist rt a v s with ⟨r, s1⟩
  obtain ⟨ht1, -⟩ := DataServiceExist_eq hE
  simp only [undeployListings, hE] at h
  cases r with
  | error e => simp at h
  | ok b =>
    cases b with
    | false => simp at h
    | true =>
      simp only at h
      rcases hL : s1.callE (.ReadDataServiceContainers a v) (ReadDataServiceContainers rt a v)
        with ⟨rl, s2⟩
      obtain ⟨ht2, -, -⟩ := callE_eq hL
      simp only [hL] at h
      cases rl with
      | error e => simp at h
      | ok ds0 =>
        simp only at h
        obtain ⟨evs3, h3t, h3c, -, -, h3m⟩ := removeContainers_spec rt a v ds0 [] "" s2
        rcases hR : removeContainers rt a v ds0 [] "" s2 with ⟨m, el3, s3⟩
        rw [hR] at h3t h3m h
        simp only at h3t h3m h
        rcases hA : s3.callE .ReadAllContainers (ReadAllContainers rt) with ⟨ra, s4⟩
        obtain ⟨ht4, -, -⟩ := callE_eq hA
        simp only [hA] at h
        cases ra with
        | error e => simp at h
        | ok cs0 =>
          simp only [Option.some.injEq, Prod.mk.injEq] at h
          obtain ⟨hds, hcs⟩ := h
          subst hds hcs
          obtain ⟨evs5, h5t, h5c, -, -⟩ :=
            removeImages_spec rt a v cs0 m (rt.rangeOrder (m.map Prod.fst)) el3 s4
          rcases hI : removeImages rt a v cs0 m (rt.rangeOrder (m.map Prod.fst)) el3 s4
            with ⟨el5, s5⟩
          rw [hI] at h5t
          simp only at h5t
          obtain ⟨evs6, h6t, h6c, -, -⟩ := pruneNetwork_spec rt a v el5 s5
          rcases hP : pruneNetwork rt a v el5 s5 with ⟨el6, s6⟩
          rw [hP] at h6t
          simp only at h6t
          have hvals : ∀ p ∈ m, p.2 = 0 := by
            rw [h3m]
            exact foldl_mapSet_values ds0 [] (by simp)
          have hfilter : (rt.rangeOrder (m.map Prod.fst)).filter (countIsZero m cs0)
              = (rt.rangeOrder (imageKeys ds0)).filter
                  (fun k => cs0.all (fun c => decide (c.ImageID ≠ k))) := by
            have hkeys : m.map Prod.fst = imageKeys ds0 := by rw [h3m]; rfl
            rw [hkeys]
            exact List.filter_congr (fun k _ => countIsZero_eq m hvals cs0 k)
          refine ⟨[⟨.ReadDataServiceNetworks a v, none⟩,
            ⟨.ReadDataServiceContainers a v, none⟩] ++ evs3 ++ [⟨.ReadAllContainers, none⟩]
            ++ evs5 ++ evs6 ++ [⟨.SetStatus a v "UNDEPLOYED", none⟩], ?_, ?_⟩
          · simp only [UndeployDataService, hE, hL, hR, hA, hI, hP]
            split <;> simp [ht1, ht2, h3t, ht4, h5t, h6t, errOf]
          · simp only [dockerCalls_append, h3c, h5c, h6c, hfilter]
            simp [dockerCalls]

end Undeploy

/-! ## `DeployDataService` -/

section Deploy
variable {σ : Type}

/-- The image loop: it ends without error after successful lookups and pulls, or at the
first failed lookup (no status written), or at the first failed pull (the bare
upper-cased command written as status). -/
theorem pullImages_spec (rt : Runtime σ) (man : Manifest) (c : String) :
    ∀ (mods : List ContainerConfig) (s : St σ),
      ∃ evsP, evsP.all (fun ev => ev.call.isImageStep) = true ∧ errorsOf evsP = []
        ∧ (((pullImages rt man c mods s).1 = none
              ∧ (pullImages rt man c mods s).2.trace = s.trace ++ evsP)
          ∨ (∃ img e, (pullImages rt man c mods s).1 = some e
              ∧ (pullImages rt man c mods s).2.trace
                  = s.trace ++ evsP ++ [⟨.ImageExists img, some e⟩])
          ∨ (∃ img e s1, (pullImages rt man c mods s).1 = some "unable to pull image/s"
              ∧ (pullImages rt man c mods s).2 = setStatus rt man.ID man.VersionName (ToUpper c) s1
              ∧ (pullImages rt man c mods s).2.trace
                  = s.trace ++ evsP ++ [⟨.PullImage img, some e⟩,
                      ⟨.SetStatus man.ID man.VersionName (ToUpper c), none⟩])) := by
  intro mods
  induction mods with
  | nil =>
    intro s
    exact ⟨[], rfl, rfl, Or.inl ⟨rfl, by simp [pullImages]⟩⟩
  | cons m rest ih =>
    intro s
    rcases hc : s.callE (.ImageExists m.Registry.ImageName)
      (rt.ImageExists m.Registry.ImageName) with ⟨r, s1⟩
    obtain ⟨ht, -, -⟩ := callE_eq hc
    cases r with
    | error e =>
      refine ⟨[], rfl, rfl, Or.inr (Or.inl ⟨m.Registry.ImageName, e, ?_, ?_⟩)⟩
      · simp [pullImages, hc]
      · simp [pullImages, hc, ht, errOf]
    | ok b =>
      cases b with
      | true =>
        obtain ⟨evsP, hall, herr, hcases⟩ := ih s1
        refine ⟨⟨.ImageExists m.Registry.ImageName, none⟩ :: evsP, ?_, ?_, ?_⟩
        · simp [hall]; simp [Call.isImageStep]
        · simpa [errorsOf] using herr
        · simp only [pullImages, hc]
          rcases hcases with ⟨h1, h2⟩ | ⟨img, e, h1, h2⟩ | ⟨img, e, s2, h1, h2, h3⟩
          · exact Or.inl ⟨h1, by simp [h2, ht, errOf]⟩
          · exact Or.inr (Or.inl ⟨img, e, h1, by simp [h2, ht, errOf]⟩)
          · exact Or.inr (Or.inr ⟨img, e, s2, h1, h2, by simp [h3, ht, errOf]⟩)
      | false =>
        rcases hp : s1.callO (.PullImage m.Registry) (rt.PullImage m.Registry) with ⟨o, s2⟩
        obtain ⟨htp, -, -⟩ := callO_eq hp
        cases o with
        | some e =>
          refine ⟨[⟨.ImageExists m.Registry.ImageName, none⟩], ?_, ?_,
            Or.inr (Or.inr ⟨m.Registry, e, s2, ?_, ?_, ?_⟩)⟩
          · simp [Call.isImageStep]
          · simp [errorsOf]
          · simp [pullImages, hc, hp]
          · simp [pullImages, hc, hp]
          · simp [pullImages, hc, hp, ht, htp, errOf]
        | none =>
          obtain ⟨evsP, hall, herr, hcases⟩ := ih s2
          refine ⟨⟨.ImageExists m.Registry.ImageName, none⟩
            :: ⟨.PullImage m.Registry, none⟩ :: evsP, ?_, ?_, ?_⟩
          · simp [hall]; simp [Call.isImageStep]
          · simpa [errorsOf] using herr
          · simp only [pullImages, hc, hp]
            rcases hcases with ⟨h1, h2⟩ | ⟨img, e, h1, h2⟩ | ⟨img, e, s3, h1, h2, h3⟩
            · exact Or.inl ⟨h1, by simp [h2, ht, htp, errOf]⟩
            · exact Or.inr (Or.inl ⟨img, e, h1, by simp [h2, ht, htp, errOf]⟩)
            · exact Or.inr (Or.inr ⟨img, e, s3, h1, h2, by simp [h3, ht, htp, errOf]⟩)

/-- The container loop: it creates and starts the configurations in order and either gets
through all of them, or stops at the first failure, writes `<COMMAND>_FAILED`, and hands
over to `UndeployDataService`. -/
theorem startContainers_spec (rt : Runtime σ) (man : Manifest) (c : String) :
    ∀ (cfgs : List ContainerConfig) (s : St σ),
      ((startContainers rt man c cfgs s).1 = none
          ∧ (startContainers rt man c cfgs s).2.trace = s.trace ++ cfgs.map created)
      ∨ (∃ done m rest e sMid, cfgs = done ++ m :: rest
          ∧ (startContainers rt man c cfgs s).1 = some e
          ∧ sMid.trace = s.trace ++ done.map created
              ++ [⟨.CreateAndStartContainer m, some e⟩,
                  ⟨.SetStatus man.ID man.VersionName (ToUpper c ++ "_FAILED"), none⟩]
          ∧ (startContainers rt man c cfgs s).2
              = (UndeployDataService rt man.ID man.VersionName sMid).2) := by
  intro cfgs
  induction cfgs with
  | nil =>
    intro s
    exact Or.inl ⟨rfl, by simp [startContainers]⟩
  | cons m rest ih =>
    intro s
    rcases hc : s.callE (.CreateAndStartContainer m) (CreateAndStartContainer rt m)
      with ⟨r, s1⟩
    obtain ⟨ht, -, -⟩ := callE_eq hc
    cases r with
    | error e =>
      refine Or.inr ⟨[], m, rest, e,
        setStatus rt man.ID man.VersionName (ToUpper c ++ "_FAILED") s1, rfl, ?_, ?_, ?_⟩
      · simp [startContainers, hc]
      · simp [ht, errOf]
      · simp [startContainers, hc]
    | ok id =>
      simp only [startContainers, hc]
      rcases ih s1 with ⟨h1, h2⟩ | ⟨done, m2, rest2, e, sMid, h1, h2, h3, h4⟩
      · exact Or.inl ⟨h1, by simp [h2, ht, errOf, created]⟩
      · refine Or.inr ⟨m :: done, m2, rest2, e, sMid, by simp [h1], h2, ?_, h4⟩
        simp [h3, ht, errOf, created]

/-- Steps 2 to 4, entered after a prelude `pre`, go one of the ways of `DeployRun`. -/
theorem deploySteps_run (rt : Runtime σ) (man : Manifest) (c : String) (s s0 : St σ)
    (pre : List Event) (h0 : s0.trace = s.trace ++ pre) (hpre : isPrelude pre) :
    ∃ evs, (deploySteps rt man c s0).2.trace = s.trace ++ evs
      ∧ DeployRun rt man c s (deploySteps rt man c s0).1 evs (deploySteps rt man c s0).2 := by
  obtain ⟨evsP, hall, herr, hcases⟩ := pullImages_spec rt man c man.Modules s0
  have hP : isImagePhase evsP := ⟨hall, herr⟩
  rcases hpull : pullImages rt man c man.Modules s0 with ⟨rp, s1⟩
  rw [hpull] at hcases
  simp only at hcases
  rcases hcases with ⟨h1, h2⟩ | ⟨img, e, h1, h2⟩ | ⟨img, e, s1p, h1, h2, h3⟩
  · subst h1
    rcases hn : s1.callE (.CreateNetwork man.ApplicationID man.Labels)
      (rt.CreateNetwork man.ApplicationID man.Labels) with ⟨rn, s2⟩
    obtain ⟨htn, -, -⟩ := callE_eq hn
    cases rn with
    | error e =>
      refine ⟨_, ?_, DeployRun.networkFailed pre evsP e s2 hpre hP ?_ rfl ?_⟩
      · simp [deploySteps, hpull, hn, htn, h2, h0, errOf]
      · simp [deploySteps, hpull, hn]
      · simp [deploySteps, hpull, hn]
    | ok networkName =>
      by_cases hlen : (UpdateManifest man networkName).Modules.length = 0
      · obtain ⟨evsU, hUt, hUk, -, -⟩ := UndeployDataService_spec rt man.ID man.VersionName
          (setStatus rt man.ID man.VersionName (ToUpper c ++ "_FAILED") s2)
        have hmods : man.Modules = [] := by
          simpa [UpdateManifest] using hlen
        refine ⟨_, ?_, DeployRun.noModules pre evsP evsU
          (setStatus rt man.ID man.VersionName (ToUpper c ++ "_FAILED") s2) hpre hP hmods
          ?_ ?_ hUk rfl ?_⟩
        · simp only [deploySteps, hpull, hn, if_pos hlen, hUt]
          simp [htn, h2, h0, errOf]
        · simp only [deploySteps, hpull, hn, if_pos hlen]
        · simp [htn, h2, h0, errOf]
        · simp only [deploySteps, hpull, hn, if_pos hlen]
      · have hmods : man.Modules ≠ [] := by
          intro hnil
          apply hlen
          simp [UpdateManifest, hnil]
        rcases hsc : startContainers rt (UpdateManifest man networkName) c
          (UpdateManifest man networkName).Modules s2 with ⟨rs, s3⟩
        have hspec := startContainers_spec rt (UpdateManifest man networkName) c
          (UpdateManifest man networkName).Modules s2
        rw [hsc] at hspec
        simp only at hspec
        rcases hspec with ⟨h1, h3⟩ | ⟨done, m, rest, e, sMid, h1, h3, h4, h5⟩
        · subst h1
          refine ⟨_, ?_, DeployRun.succeeded pre evsP networkName s3 hpre hP hmods ?_ rfl ?_⟩
          · simp only [deploySteps, hpull, hn, if_neg hlen, hsc]
            simp [h3, htn, h2, h0, errOf]
          · simp only [deploySteps, hpull, hn, if_neg hlen, hsc]
          · simp only [deploySteps, hpull, hn, if_neg hlen, hsc]
        · subst h3
          obtain ⟨evsU, hUt, hUk, -, -⟩ :=
            UndeployDataService_spec rt man.ID man.VersionName sMid
          have hid : (UpdateManifest man networkName).ID = man.ID := rfl
          have hver : (UpdateManifest man networkName).VersionName = man.VersionName := rfl
          rw [hid, hver] at h4 h5
          refine ⟨_, ?_, DeployRun.createFailed pre evsP evsU networkName done m rest e sMid
            hpre hP h1 ?_ ?_ hUk rfl ?_⟩
          · simp only [deploySteps, hpull, hn, if_neg hlen, hsc, h5, hUt, h4]
            simp [htn, h2, h0, errOf]
          · simp only [deploySteps, hpull, hn, if_neg hlen, hsc]
          · simp [h4, htn, h2, h0, errOf]
          · simp only [deploySteps, hpull, hn, if_neg hlen, hsc, h5]
  · subst h1
    refine ⟨_, ?_, DeployRun.lookupFailed pre evsP img e hpre hP ?_ rfl⟩
    · simp [deploySteps, hpull, h2, h0]
    · simp [deploySteps, hpull]
  · subst h1
    refine ⟨_, ?_, DeployRun.pullFailed pre evsP img e s1p hpre hP ?_ rfl ?_⟩
    · simp [deploySteps, hpull, h3, h0]
    · simp [deploySteps, hpull]
    · simp [deploySteps, hpull, h2]

/-- Every run of `DeployDataService` goes one of the ways of `DeployRun`. -/
theorem DeployDataService_run (rt : Runtime σ) (man : Manifest) (c : String) (s : St σ) :
    ∃ evs, (DeployDataService rt man c s).2.trace = s.trace ++ evs
      ∧ DeployRun rt man c s (DeployDataService rt man c s).1 evs
          (DeployDataService rt man c s).2 := by
  rcases hE : DataServiceExist rt man.ID man.VersionName s with ⟨r, s1⟩
  obtain ⟨ht1, hk1⟩ := DataServiceExist_eq hE
  have hpre1 : isPrelude [⟨.ReadDataServiceNetworks man.ID man.VersionName, none⟩] :=
    ⟨rfl, rfl⟩
  cases r with
  | error e =>
    refine ⟨_, ?_, DeployRun.existFailed e s1 ?_ rfl ?_⟩
    · simp [DeployDataService, hE, ht1, errOf]
    · simp [DeployDataService, hE]
    · simp [DeployDataService, hE]
  | ok b =>
    cases b with
    | false =>
      obtain ⟨evs, h1, h2⟩ := deploySteps_run rt man c s s1 _ ht1 hpre1
      refine ⟨evs, ?_, ?_⟩
      · simpa [DeployDataService, hE] using h1
      · simpa [DeployDataService, hE] using h2
    | true =>
      by_cases hd : c = CMDDeploy
      · refine ⟨_, ?_, DeployRun.alreadyExists hd (by rw [hE]) ?_ rfl ?_⟩
        · simp [DeployDataService, hE, hd, ht1, errOf]
        · simp [DeployDataService, hE, hd]
        · simp [DeployDataService, hE, hd, hk1]
      · by_cases hr : c = CMDReDeploy ∨ c = CMDDeployLocal
        · obtain ⟨evsU, hUt, hUk, hUe, -⟩ :=
            UndeployDataService_spec rt man.ID man.VersionName s1
          rcases hU : UndeployDataService rt man.ID man.VersionName s1 with ⟨ru, s2⟩
          rw [hU] at hUt hUe
          simp only at hUt hUe
          cases ru with
          | some e =>
            have hfail : errorsOf evsU ≠ [] := by
              intro h
              have := hUe.2 h
              simp at this
            refine ⟨_, ?_, DeployRun.teardownFailed evsU s2 hr (by rw [hE]) hUk hfail ?_ rfl ?_⟩
            · simp [DeployDataService, hE, hd, hr, hU, hUt, ht1, errOf]
            · simp [DeployDataService, hE, hd, hr, hU]
            · simp [DeployDataService, hE, hd, hr, hU]
          | none =>
            have hpre : isPrelude
                ([⟨.ReadDataServiceNetworks man.ID man.VersionName, none⟩] ++ evsU) := by
              constructor
              · simp [hUk]; simp [Call.isTeardown]
              · rw [errorsOf_append, hUe.1 rfl]; rfl
            obtain ⟨evs, h1, h2⟩ := deploySteps_run rt man c s s2 _
              (by simp [hUt, ht1, errOf]) hpre
            refine ⟨evs, ?_, ?_⟩
            · simpa [DeployDataService, hE, hd, hr, hU] using h1
            · simpa [DeployDataService, hE, hd, hr, hU] using h2
        · obtain ⟨evs, h1, h2⟩ := deploySteps_run rt man c s s1 _ ht1 hpre1
          refine ⟨evs, ?_, ?_⟩
          · simpa [DeployDataService, hE, hd, hr] using h1
          · simpa [DeployDataService, hE, hd, hr] using h2

end Deploy

/-! ## The ledger after a status write -/

section Ledger
variable {σ : Type}

theorem SetStatus_cons_ne (manifestID : String) (containerCount : Int)
    (uid : ManifestUniqueID) (status : String) (inTransition : Bool) (m : ManifestStatus)
    (rest : List ManifestStatus) (h : m.ManifestUniqueID ≠ uid) :
    SetStatus manifestID containerCount uid status inTransition (m :: rest)
      = m :: SetStatus manifestID containerCount uid status inTransition rest := by
  unfold SetStatus
  simp only [updateKnown, if_neg h]
  cases updateKnown uid status inTransition rest <;> simp

theorem statusOf_SetStatus (manifestID : String) (containerCount : Int)
    (uid : ManifestUniqueID) (status : String) (inTransition : Bool)
    (known : List ManifestStatus) :
    statusOf uid (SetStatus manifestID containerCount uid status inTransition known)
      = some status := by
  induction known with
  | nil => simp [SetStatus, updateKnown, statusOf]
  | cons m rest ih =>
    by_cases h : m.ManifestUniqueID = uid
    · simp [SetStatus, updateKnown, statusOf, h]
    · rw [SetStatus_cons_ne _ _ _ _ _ _ _ h]
      simpa [statusOf, List.find?_cons, h] using ih

theorem endsWithStatus_setStatus (rt : Runtime σ) (a v st : String) (s : St σ) :
    endsWithStatus (setStatus rt a v st s) a v st :=
  ⟨by simp, statusOf_SetStatus _ _ _ _ _ _⟩

end Ledger

/-! ## `StopDataService` and `StartDataService` -/

section StopStart
variable {σ : Type}

theorem stopContainers_error (rt : Runtime σ) (a v : String) :
    ∀ (cs : List Container) (s : St σ), (stopContainers rt a v cs s).1 ≠ none →
      ∃ s1, (stopContainers rt a v cs s).2 = setStatus rt a v "STOP_CONTAINER_FAILED" s1 := by
  intro cs
  induction cs with
  | nil => intro s h; simp [stopContainers] at h
  | cons c rest ih =>
    intro s h
    by_cases hrun : c.State = "running"
    · rcases hc : s.callO (.StopContainer c.ID) (StopContainer rt c.ID) with ⟨o, s1⟩
      cases o with
      | some e => exact ⟨s1, by simp only [stopContainers, if_pos hrun, hc]⟩
      | none =>
        simp only [stopContainers, if_pos hrun, hc] at h ⊢
        exact ih s1 h
    · simp only [stopContainers, if_neg hrun] at h ⊢
      exact ih s h

theorem startStopped_error (rt : Runtime σ) (a v : String) :
    ∀ (cs : List Container) (s : St σ), (startStopped rt a v cs s).1 ≠ none →
      ∃ s1, (startStopped rt a v cs s).2 = setStatus rt a v "START_FAILED" s1 := by
  intro cs
  induction cs with
  | nil => intro s h; simp [startStopped] at h
  | cons c rest ih =>
    intro s h
    by_cases hst : c.State = "exited" ∨ c.State = "created" ∨ c.State = "paused"
    · rcases hc : s.callO (.StartContainer c.ID) (StartContainer rt c.ID) with ⟨o, s1⟩
      cases o with
      | some e => exact ⟨s1, by simp only [startStopped, if_pos hst, hc]⟩
      | none =>
        simp only [startStopped, if_pos hst, hc] at h ⊢
        exact ih s1 h
    · simp only [startStopped, if_neg hst] at h ⊢
      exact ih s h

theorem StopDataService_error (rt : Runtime σ) (a v : String) (s : St σ)
    (h : (StopDataService rt a v s).1 ≠ none) :
    ∃ st s1, (st = "STOP_SERVICE_FAILED" ∨ st = "STOP_CONTAINER_FAILED")
      ∧ (StopDataService rt a v s).2 = setStatus rt a v st s1 := by
  rcases hL : s.callE (.ReadDataServiceContainers a v) (ReadDataServiceContainers rt a v)
    with ⟨r, s1⟩
  cases r with
  | error e => exact ⟨_, s1, Or.inl rfl, by simp only [StopDataService, hL]⟩
  | ok cs =>
    rcases hS : stopContainers rt a v cs s1 with ⟨o, s2⟩
    cases o with
    | none => simp [StopDataService, hL, hS] at h
    | some e =>
      obtain ⟨s3, h3⟩ := stopContainers_error rt a v cs s1 (by rw [hS]; simp)
      rw [hS] at h3
      exact ⟨_, s3, Or.inr rfl, by simp only [StopDataService, hL, hS]; exact h3⟩

theorem StartDataService_error (rt : Runtime σ) (a v : String) (s : St σ)
    (h : (StartDataService rt a v s).1 ≠ none) :
    ∃ st s1, (st = "UNDEPLOY_FAILED" ∨ st = "START_FAILED")
      ∧ (StartDataService rt a v s).2 = setStatus rt a v st s1 := by
  rcases hL : s.callE (.ReadDataServiceContainers a v) (ReadDataServiceContainers rt a v)
    with ⟨r, s1⟩
  cases r with
  | error e => exact ⟨_, s1, Or.inl rfl, by simp only [StartDataService, hL]⟩
  | ok cs =>
    by_cases hlen : cs.length = 0
    · exact ⟨_, s1, Or.inr rfl, by simp only [StartDataService, hL, if_pos hlen]⟩
    · rcases hS : startStopped rt a v cs s1 with ⟨o, s2⟩
      cases o with
      | none => simp [StartDataService, hL, hS, hlen] at h
      | some e =>
        obtain ⟨s3, h3⟩ := startStopped_error rt a v cs s1 (by rw [hS]; simp)
        rw [hS] at h3
        exact ⟨_, s3, Or.inr rfl, by simp only [StartDataService, hL, if_neg hlen, hS]; exact h3⟩

end StopStart

/-! ## Facts about kinds of calls -/

theorem creates_false_of_teardown {c : Call} (h : c.isTeardown = true) : c.creates = false := by
  cases c <;> simp_all [Call.isTeardown, Call.creates]

theorem provision_false_of_teardown {c : Call} (h : c.isTeardown = true) :
    c.isProvision = false := by
  cases c <;> simp_all [Call.isTeardown, Call.isProvision]

theorem creates_false_of_imageStep {c : Call} (h : c.isImageStep = true) :
    c.creates = false := by
  cases c <;> simp_all [Call.isImageStep, Call.creates]

theorem mem_of_all {p : Event → Bool} {evs : List Event} (h : evs.all p = true)
    {ev : Event} (hev : ev ∈ evs) : p ev = true :=
  List.all_eq_true.1 h ev hev

theorem err_none_of_errorsOf_nil {evs : List Event} (h : errorsOf evs = [])
    {ev : Event} (hev : ev ∈ evs) : ev.err = none :=
  (errorsOf_eq_nil_iff evs).1 h ev hev

theorem getLast?_append_pair (l : List Event) (a b : Event) :
    (l ++ [a, b]).getLast? = some b := by
  rw [show l ++ [a, b] = (l ++ [a]) ++ [b] by simp]
  exact List.getLast?_concat _

theorem not_mem_of_all_teardown {evs : List Event}
    (h : evs.all (fun ev => ev.call.isTeardown) = true) {c : Call} {o : Option Error}
    (hc : c.isTeardown = false) : (⟨c, o⟩ : Event) ∉ evs := by
  intro hmem
  have := mem_of_all h hmem
  simp [hc] at this

theorem not_mem_of_all_imageStep {evs : List Event}
    (h : evs.all (fun ev => ev.call.isImageStep) = true) {c : Call} {o : Option Error}
    (hc : c.isImageStep = false) : (⟨c, o⟩ : Event) ∉ evs := by
  intro hmem
  have := mem_of_all h hmem
  simp [hc] at this

theorem not_mem_failed {evs : List Event} (h : errorsOf evs = []) {c : Call} {e : Error} :
    (⟨c, some e⟩ : Event) ∉ evs := by
  intro hmem
  have := err_none_of_errorsOf_nil h hmem
  simp at this

@[simp] theorem createdConfigs_append (xs ys : List Event) :
    createdConfigs (xs ++ ys) = createdConfigs xs ++ createdConfigs ys := by
  simp [createdConfigs, List.filterMap_append]

theorem createdConfigs_of_teardown {evs : List Event}
    (h : evs.all (fun ev => ev.call.isTeardown) = true) : createdConfigs evs = [] := by
  unfold createdConfigs
  rw [List.filterMap_eq_nil_iff]
  intro ev hev
  have := mem_of_all h hev
  cases hcall : ev.call <;> simp_all [Call.isTeardown]

theorem createdConfigs_of_imageStep {evs : List Event}
    (h : evs.all (fun ev => ev.call.isImageStep) = true) : createdConfigs evs = [] := by
  unfold createdConfigs
  rw [List.filterMap_eq_nil_iff]
  intro ev hev
  have := mem_of_all h hev
  cases hcall : ev.call <;> simp_all [Call.isImageStep]

theorem createdConfigs_map_created (cfgs : List ContainerConfig) :
    createdConfigs (cfgs.map created) = cfgs := by
  induction cfgs with
  | nil => rfl
  | cons c rest ih => simpa [createdConfigs, created, List.filterMap_cons] using ih

/-! ## The claims -/

section Claims
variable {σ : Type}

/-- C1: when the identity already has a matching network (`DataServiceExist` returns true),
`DeployDataService` with the command `deploy` returns the error "data service already
exists", leaves the ledger as it was, and the only call of the run is the network listing
of the existence check: no status write, no image pull, no network or container creation,
no removal, no prune. -/
theorem deploy_on_existing_service_is_rejected (rt : Runtime σ) (man : Manifest) (s : St σ)
    (hex : (DataServiceExist rt man.ID man.VersionName s).1 = .ok true) :
    (DeployDataService rt man CMDDeploy s).1 = some "data service already exists"
      ∧ (DeployDataService rt man CMDDeploy s).2.knownManifests = s.knownManifests
      ∧ (DeployDataService rt man CMDDeploy s).2.trace
          = s.trace ++ [⟨.ReadDataServiceNetworks man.ID man.VersionName, none⟩] := by
  rcases hE : DataServiceExist rt man.ID man.VersionName s with ⟨r, s1⟩
  rw [hE] at hex
  simp only at hex
  subst hex
  obtain ⟨ht, hk⟩ := DataServiceExist_eq hE
  simp [DeployDataService, hE, ht, hk, errOf]

/-- C1 at a concrete input: `deploy` of `demo` on the host where it is deployed. -/
theorem deploy_on_existing_service_is_rejected_witness :
    (DataServiceExist sim demoManifest.ID demoManifest.VersionName
        (St.init deployedWorld deployedLedger)).1 = .ok true
      ∧ (DeployDataService sim demoManifest CMDDeploy (St.init deployedWorld deployedLedger)).1
          = some "data service already exists"
      ∧ (DeployDataService sim demoManifest CMDDeploy
          (St.init deployedWorld deployedLedger)).2.knownManifests = deployedLedger
      ∧ (DeployDataService sim demoManifest CMDDeploy
          (St.init deployedWorld deployedLedger)).2.trace
          = [⟨.ReadDataServiceNetworks "demo" "1", none⟩] :=
  ⟨rfl, deploy_on_existing_service_is_rejected sim demoManifest
    (St.init deployedWorld deployedLedger) rfl⟩

theorem undeployIsNoop_of_absent (rt : Runtime σ) (a v : String) (s : St σ)
    (habsent : (DataServiceExist rt a v s).1 = .ok false) : undeployIsNoop rt a v s := by
  rcases hE : DataServiceExist rt a v s with ⟨r, s1⟩
  rw [hE] at habsent
  simp only at habsent
  subst habsent
  obtain ⟨ht, -⟩ := DataServiceExist_eq hE
  have hrt : s1.rt = (rt.ReadDataServiceNetworks a v s.rt).2 := by
    unfold DataServiceExist at hE
    rcases hc : s.callE (.ReadDataServiceNetworks a v) (rt.ReadDataServiceNetworks a v)
      with ⟨r0, s0⟩
    obtain ⟨-, -, hf⟩ := callE_eq hc
    rw [hc] at hE
    cases r0 with
    | error e => simp at hE
    | ok nets =>
      simp only at hE
      split at hE <;>
      · simp only [Prod.mk.injEq] at hE
        rw [← hE.2, hf]
  refine ⟨?_, ?_, ?_⟩
  · simp [UndeployDataService, hE]
  · simp [UndeployDataService, hE, ht, errOf]
  · simp [UndeployDataService, hE, hrt]

/-- C10: when no network matches the identity, `UndeployDataService` returns no error, its
only calls are the network listing and the status write `UNDEPLOY_FAILED` (no
`StopAndRemoveContainer`, `ImageRemove` or `NetworkPrune`), and the engine is left as the
listing left it.  Hence, when after a first `UndeployDataService` from `s0` the existence
check finds no network, a second call right after it is such a no-op. -/
theorem undeploy_of_absent_service_is_noop (rt : Runtime σ) (a v : String) (s s0 : St σ)
    (habsent : (DataServiceExist rt a v s).1 = .ok false)
    (hpruned : (DataServiceExist rt a v (UndeployDataService rt a v s0).2).1 = .ok false) :
    undeployIsNoop rt a v s ∧ undeployIsNoop rt a v (UndeployDataService rt a v s0).2 :=
  ⟨undeployIsNoop_of_absent rt a v s habsent,
    undeployIsNoop_of_absent rt a v _ hpruned⟩

/-- C10 at concrete inputs: `demo` is absent from the empty host, and gone from the host
where it was deployed once it has been undeployed. -/
theorem undeploy_of_absent_service_is_noop_witness :
    (DataServiceExist sim "demo" "1" (St.init emptyWorld [])).1 = .ok false
      ∧ (DataServiceExist sim "demo" "1"
          (UndeployDataService sim "demo" "1" (St.init deployedWorld deployedLedger)).2).1
          = .ok false
      ∧ undeployIsNoop sim "demo" "1" (St.init emptyWorld [])
      ∧ undeployIsNoop sim "demo" "1"
          (UndeployDataService sim "demo" "1" (St.init deployedWorld deployedLedger)).2 :=
  ⟨rfl, rfl, undeploy_of_absent_service_is_noop sim "demo" "1" (St.init emptyWorld [])
    (St.init deployedWorld deployedLedger) rfl rfl⟩

/-- C9: for the commands `redeploy` and `local_deploy` on an identity that exists, if the
teardown (`UndeployDataService`) returns an error then `DeployDataService` returns the error
"redeployment failed", the last call of the run is the status write `<COMMAND>_FAILED`,
which is the status the ledger then holds for the identity, and the run issues no image
pull, no network creation and no container creation. -/
theorem redeploy_aborts_when_teardown_fails (rt : Runtime σ) (man : Manifest) (c : String)
    (s : St σ) (hc : c = CMDReDeploy ∨ c = CMDDeployLocal)
    (hex : (DataServiceExist rt man.ID man.VersionName s).1 = .ok true)
    (hfail : (UndeployDataService rt man.ID man.VersionName
      (DataServiceExist rt man.ID man.VersionName s).2).1 ≠ none) :
    (DeployDataService rt man c s).1 = some "redeployment failed"
      ∧ endsWithStatus (DeployDataService rt man c s).2 man.ID man.VersionName
          (ToUpper c ++ "_FAILED")
      ∧ ∃ evs, (DeployDataService rt man c s).2.trace = s.trace ++ evs
          ∧ ∀ ev ∈ evs, ev.call.isProvision = false := by
  rcases hE : DataServiceExist rt man.ID man.VersionName s with ⟨r, s1⟩
  rw [hE] at hex hfail
  simp only at hex hfail
  subst hex
  obtain ⟨ht, -⟩ := DataServiceExist_eq hE
  have hd : c ≠ CMDDeploy := by
    rcases hc with h | h <;> subst h <;> decide
  obtain ⟨evsU, hUt, hUk, -, -⟩ := UndeployDataService_spec rt man.ID man.VersionName s1
  rcases hU : UndeployDataService rt man.ID man.VersionName s1 with ⟨ru, s2⟩
  rw [hU] at hfail hUt
  simp only at hfail hUt
  cases ru with
  | none => exact absurd rfl hfail
  | some e =>
    have hrun : DeployDataService rt man c s
        = (some "redeployment failed",
            setStatus rt man.ID man.VersionName (ToUpper c ++ "_FAILED") s2) := by
      simp [DeployDataService, hE, hd, hc, hU]
    rw [hrun]
    refine ⟨rfl, endsWithStatus_setStatus _ _ _ _ _,
      [⟨.ReadDataServiceNetworks man.ID man.VersionName, none⟩] ++ (evsU
        ++ [⟨.SetStatus man.ID man.VersionName (ToUpper c ++ "_FAILED"), none⟩]), ?_, ?_⟩
    · simp [hUt, ht, errOf]
    · intro ev hev
      simp only [List.mem_append, List.mem_singleton] at hev
      rcases hev with h | h | h
      · subst h; rfl
      · exact provision_false_of_teardown (mem_of_all hUk h)
      · subst h; rfl

/-- C9 at a concrete input: `redeploy` of `demo` on the host where it is deployed and the
engine refuses to prune the network. -/
theorem redeploy_aborts_when_teardown_fails_witness :
    (DeployDataService sim demoManifest CMDReDeploy
        (St.init pruneRefusingWorld deployedLedger)).1 = some "redeployment failed"
      ∧ endsWithStatus (DeployDataService sim demoManifest CMDReDeploy
          (St.init pruneRefusingWorld deployedLedger)).2 "demo" "1" "REDEPLOY_FAILED"
      ∧ ∃ evs, (DeployDataService sim demoManifest CMDReDeploy
          (St.init pruneRefusingWorld deployedLedger)).2.trace = [] ++ evs
          ∧ ∀ ev ∈ evs, ev.call.isProvision = false :=
  redeploy_aborts_when_teardown_fails sim demoManifest CMDReDeploy
    (St.init pruneRefusingWorld deployedLedger) (Or.inl rfl) rfl (by decide)

/-- C4 (as amended): in a run of `UndeployDataService` on an existing service in which both
container listings succeed, the three teardown steps run in full whatever the removals and
the prune return: after the two listings of the existence check and of the service's
containers, `StopAndRemoveContainer` is called for every listed container in order, the
host-wide listing is taken, `ImageRemove` is called for every image of a listed container
that no container of the host-wide listing uses, and `NetworkPrune` is called; these are
all the calls to the engine. -/
theorem undeploy_runs_all_three_steps (rt : Runtime σ) (a v : String) (s : St σ)
    (ds cs : List Container) (h : undeployListings rt a v s = some (ds, cs)) :
    ∃ evs, (UndeployDataService rt a v s).2.trace = s.trace ++ evs
      ∧ dockerCalls evs
        = [Call.ReadDataServiceNetworks a v, Call.ReadDataServiceContainers a v]
          ++ ds.map (fun c => Call.StopAndRemoveContainer c.ID)
          ++ [Call.ReadAllContainers]
          ++ ((rt.rangeOrder (imageKeys ds)).filter
                (fun k => cs.all (fun c => decide (c.ImageID ≠ k)))).map Call.ImageRemove
          ++ [Call.NetworkPrune a v] :=
  UndeployDataService_calls rt a v s ds cs h

/-- C4 at a concrete input: undeploying `demo` while the engine refuses to prune. -/
theorem undeploy_runs_all_three_steps_witness :
    ∃ evs, (UndeployDataService sim "demo" "1"
        (St.init pruneRefusingWorld deployedLedger)).2.trace = [] ++ evs
      ∧ dockerCalls evs
        = [Call.ReadDataServiceNetworks "demo" "1", Call.ReadDataServiceContainers "demo" "1"]
          ++ deployedWorld.containers.map (fun c => Call.StopAndRemoveContainer c.ID)
          ++ [Call.ReadAllContainers]
          ++ ((sim.rangeOrder (imageKeys deployedWorld.containers)).filter
                (fun k => ([] : List Container).all
                  (fun c => decide (c.ImageID ≠ k)))).map Call.ImageRemove
          ++ [Call.NetworkPrune "demo" "1"] :=
  undeploy_runs_all_three_steps sim "demo" "1" (St.init pruneRefusingWorld deployedLedger)
    deployedWorld.containers [] rfl

/-- C4 as stated fails: when the host-wide container listing fails, the run returns after
the container removals; no image is removed and `NetworkPrune` is not called. -/
theorem undeploy_stops_when_host_listing_fails :
    (UndeployDataService sim "demo" "1" (St.init listRefusingWorld deployedLedger)).1
        = some "cannot list containers"
      ∧ dockerCalls (UndeployDataService sim "demo" "1"
          (St.init listRefusingWorld deployedLedger)).2.trace
        = [Call.ReadDataServiceNetworks "demo" "1", Call.ReadDataServiceContainers "demo" "1",
           Call.StopAndRemoveContainer "m1", Call.StopAndRemoveContainer "m2",
           Call.ReadAllContainers]
      ∧ Call.NetworkPrune "demo" "1" ∉ dockerCalls (UndeployDataService sim "demo" "1"
          (St.init listRefusingWorld deployedLedger)).2.trace := by
  decide

/-- C5: in a run of `UndeployDataService` in which the service exists and both container
listings succeed, `ImageRemove(id)` is called if and only if `id` is the image ID of a
container of the service as listed before the removals and no container of the host-wide
listing taken after them has that image ID; and it is called at most once for any `id`. -/
theorem image_removed_iff_unreferenced (rt : Runtime σ) (a v : String) (s : St σ)
    (ds cs : List Container) (h : undeployListings rt a v s = some (ds, cs)) :
    ∃ evs, (UndeployDataService rt a v s).2.trace = s.trace ++ evs
      ∧ ∀ id : String,
          (Call.ImageRemove id ∈ dockerCalls evs
            ↔ (∃ c ∈ ds, c.ImageID = id) ∧ ∀ c ∈ cs, c.ImageID ≠ id)
          ∧ (dockerCalls evs).count (Call.ImageRemove id) ≤ 1 := by
  obtain ⟨evs, ht, hcalls⟩ := UndeployDataService_calls rt a v s ds cs h
  refine ⟨evs, ht, fun id => ⟨?_, ?_⟩⟩
  · rw [hcalls]
    simp only [List.mem_append, List.mem_cons, List.mem_singleton, List.mem_map,
      List.mem_filter, List.not_mem_nil, or_false, reduceCtorEq, false_or, and_false,
      exists_false, Call.ImageRemove.injEq, exists_eq_right,
      (rt.rangeOrder_perm (imageKeys ds)).mem_iff, mem_imageKeys, List.all_eq_true,
      decide_eq_true_eq]
  · have hnodup : (((rt.rangeOrder (imageKeys ds)).filter
        (fun k => cs.all (fun c => decide (c.ImageID ≠ k)))).map Call.ImageRemove).Nodup := by
      apply List.Nodup.map
      · intro x y hxy
        exact Call.ImageRemove.inj hxy
      · exact List.Nodup.filter _
          (((rt.rangeOrder_perm (imageKeys ds)).nodup_iff).2 (nodup_imageKeys ds))
    have hcount := List.nodup_iff_count_le_one.1 hnodup (Call.ImageRemove id)
    rw [hcalls]
    simp only [List.count_append]
    have h1 : List.count (Call.ImageRemove id)
        [Call.ReadDataServiceNetworks a v, Call.ReadDataServiceContainers a v] = 0 := by
      simp
    have h2 : List.count (Call.ImageRemove id)
        (ds.map (fun c => Call.StopAndRemoveContainer c.ID)) = 0 := by
      rw [List.count_eq_zero]
      simp
    have h3 : List.count (Call.ImageRemove id) [Call.ReadAllContainers] = 0 := by simp
    have h4 : List.count (Call.ImageRemove id) [Call.NetworkPrune a v] = 0 := by simp
    omega

/-- C5 at a concrete input: undeploying `demo` removes its two images exactly. -/
theorem image_removed_iff_unreferenced_witness :
    ∃ evs, (UndeployDataService sim "demo" "1"
        (St.init deployedWorld deployedLedger)).2.trace = [] ++ evs
      ∧ ∀ id : String,
          (Call.ImageRemove id ∈ dockerCalls evs
            ↔ (∃ c ∈ deployedWorld.containers, c.ImageID = id)
              ∧ ∀ c ∈ ([] : List Container), c.ImageID ≠ id)
          ∧ (dockerCalls evs).count (Call.ImageRemove id) ≤ 1 :=
  image_removed_iff_unreferenced sim "demo" "1" (St.init deployedWorld deployedLedger)
    deployedWorld.containers [] rfl

/-- C8: for each of the commands `deploy`, `redeploy`, `local_deploy`, if an image pull
fails in a run of `DeployDataService`, the run returns the error "unable to pull image/s",
creates no network and no container, and its last call writes the upper-cased command
itself as the status (`DEPLOY`, `REDEPLOY`, `LOCAL_DEPLOY`, without `_FAILED`), which is
the status the ledger then holds for the identity. -/
theorem deploy_aborts_on_pull_failure (rt : Runtime σ) (man : Manifest) (c : String)
    (w : σ) (known : List ManifestStatus)
    (hc : c = CMDDeploy ∨ c = CMDReDeploy ∨ c = CMDDeployLocal)
    (hpull : ∃ img e, (⟨.PullImage img, some e⟩ : Event)
      ∈ (DeployDataService rt man c (St.init w known)).2.trace) :
    (DeployDataService rt man c (St.init w known)).1 = some "unable to pull image/s"
      ∧ (∀ ev ∈ (DeployDataService rt man c (St.init w known)).2.trace,
          ev.call.creates = false)
      ∧ endsWithStatus (DeployDataService rt man c (St.init w known)).2
          man.ID man.VersionName (ToUpper c)
      ∧ (ToUpper c = "DEPLOY" ∨ ToUpper c = "REDEPLOY" ∨ ToUpper c = "LOCAL_DEPLOY") := by
  obtain ⟨evs, ht, hrun⟩ := DeployDataService_run rt man c (St.init w known)
  obtain ⟨img, e, hmem⟩ := hpull
  have ht2 : (DeployDataService rt man c (St.init w known)).2.trace = evs := by
    simpa [St.init] using ht
  rw [ht2] at hmem ⊢
  have hupper : ToUpper c = "DEPLOY" ∨ ToUpper c = "REDEPLOY" ∨ ToUpper c = "LOCAL_DEPLOY" := by
    rcases hc with h | h | h <;> subst h <;> decide
  have hT : (Call.PullImage img).isTeardown = false := rfl
  cases hrun with
  | existFailed e1 s1 hr hevs hsf => simp [hevs] at hmem
  | alreadyExists hc1 hex hr hevs hsf => simp [hevs] at hmem
  | teardownFailed evsU s1 hc1 hex hU hfail hr hevs hsf =>
    simp [hevs, not_mem_of_all_teardown hU hT] at hmem
  | lookupFailed pre evsP img1 e1 hpre hP hr hevs =>
    simp [hevs, not_mem_of_all_teardown hpre.1 hT, not_mem_failed hP.2] at hmem
  | pullFailed pre evsP img1 e1 s1 hpre hP hr hevs hsf =>
    refine ⟨hr, ?_, ?_, hupper⟩
    · intro ev hev
      simp only [hevs, List.mem_append, List.mem_cons, List.mem_singleton, List.not_mem_nil,
        or_false] at hev
      rcases hev with (h | h) | h | h
      · exact creates_false_of_teardown (mem_of_all hpre.1 h)
      · exact creates_false_of_imageStep (mem_of_all hP.1 h)
      · subst h; rfl
      · subst h; rfl
    · rw [hsf]
      exact endsWithStatus_setStatus _ _ _ _ _
  | networkFailed pre evsP e1 s1 hpre hP hr hevs hsf =>
    simp [hevs, not_mem_of_all_teardown hpre.1 hT, not_mem_failed hP.2] at hmem
  | noModules pre evsP evsU sMid hpre hP hmods hr hmid hU hevs hsf =>
    simp [hevs, not_mem_of_all_teardown hpre.1 hT, not_mem_failed hP.2,
      not_mem_of_all_teardown hU hT] at hmem
  | createFailed pre evsP evsU networkName done m rest e1 sMid hpre hP hmods hr hmid hU hevs
      hsf =>
    simp [hevs, not_mem_of_all_teardown hpre.1 hT, not_mem_failed hP.2,
      not_mem_of_all_teardown hU hT, created] at hmem
  | succeeded pre evsP networkName s1 hpre hP hmods hr hevs hsf =>
    simp [hevs, not_mem_of_all_teardown hpre.1 hT, not_mem_failed hP.2, created] at hmem

/-- C7: for each of the commands `deploy`, `redeploy`, `local_deploy` and every manifest with
at least one module, if every call of the run of `DeployDataService` succeeds (and, for
`deploy`, the existence check did not find the service), the run returns no error and its
last call writes the upper-cased command followed by `ED` (`DEPLOYED`, `REDEPLOYED`,
`LOCAL_DEPLOYED`), which is the status the ledger then holds for the identity. -/
theorem deploy_succeeds_when_all_calls_succeed (rt : Runtime σ) (man : Manifest) (c : String)
    (w : σ) (known : List ManifestStatus)
    (hc : c = CMDDeploy ∨ c = CMDReDeploy ∨ c = CMDDeployLocal)
    (hmods : man.Modules ≠ [])
    (hok : errorsOf (DeployDataService rt man c (St.init w known)).2.trace = [])
    (hnew : c = CMDDeploy →
      (DataServiceExist rt man.ID man.VersionName (St.init w known)).1 ≠ .ok true) :
    (DeployDataService rt man c (St.init w known)).1 = none
      ∧ endsWithStatus (DeployDataService rt man c (St.init w known)).2
          man.ID man.VersionName (ToUpper c ++ "ED")
      ∧ (c = CMDDeploy → ToUpper c ++ "ED" = "DEPLOYED")
      ∧ (c = CMDReDeploy → ToUpper c ++ "ED" = "REDEPLOYED")
      ∧ (c = CMDDeployLocal → ToUpper c ++ "ED" = "LOCAL_DEPLOYED") := by
  obtain ⟨evs, ht, hrun⟩ := DeployDataService_run rt man c (St.init w known)
  have ht2 : (DeployDataService rt man c (St.init w known)).2.trace = evs := by
    simpa [St.init] using ht
  rw [ht2] at hok
  have hnames : (c = CMDDeploy → ToUpper c ++ "ED" = "DEPLOYED")
      ∧ (c = CMDReDeploy → ToUpper c ++ "ED" = "REDEPLOYED")
      ∧ (c = CMDDeployLocal → ToUpper c ++ "ED" = "LOCAL_DEPLOYED") :=
    ⟨fun h => by subst h; decide, fun h => by subst h; decide, fun h => by subst h; decide⟩
  cases hrun with
  | existFailed e1 s1 hr hevs hsf => simp [hevs, errorsOf] at hok
  | alreadyExists hc1 hex hr hevs hsf => exact absurd hex (hnew hc1)
  | teardownFailed evsU s1 hc1 hex hU hfail hr hevs hsf =>
    rw [hevs, errorsOf_append, errorsOf_append] at hok
    simp only [List.append_eq_nil] at hok
    exact absurd hok.1.2 hfail
  | lookupFailed pre evsP img1 e1 hpre hP hr hevs => simp [hevs, errorsOf] at hok
  | pullFailed pre evsP img1 e1 s1 hpre hP hr hevs hsf => simp [hevs, errorsOf] at hok
  | networkFailed pre evsP e1 s1 hpre hP hr hevs hsf => simp [hevs, errorsOf] at hok
  | noModules pre evsP evsU sMid hpre hP hmods1 hr hmid hU hevs hsf => exact absurd hmods1 hmods
  | createFailed pre evsP evsU networkName done m rest e1 sMid hpre hP hmods1 hr hmid hU hevs
      hsf => simp [hevs, errorsOf] at hok
  | succeeded pre evsP networkName s1 hpre hP hmods1 hr hevs hsf =>
    refine ⟨hr, ?_, hnames⟩
    rw [hsf]
    exact endsWithStatus_setStatus _ _ _ _ _

/-- C8 at a concrete input: `deploy` of `demo` on an empty host whose engine refuses to
pull the second image. -/
theorem deploy_aborts_on_pull_failure_witness :
    (DeployDataService sim demoManifest CMDDeploy (St.init pullRefusingWorld [])).1
        = some "unable to pull image/s"
      ∧ (∀ ev ∈ (DeployDataService sim demoManifest CMDDeploy
          (St.init pullRefusingWorld [])).2.trace, ev.call.creates = false)
      ∧ endsWithStatus (DeployDataService sim demoManifest CMDDeploy
          (St.init pullRefusingWorld [])).2 "demo" "1" "DEPLOY"
      ∧ (ToUpper CMDDeploy = "DEPLOY" ∨ ToUpper CMDDeploy = "REDEPLOY"
          ∨ ToUpper CMDDeploy = "LOCAL_DEPLOY") :=
  deploy_aborts_on_pull_failure sim demoManifest CMDDeploy pullRefusingWorld []
    (Or.inl rfl) ⟨⟨"img2:latest"⟩, "cannot pull img2:latest", by decide⟩

/-- C7 at a concrete input: `deploy` of `demo` on an empty host. -/
theorem deploy_succeeds_when_all_calls_succeed_witness :
    (DeployDataService sim demoManifest CMDDeploy (St.init emptyWorld [])).1 = none
      ∧ endsWithStatus (DeployDataService sim demoManifest CMDDeploy
          (St.init emptyWorld [])).2 "demo" "1" "DEPLOYED" :=
  have h := deploy_succeeds_when_all_calls_succeed sim demoManifest CMDDeploy emptyWorld []
    (Or.inl rfl) (by decide) (by decide)
    (fun _ => by
      rw [show (DataServiceExist sim demoManifest.ID demoManifest.VersionName
        (St.init emptyWorld [])).1 = .ok false from rfl]
      simp)
  ⟨h.1, h.2.1⟩

/-- C6: for every manifest with at least one module, in a run of `DeployDataService` that
gets past the network creation, `CreateAndStartContainer` is called on the modules in
manifest order (each carrying the assigned network name).  Either all of them succeed,
each module having been created once, and the run returns no error; or the calls stop at
the first failing module: the modules before it were created once each, no later module is
created, `<COMMAND>_FAILED` is written, `UndeployDataService` is run as rollback, and the
error of the failing call is returned. -/
theorem containers_created_in_manifest_order (rt : Runtime σ) (man : Manifest) (c : String)
    (w : σ) (known : List ManifestStatus) (hmods : man.Modules ≠ [])
    (hnet : (⟨.CreateNetwork man.ApplicationID man.Labels, none⟩ : Event)
      ∈ (DeployDataService rt man c (St.init w known)).2.trace) :
    ∃ networkName,
      ((DeployDataService rt man c (St.init w known)).1 = none
        ∧ createdConfigs (DeployDataService rt man c (St.init w known)).2.trace
            = (UpdateManifest man networkName).Modules
        ∧ ∀ m ∈ (UpdateManifest man networkName).Modules,
            created m ∈ (DeployDataService rt man c (St.init w known)).2.trace)
      ∨ (∃ done m rest e sMid,
          (UpdateManifest man networkName).Modules = done ++ m :: rest
          ∧ createdConfigs (DeployDataService rt man c (St.init w known)).2.trace
              = done ++ [m]
          ∧ (∀ d ∈ done, created d ∈ (DeployDataService rt man c (St.init w known)).2.trace)
          ∧ (⟨.CreateAndStartContainer m, some e⟩ : Event)
              ∈ (DeployDataService rt man c (St.init w known)).2.trace
          ∧ (DeployDataService rt man c (St.init w known)).1 = some e
          ∧ createdConfigs sMid.trace = done ++ [m]
          ∧ sMid.trace.getLast?
              = some ⟨.SetStatus man.ID man.VersionName (ToUpper c ++ "_FAILED"), none⟩
          ∧ (DeployDataService rt man c (St.init w known)).2
              = (UndeployDataService rt man.ID man.VersionName sMid).2) := by
  obtain ⟨evs, ht, hrun⟩ := DeployDataService_run rt man c (St.init w known)
  have ht2 : (DeployDataService rt man c (St.init w known)).2.trace = evs := by
    simpa [St.init] using ht
  rw [ht2] at hnet ⊢
  have hT : (Call.CreateNetwork man.ApplicationID man.Labels).isTeardown = false := rfl
  have hI : (Call.CreateNetwork man.ApplicationID man.Labels).isImageStep = false := rfl
  cases hrun with
  | existFailed e1 s1 hr hevs hsf => simp [hevs] at hnet
  | alreadyExists hc1 hex hr hevs hsf => simp [hevs] at hnet
  | teardownFailed evsU s1 hc1 hex hU hfail hr hevs hsf =>
    simp [hevs, not_mem_of_all_teardown hU hT] at hnet
  | lookupFailed pre evsP img1 e1 hpre hP hr hevs =>
    simp [hevs, not_mem_of_all_teardown hpre.1 hT, not_mem_of_all_imageStep hP.1 hI] at hnet
  | pullFailed pre evsP img1 e1 s1 hpre hP hr hevs hsf =>
    simp [hevs, not_mem_of_all_teardown hpre.1 hT, not_mem_of_all_imageStep hP.1 hI] at hnet
  | networkFailed pre evsP e1 s1 hpre hP hr hevs hsf =>
    simp [hevs, not_mem_of_all_teardown hpre.1 hT, not_mem_of_all_imageStep hP.1 hI] at hnet
  | noModules pre evsP evsU sMid hpre hP hmods1 hr hmid hU hevs hsf => exact absurd hmods1 hmods
  | createFailed pre evsP evsU networkName done m rest e1 sMid hpre hP hmods1 hr hmid hU hevs
      hsf =>
    refine ⟨networkName, Or.inr ⟨done, m, rest, e1, sMid, hmods1, ?_, ?_, ?_, hr, ?_, ?_, hsf⟩⟩
    · rw [hevs]
      simp only [createdConfigs_append, createdConfigs_of_teardown hpre.1,
        createdConfigs_of_imageStep hP.1, createdConfigs_of_teardown hU,
        createdConfigs_map_created]
      simp [createdConfigs]
    · intro d hd
      rw [hevs]
      simp only [List.mem_append, List.mem_map]
      exact Or.inl (Or.inl (Or.inr ⟨d, hd, rfl⟩))
    · rw [hevs]
      simp
    · rw [hmid]
      simp only [St.init, createdConfigs_append, createdConfigs_of_teardown hpre.1,
        createdConfigs_of_imageStep hP.1, createdConfigs_map_created]
      simp [createdConfigs]
    · rw [hmid]
      exact getLast?_append_pair _ _ _
  | succeeded pre evsP networkName s1 hpre hP hmods1 hr hevs hsf =>
    refine ⟨networkName, Or.inl ⟨hr, ?_, ?_⟩⟩
    · rw [hevs]
      simp only [createdConfigs_append, createdConfigs_of_teardown hpre.1,
        createdConfigs_of_imageStep hP.1, createdConfigs_map_created]
      simp [createdConfigs]
    · intro m hm
      rw [hevs]
      simp only [List.mem_append, List.mem_map]
      exact Or.inl (Or.inr ⟨m, hm, rfl⟩)

/-- C6 at a concrete input: `deploy` of `demo` on an empty host whose engine refuses to
start the second container. -/
theorem containers_created_in_manifest_order_witness :
    ∃ networkName,
      ((DeployDataService sim demoManifest CMDDeploy (St.init startRefusingWorld [])).1 = none
        ∧ createdConfigs (DeployDataService sim demoManifest CMDDeploy
            (St.init startRefusingWorld [])).2.trace
            = (UpdateManifest demoManifest networkName).Modules
        ∧ ∀ m ∈ (UpdateManifest demoManifest networkName).Modules,
            created m ∈ (DeployDataService sim demoManifest CMDDeploy
              (St.init startRefusingWorld [])).2.trace)
      ∨ (∃ done m rest e sMid,
          (UpdateManifest demoManifest networkName).Modules = done ++ m :: rest
          ∧ createdConfigs (DeployDataService sim demoManifest CMDDeploy
              (St.init startRefusingWorld [])).2.trace = done ++ [m]
          ∧ (∀ d ∈ done, created d ∈ (DeployDataService sim demoManifest CMDDeploy
              (St.init startRefusingWorld [])).2.trace)
          ∧ (⟨.CreateAndStartContainer m, some e⟩ : Event)
              ∈ (DeployDataService sim demoManifest CMDDeploy
                (St.init startRefusingWorld [])).2.trace
          ∧ (DeployDataService sim demoManifest CMDDeploy
              (St.init startRefusingWorld [])).1 = some e
          ∧ createdConfigs sMid.trace = done ++ [m]
          ∧ sMid.trace.getLast?
              = some ⟨.SetStatus demoManifest.ID demoManifest.VersionName
                  (ToUpper CMDDeploy ++ "_FAILED"), none⟩
          ∧ (DeployDataService sim demoManifest CMDDeploy (St.init startRefusingWorld [])).2
              = (UndeployDataService sim demoManifest.ID demoManifest.VersionName sMid).2) :=
  containers_created_in_manifest_order sim demoManifest CMDDeploy startRefusingWorld []
    (by decide) (by decide)

/-- C3 as stated fails: `deploy` of `demo` on the host where it is deployed returns an
error, and the run has written no status at all; the ledger is as before. -/
theorem deploy_rejection_writes_no_status :
    (DeployDataService sim demoManifest CMDDeploy (St.init deployedWorld deployedLedger)).1
        = some "data service already exists"
      ∧ statusWrites (DeployDataService sim demoManifest CMDDeploy
          (St.init deployedWorld deployedLedger)).2.trace = []
      ∧ (DeployDataService sim demoManifest CMDDeploy
          (St.init deployedWorld deployedLedger)).2.knownManifests = deployedLedger := by
  decide

/-- C3 (as amended): every run of `StopDataService`, `StartDataService` or
`UndeployDataService` that returns an error ends with a status write for the identity,
which the ledger then holds: `STOP_SERVICE_FAILED` or `STOP_CONTAINER_FAILED` for stop,
`UNDEPLOY_FAILED` or `START_FAILED` for start, `UNDEPLOY_FAILED` or `UNDEPLOYED` for
undeploy.  Every run of `DeployDataService` that returns an error has written
`<COMMAND>_FAILED` for the identity, unless it is the rejection of `deploy` on an existing
service, whose only call is the network listing, or an image lookup or an image pull
failed. -/
theorem failed_runs_leave_a_status (rt : Runtime σ) :
    (∀ a v s, (StopDataService rt a v s).1 ≠ none →
        ∃ st, (st = "STOP_SERVICE_FAILED" ∨ st = "STOP_CONTAINER_FAILED")
          ∧ endsWithStatus (StopDataService rt a v s).2 a v st)
      ∧ (∀ a v s, (StartDataService rt a v s).1 ≠ none →
        ∃ st, (st = "UNDEPLOY_FAILED" ∨ st = "START_FAILED")
          ∧ endsWithStatus (StartDataService rt a v s).2 a v st)
      ∧ (∀ a v s, (UndeployDataService rt a v s).1 ≠ none →
        ∃ st, (st = "UNDEPLOY_FAILED" ∨ st = "UNDEPLOYED")
          ∧ endsWithStatus (UndeployDataService rt a v s).2 a v st)
      ∧ (∀ man c s, (DeployDataService rt man c s).1 ≠ none →
        ∃ evs, (DeployDataService rt man c s).2.trace = s.trace ++ evs
          ∧ ((c = CMDDeploy ∧ (DataServiceExist rt man.ID man.VersionName s).1 = .ok true
                ∧ evs = [⟨.ReadDataServiceNetworks man.ID man.VersionName, none⟩])
            ∨ (∃ ev ∈ evs, ev.call.isImageStep = true ∧ ev.err ≠ none)
            ∨ (⟨.SetStatus man.ID man.VersionName (ToUpper c ++ "_FAILED"), none⟩ : Event)
                ∈ evs)) := by
  refine ⟨?_, ?_, ?_, ?_⟩
  · intro a v s h
    obtain ⟨st, s1, hst, hsf⟩ := StopDataService_error rt a v s h
    exact ⟨st, hst, by rw [hsf]; exact endsWithStatus_setStatus _ _ _ _ _⟩
  · intro a v s h
    obtain ⟨st, s1, hst, hsf⟩ := StartDataService_error rt a v s h
    exact ⟨st, hst, by rw [hsf]; exact endsWithStatus_setStatus _ _ _ _ _⟩
  · intro a v s _
    obtain ⟨-, -, -, -, st, s1, hst, hsf, -⟩ := UndeployDataService_spec rt a v s
    exact ⟨st, hst, by rw [hsf]; exact endsWithStatus_setStatus _ _ _ _ _⟩
  · intro man c s h
    obtain ⟨evs, ht, hrun⟩ := DeployDataService_run rt man c s
    refine ⟨evs, ht, ?_⟩
    cases hrun with
    | existFailed e1 s1 hr hevs hsf => exact Or.inr (Or.inr (by simp [hevs]))
    | alreadyExists hc1 hex hr hevs hsf => exact Or.inl ⟨hc1, hex, hevs⟩
    | teardownFailed evsU s1 hc1 hex hU hfail hr hevs hsf =>
      exact Or.inr (Or.inr (by simp [hevs]))
    | lookupFailed pre evsP img1 e1 hpre hP hr hevs =>
      exact Or.inr (Or.inl ⟨⟨.ImageExists img1, some e1⟩, by simp [hevs], rfl, by simp⟩)
    | pullFailed pre evsP img1 e1 s1 hpre hP hr hevs hsf =>
      exact Or.inr (Or.inl ⟨⟨.PullImage img1, some e1⟩, by simp [hevs], rfl, by simp⟩)
    | networkFailed pre evsP e1 s1 hpre hP hr hevs hsf =>
      exact Or.inr (Or.inr (by simp [hevs]))
    | noModules pre evsP evsU sMid hpre hP hmods1 hr hmid hU hevs hsf =>
      exact Or.inr (Or.inr (by simp [hevs]))
    | createFailed pre evsP evsU networkName done m rest e1 sMid hpre hP hmods1 hr hmid hU
        hevs hsf =>
      exact Or.inr (Or.inr (by simp [hevs]))
    | succeeded pre evsP networkName s1 hpre hP hmods1 hr hevs hsf => exact absurd hr h

/-- C3 (as amended) at a concrete input: `deploy` of `demo` on an empty host whose engine
refuses to start the second container. -/
theorem failed_runs_leave_a_status_witness :
    ∃ evs, (DeployDataService sim demoManifest CMDDeploy
        (St.init startRefusingWorld [])).2.trace = [] ++ evs
      ∧ ((CMDDeploy = CMDDeploy
            ∧ (DataServiceExist sim "demo" "1" (St.init startRefusingWorld [])).1 = .ok true
            ∧ evs = [⟨.ReadDataServiceNetworks "demo" "1", none⟩])
        ∨ (∃ ev ∈ evs, ev.call.isImageStep = true ∧ ev.err ≠ none)
        ∨ (⟨.SetStatus "demo" "1" (ToUpper CMDDeploy ++ "_FAILED"), none⟩ : Event) ∈ evs) :=
  (failed_runs_leave_a_status sim).2.2.2 demoManifest CMDDeploy
    (St.init startRefusingWorld []) (by decide)

end Claims

/-! ## The simulated engine without faults -/

section FaultFree

theorem refuses_eq_false {w : World} (hf : w.faults = []) (operation argument : String) :
    w.refuses operation argument = false := by
  simp [World.refuses, hf]

theorem filter_setState (l : List Container) (id st : String) :
    (l.map (fun c => if c.ID = id then { c with State := st } else c)).filter
        (fun c => decide (c.ID ≠ id))
      = l.filter (fun c => decide (c.ID ≠ id)) := by
  induction l with
  | nil => rfl
  | cons c rest ih =>
    by_cases h : c.ID = id
    · simpa [h] using ih
    · simpa [h] using ih

theorem filter_of_not_hasContainer (l : List Container) (id : String)
    (h : l.any (fun c => decide (c.ID = id)) = false) :
    l.filter (fun c => decide (c.ID ≠ id)) = l := by
  rw [List.filter_eq_self]
  intro c hc
  have := List.any_eq_false.1 h c hc
  simpa using this

theorem sim_StopAndRemoveContainer (w : World) (id : String) (hf : w.faults = []) :
    (StopAndRemoveContainer sim id w).2
      = { w with containers := w.containers.filter (fun c => decide (c.ID ≠ id)) } := by
  have hr : ∀ op, w.refuses op id = false := fun op => refuses_eq_false hf op id
  by_cases hhas : w.hasContainer id = true
  · have hr2 : ∀ op, (w.setState id "exited").refuses op id = false :=
      fun op => refuses_eq_false (w := w.setState id "exited") hf op id
    have hhas2 : (w.setState id "exited").hasContainer id = true := by
      simp only [World.hasContainer, World.setState, List.any_eq_true, List.mem_map] at hhas ⊢
      obtain ⟨c, hc, hid⟩ := hhas
      have hid2 : c.ID = id := by simpa using hid
      exact ⟨{ c with State := "exited" }, ⟨c, hc, by simp [hid2]⟩, by simp [hid2]⟩
    simp only [StopAndRemoveContainer, StopContainer, sim, simContainerStop, hr, hhas,
      simContainerRemove, hr2, hhas2, if_true, Bool.false_eq_true, if_false]
    simp only [World.setState, filter_setState]
  · have hhas2 : w.hasContainer id = false := by simpa using hhas
    simp only [StopAndRemoveContainer, StopContainer, sim, simContainerStop, hr, hhas2,
      simContainerRemove, Bool.false_eq_true, if_false]
    rw [filter_of_not_hasContainer w.containers id hhas2]

theorem sim_removeContainers (a v : String) :
    ∀ (ds : List Container) (m : List (String × Nat)) (errorlist : String) (s : St World),
      s.rt.faults = [] →
        (removeContainers sim a v ds m errorlist s).2.2.rt.faults = []
          ∧ (removeContainers sim a v ds m errorlist s).2.2.rt.networks = s.rt.networks
          ∧ ∀ c ∈ (removeContainers sim a v ds m errorlist s).2.2.rt.containers,
              c ∈ s.rt.containers ∧ ∀ d ∈ ds, c.ID ≠ d.ID := by
  intro ds
  induction ds with
  | nil =>
    intro m errorlist s hf
    exact ⟨by simpa [removeContainers] using hf, by simp [removeContainers],
      fun c hc => ⟨by simpa [removeContainers] using hc, by simp⟩⟩
  | cons d rest ih =>
    intro m errorlist s hf
    rcases hc : s.callO (.StopAndRemoveContainer d.ID) (StopAndRemoveContainer sim d.ID)
      with ⟨o, s1⟩
    obtain ⟨-, -, hrt⟩ := callO_eq hc
    have hs1 : s1.rt
        = { s.rt with containers := s.rt.containers.filter (fun c => decide (c.ID ≠ d.ID)) } := by
      rw [← sim_StopAndRemoveContainer s.rt d.ID hf, hrt]
    have hf1 : s1.rt.faults = [] := by rw [hs1]; exact hf
    have hn1 : s1.rt.networks = s.rt.networks := by rw [hs1]
    have hc1 : ∀ c ∈ s1.rt.containers, c ∈ s.rt.containers ∧ c.ID ≠ d.ID := by
      intro c hmem
      rw [hs1] at hmem
      simpa using hmem
    have key : ∀ (el : String) (s2 : St World), s2.rt = s1.rt →
        (removeContainers sim a v rest (mapSet m d.ImageID 0) el s2).2.2.rt.faults = []
          ∧ (removeContainers sim a v rest (mapSet m d.ImageID 0) el s2).2.2.rt.networks
              = s.rt.networks
          ∧ ∀ c ∈ (removeContainers sim a v rest (mapSet m d.ImageID 0) el s2).2.2.rt.containers,
              c ∈ s.rt.containers ∧ ∀ d2 ∈ d :: rest, c.ID ≠ d2.ID := by
      intro el s2 h2
      obtain ⟨i1, i2, i3⟩ := ih (mapSet m d.ImageID 0) el s2 (by rw [h2]; exact hf1)
      refine ⟨i1, by rw [i2, h2, hn1], ?_⟩
      intro c hmem
      obtain ⟨j1, j2⟩ := i3 c hmem
      rw [h2] at j1
      obtain ⟨k1, k2⟩ := hc1 c j1
      refine ⟨k1, ?_⟩
      intro d2 hd2
      rcases List.mem_cons.1 hd2 with h | h
      · subst h; exact k2
      · exact j2 d2 h
    cases o with
    | none =>
      simp only [removeContainers, hc]
      exact key errorlist s1 rfl
    | some e =>
      simp only [removeContainers, hc]
      exact key _ (setStatus sim a v "UNDEPLOY_FAILED" s1) rfl

theorem sim_ImageRemove (w : World) (id : String) :
    (sim.ImageRemove id w).2.faults = w.faults
      ∧ (sim.ImageRemove id w).2.networks = w.networks
      ∧ (sim.ImageRemove id w).2.containers = w.containers := by
  simp only [sim, simImageRemove]
  split <;> exact ⟨rfl, rfl, rfl⟩

theorem sim_removeImages (a v : String) (cs : List Container) (m : List (String × Nat)) :
    ∀ (keys : List String) (errorlist : String) (s : St World),
      (removeImages sim a v cs m keys errorlist s).2.rt.faults = s.rt.faults
        ∧ (removeImages sim a v cs m keys errorlist s).2.rt.networks = s.rt.networks
        ∧ (removeImages sim a v cs m keys errorlist s).2.rt.containers = s.rt.containers := by
  intro keys
  induction keys with
  | nil => intro errorlist s; simp [removeImages]
  | cons k rest ih =>
    intro errorlist s
    by_cases hz : mapGet m k + (cs.filter (fun c => c.ImageID = k)).length = 0
    · rcases hc : s.callO (.ImageRemove k) (sim.ImageRemove k) with ⟨o, s1⟩
      obtain ⟨-, -, hrt⟩ := callO_eq hc
      obtain ⟨g1, g2, g3⟩ := sim_ImageRemove s.rt k
      rw [hrt] at g1 g2 g3
      simp only at g1 g2 g3
      cases o with
      | none =>
        simp only [removeImages, if_pos hz, hc]
        obtain ⟨i1, i2, i3⟩ := ih errorlist s1
        exact ⟨by rw [i1, g1], by rw [i2, g2], by rw [i3, g3]⟩
      | some e =>
        simp only [removeImages, if_pos hz, hc]
        obtain ⟨i1, i2, i3⟩ := ih (errorlist ++ "," ++ e) (setStatus sim a v "UNDEPLOY_FAILED" s1)
        exact ⟨by rw [i1, setStatus_rt, g1], by rw [i2, setStatus_rt, g2],
          by rw [i3, setStatus_rt, g3]⟩
    · simp only [removeImages, if_neg hz]
      exact ih errorlist s

theorem sim_pruneNetwork (a v : String) (errorlist : String) (s : St World)
    (hf : s.rt.faults = []) :
    (pruneNetwork sim a v errorlist s).2.rt.faults = []
      ∧ (pruneNetwork sim a v errorlist s).2.rt.containers = s.rt.containers
      ∧ (pruneNetwork sim a v errorlist s).2.rt.networks
          = s.rt.networks.filter (fun n => !hasLabels n.Labels a v) := by
  have hrt : sim.NetworkPrune a v s.rt
      = (none, { s.rt with
          networks := s.rt.networks.filter (fun n => !hasLabels n.Labels a v) }) := by
    simp [sim, simNetworkPrune, refuses_eq_false hf]
  rcases hc : s.callO (.NetworkPrune a v) (sim.NetworkPrune a v) with ⟨o, s1⟩
  obtain ⟨-, -, h1⟩ := callO_eq hc
  rw [hrt] at h1
  simp only [Prod.mk.injEq] at h1
  obtain ⟨ho, hs1⟩ := h1
  subst ho
  simp only [pruneNetwork, hc]
  rw [← hs1]
  exact ⟨hf, rfl, rfl⟩

theorem sim_DataServiceExist (a v : String) (s : St World) (hf : s.rt.faults = []) :
    (DataServiceExist sim a v s).1
        = .ok (decide (0 < (s.rt.networks.filter (fun n => hasLabels n.Labels a v)).length))
      ∧ (DataServiceExist sim a v s).2.rt = s.rt := by
  simp only [DataServiceExist, St.callE, sim, simReadDataServiceNetworks, refuses_eq_false hf,
    Bool.false_eq_true, if_false]
  split <;> simp_all

theorem sim_listing (a v : String) (s : St World) (hf : s.rt.faults = []) :
    s.callE (.ReadDataServiceContainers a v) (ReadDataServiceContainers sim a v)
      = (.ok (s.rt.containers.filter (fun c => hasLabels c.Labels a v)),
          { s with trace := s.trace ++ [⟨.ReadDataServiceContainers a v, none⟩] }) := by
  simp [St.callE, ReadDataServiceContainers, sim, simContainerList, refuses_eq_false hf, errOf]

theorem sim_hostListing (s : St World) (hf : s.rt.faults = []) :
    s.callE .ReadAllContainers (ReadAllContainers sim)
      = (.ok s.rt.containers, { s with trace := s.trace ++ [⟨.ReadAllContainers, none⟩] }) := by
  simp [St.callE, ReadAllContainers, sim, simContainerList, refuses_eq_false hf, errOf]

/-- On the simulated engine without faults, `UndeployDataService` on a service whose
network exists leaves no network and no container carrying the identity labels. -/
theorem sim_UndeployDataService (a v : String) (s : St World) (hf : s.rt.faults = []) :
    (UndeployDataService sim a v s).2.rt.faults = []
      ∧ ((DataServiceExist sim a v s).1 = .ok true →
          (UndeployDataService sim a v s).2.rt.networks.filter
              (fun n => hasLabels n.Labels a v) = []
            ∧ (UndeployDataService sim a v s).2.rt.containers.filter
              (fun c => hasLabels c.Labels a v) = []) := by
  obtain ⟨hE1, hE2⟩ := sim_DataServiceExist a v s hf
  rcases hE : DataServiceExist sim a v s with ⟨r, s1⟩
  rw [hE] at hE1 hE2
  simp only at hE1 hE2
  have hf1 : s1.rt.faults = [] := by rw [hE2]; exact hf
  cases r with
  | error e => simp at hE1
  | ok b =>
    cases b with
    | false => exact ⟨by simp [UndeployDataService, hE, hf1], by simp⟩
    | true =>
      have hL := sim_listing a v s1 hf1
      obtain ⟨r1, r2, r3⟩ := sim_removeContainers a v
        (s1.rt.containers.filter (fun c => hasLabels c.Labels a v)) [] ""
        { s1 with trace := s1.trace ++ [⟨.ReadDataServiceContainers a v, none⟩] } hf1
      rcases hR : removeContainers sim a v
        (s1.rt.containers.filter (fun c => hasLabels c.Labels a v)) [] ""
        { s1 with trace := s1.trace ++ [⟨.ReadDataServiceContainers a v, none⟩] }
        with ⟨m, el3, s3⟩
      rw [hR] at r1 r2 r3
      simp only at r1 r2 r3
      have hA := sim_hostListing s3 r1
      obtain ⟨i1, i2, i3⟩ := sim_removeImages a v s3.rt.containers m
        (sim.rangeOrder (m.map Prod.fst)) el3
        { s3 with trace := s3.trace ++ [⟨.ReadAllContainers, none⟩] }
      rcases hI : removeImages sim a v s3.rt.containers m (sim.rangeOrder (m.map Prod.fst)) el3
        { s3 with trace := s3.trace ++ [⟨.ReadAllContainers, none⟩] } with ⟨el5, s5⟩
      rw [hI] at i1 i2 i3
      simp only at i1 i2 i3
      obtain ⟨p1, p2, p3⟩ := sim_pruneNetwork a v el5 s5 (by rw [i1]; exact r1)
      rcases hP : pruneNetwork sim a v el5 s5 with ⟨el6, s6⟩
      rw [hP] at p1 p2 p3
      simp only at p1 p2 p3
      have hfinal : (UndeployDataService sim a v s).2.rt = s6.rt := by
        simp only [UndeployDataService, hE, hL, hR, hA, hI, hP]
        split <;> rfl
      rw [hfinal]
      refine ⟨p1, fun _ => ⟨?_, ?_⟩⟩
      · rw [p3, List.filter_filter, List.filter_eq_nil_iff]
        intro n _
        simp
      · rw [p2, i3, List.filter_eq_nil_iff]
        intro c hc hlab
        obtain ⟨hmem, hne⟩ := r3 c hc
        exact hne c (List.mem_filter.2 ⟨hmem, hlab⟩) rfl

theorem sim_deploySteps_bare (man : Manifest) (c : String) (s : St World)
    (hmods : man.Modules = [])
    (hlab : hasLabels man.Labels man.ID man.VersionName = true) (hf : s.rt.faults = []) :
    (deploySteps sim man c s).2.rt.networks.filter
        (fun n => hasLabels n.Labels man.ID man.VersionName) = []
      ∧ (deploySteps sim man c s).2.rt.containers.filter
        (fun c => hasLabels c.Labels man.ID man.VersionName) = [] := by
  have hN : s.callE (.CreateNetwork man.ApplicationID man.Labels)
      (sim.CreateNetwork man.ApplicationID man.Labels)
      = (.ok man.ApplicationID,
          { s with
            rt := { s.rt with
              networks := s.rt.networks ++ [{ Name := man.ApplicationID, Labels := man.Labels }] }
            trace := s.trace ++ [⟨.CreateNetwork man.ApplicationID man.Labels, none⟩] }) := by
    simp [St.callE, sim, simCreateNetwork, refuses_eq_false hf, errOf]
  have hlen : (UpdateManifest man man.ApplicationID).Modules.length = 0 := by
    simp [UpdateManifest, hmods]
  have hrun : (deploySteps sim man c s).2
      = (UndeployDataService sim man.ID man.VersionName
          (setStatus sim man.ID man.VersionName (ToUpper c ++ "_FAILED")
            { s with
              rt := { s.rt with
                networks := s.rt.networks
                  ++ [{ Name := man.ApplicationID, Labels := man.Labels }] }
              trace := s.trace
                ++ [⟨.CreateNetwork man.ApplicationID man.Labels, none⟩] })).2 := by
    simp only [deploySteps, hmods, pullImages, hN, if_pos hlen]
  rw [hrun]
  have hf2 : (setStatus sim man.ID man.VersionName (ToUpper c ++ "_FAILED")
      { s with
        rt := { s.rt with
          networks := s.rt.networks ++ [{ Name := man.ApplicationID, Labels := man.Labels }] }
        trace := s.trace
          ++ [⟨.CreateNetwork man.ApplicationID man.Labels, none⟩] }).rt.faults = [] := hf
  refine (sim_UndeployDataService man.ID man.VersionName _ hf2).2 ?_
  rw [(sim_DataServiceExist man.ID man.VersionName _ hf2).1]
  simp [List.filter_append, hlab]

/-- On the simulated engine without faults, a deployment of a manifest without modules
whose labels carry the identity leaves no network and no container with the identity
labels, unless it is the rejected `deploy` of an existing service. -/
theorem sim_DeployDataService_bare (man : Manifest) (c : String) (s : St World)
    (hmods : man.Modules = [])
    (hlab : hasLabels man.Labels man.ID man.VersionName = true) (hf : s.rt.faults = [])
    (hnot : ¬ (c = CMDDeploy ∧ (DataServiceExist sim man.ID man.VersionName s).1 = .ok true)) :
    (DeployDataService sim man c s).2.rt.networks.filter
        (fun n => hasLabels n.Labels man.ID man.VersionName) = []
      ∧ (DeployDataService sim man c s).2.rt.containers.filter
        (fun c => hasLabels c.Labels man.ID man.VersionName) = [] := by
  obtain ⟨hE1, hE2⟩ := sim_DataServiceExist man.ID man.VersionName s hf
  rcases hE : DataServiceExist sim man.ID man.VersionName s with ⟨r, s1⟩
  rw [hE] at hE1 hE2 hnot
  simp only at hE1 hE2 hnot
  have hf1 : s1.rt.faults = [] := by rw [hE2]; exact hf
  cases r with
  | error e => simp at hE1
  | ok b =>
    cases b with
    | false =>
      simp only [DeployDataService, hE]
      exact sim_deploySteps_bare man c s1 hmods hlab hf1
    | true =>
      have hd : c ≠ CMDDeploy := fun h => hnot ⟨h, rfl⟩
      by_cases hr : c = CMDReDeploy ∨ c = CMDDeployLocal
      · obtain ⟨u1, u2⟩ := sim_UndeployDataService man.ID man.VersionName s1 hf1
        rcases hU : UndeployDataService sim man.ID man.VersionName s1 with ⟨ru, s2⟩
        rw [hU] at u1 u2
        simp only at u1 u2
        cases ru with
        | some e =>
          simp only [DeployDataService, hE, if_neg hd, if_pos hr, hU, setStatus_rt]
          refine u2 ?_
          rw [(sim_DataServiceExist man.ID man.VersionName s1 hf1).1, hE2, ← hE1]
        | none =>
          simp only [DeployDataService, hE, if_neg hd, if_pos hr, hU]
          exact sim_deploySteps_bare man c s2 hmods hlab u1
      · simp only [DeployDataService, hE, if_neg hd, if_neg hr]
        exact sim_deploySteps_bare man c s1 hmods hlab hf1

end FaultFree

section Rollback
variable {σ : Type}

/-- C2 as stated fails: `deploy` of the manifest `demo` without modules on the host where
`demo` is deployed returns "data service already exists" after the network listing alone;
no teardown runs, and the network and the two containers of the identity remain. -/
theorem bare_deploy_on_existing_service_keeps_network :
    bareManifest.Modules = []
      ∧ (DeployDataService sim bareManifest CMDDeploy
          (St.init deployedWorld deployedLedger)).1 = some "data service already exists"
      ∧ dockerCalls (DeployDataService sim bareManifest CMDDeploy
          (St.init deployedWorld deployedLedger)).2.trace
          = [Call.ReadDataServiceNetworks "demo" "1"]
      ∧ (DeployDataService sim bareManifest CMDDeploy
          (St.init deployedWorld deployedLedger)).2.rt.networks.filter
            (fun n => hasLabels n.Labels "demo" "1") = deployedWorld.networks
      ∧ (DeployDataService sim bareManifest CMDDeploy
          (St.init deployedWorld deployedLedger)).2.rt.containers.filter
            (fun c => hasLabels c.Labels "demo" "1") = deployedWorld.containers := by
  decide

/-- C2 (as amended): for every manifest with zero modules, every command and every runtime,
`DeployDataService` returns an error; and when the run gets past the network creation, it
writes `<COMMAND>_FAILED`, runs `UndeployDataService` as rollback, and returns "no valid
contianers in manifest".  Moreover, on the simulated engine without faults, if the
manifest's labels carry the identity and the run is not the rejected `deploy` of an
existing service, no network and no container carrying the identity labels remains after
the call. -/
theorem deploy_without_modules_fails_and_rolls_back (rt : Runtime σ) (man : Manifest)
    (c : String) (s : St σ) (w : World) (known : List ManifestStatus)
    (hmods : man.Modules = []) :
    (DeployDataService rt man c s).1 ≠ none
      ∧ (∃ evs, (DeployDataService rt man c s).2.trace = s.trace ++ evs
          ∧ ((⟨.CreateNetwork man.ApplicationID man.Labels, none⟩ : Event) ∈ evs →
              (DeployDataService rt man c s).1 = some "no valid contianers in manifest"
              ∧ ∃ sMid, sMid.trace.getLast?
                    = some ⟨.SetStatus man.ID man.VersionName (ToUpper c ++ "_FAILED"), none⟩
                  ∧ (DeployDataService rt man c s).2
                    = (UndeployDataService rt man.ID man.VersionName sMid).2))
      ∧ (hasLabels man.Labels man.ID man.VersionName = true → w.faults = [] →
          ¬ (c = CMDDeploy
            ∧ (DataServiceExist sim man.ID man.VersionName (St.init w known)).1 = .ok true) →
          (DeployDataService sim man c (St.init w known)).2.rt.networks.filter
              (fun n => hasLabels n.Labels man.ID man.VersionName) = []
            ∧ (DeployDataService sim man c (St.init w known)).2.rt.containers.filter
              (fun c => hasLabels c.Labels man.ID man.VersionName) = []) := by
  obtain ⟨evs, ht, hrun⟩ := DeployDataService_run rt man c s
  have hT : (Call.CreateNetwork man.ApplicationID man.Labels).isTeardown = false := rfl
  have hI : (Call.CreateNetwork man.ApplicationID man.Labels).isImageStep = false := rfl
  refine ⟨?_, ⟨evs, ht, ?_⟩, fun hlab hf hnot =>
    sim_DeployDataService_bare man c (St.init w known) hmods hlab hf hnot⟩
  · cases hrun with
    | existFailed e1 s1 hr hevs hsf => simp [hr]
    | alreadyExists hc1 hex hr hevs hsf => simp [hr]
    | teardownFailed evsU s1 hc1 hex hU hfail hr hevs hsf => simp [hr]
    | lookupFailed pre evsP img1 e1 hpre hP hr hevs => simp [hr]
    | pullFailed pre evsP img1 e1 s1 hpre hP hr hevs hsf => simp [hr]
    | networkFailed pre evsP e1 s1 hpre hP hr hevs hsf => simp [hr]
    | noModules pre evsP evsU sMid hpre hP hmods1 hr hmid hU hevs hsf => simp [hr]
    | createFailed pre evsP evsU networkName done m rest e1 sMid hpre hP hmods1 hr hmid hU
        hevs hsf => simp [hr]
    | succeeded pre evsP networkName s1 hpre hP hmods1 hr hevs hsf => exact absurd hmods hmods1
  · intro hnet
    cases hrun with
    | existFailed e1 s1 hr hevs hsf => simp [hevs] at hnet
    | alreadyExists hc1 hex hr hevs hsf => simp [hevs] at hnet
    | teardownFailed evsU s1 hc1 hex hU hfail hr hevs hsf =>
      simp [hevs, not_mem_of_all_teardown hU hT] at hnet
    | lookupFailed pre evsP img1 e1 hpre hP hr hevs =>
      simp [hevs, not_mem_of_all_teardown hpre.1 hT, not_mem_of_all_imageStep hP.1 hI] at hnet
    | pullFailed pre evsP img1 e1 s1 hpre hP hr hevs hsf =>
      simp [hevs, not_mem_of_all_teardown hpre.1 hT, not_mem_of_all_imageStep hP.1 hI] at hnet
    | networkFailed pre evsP e1 s1 hpre hP hr hevs hsf =>
      simp [hevs, not_mem_of_all_teardown hpre.1 hT, not_mem_of_all_imageStep hP.1 hI] at hnet
    | noModules pre evsP evsU sMid hpre hP hmods1 hr hmid hU hevs hsf =>
      exact ⟨hr, sMid, by rw [hmid]; exact getLast?_append_pair _ _ _, hsf⟩
    | createFailed pre evsP evsU networkName done m rest e1 sMid hpre hP hmods1 hr hmid hU
        hevs hsf =>
      simp [UpdateManifest, hmods] at hmods1
    | succeeded pre evsP networkName s1 hpre hP hmods1 hr hevs hsf => exact absurd hmods hmods1

/-- C2 (as amended) at concrete inputs: `redeploy` of the manifest `demo` without modules
on the host where `demo` is deployed.  It returns an error when the engine refuses to prune
networks; on the engine without faults it creates the network, returns "no valid contianers
in manifest", and leaves no network and no container labelled `demo`/`1`. -/
theorem deploy_without_modules_fails_and_rolls_back_witness :
    bareManifest.Modules = []
      ∧ (DeployDataService sim bareManifest CMDReDeploy
          (St.init pruneRefusingWorld deployedLedger)).1 ≠ none
      ∧ (DeployDataService sim bareManifest CMDReDeploy
          (St.init deployedWorld deployedLedger)).1 = some "no valid contianers in manifest"
      ∧ (DeployDataService sim bareManifest CMDReDeploy
          (St.init deployedWorld deployedLedger)).2.rt.networks.filter
            (fun n => hasLabels n.Labels "demo" "1") = []
      ∧ (DeployDataService sim bareManifest CMDReDeploy
          (St.init deployedWorld deployedLedger)).2.rt.containers.filter
            (fun c => hasLabels c.Labels "demo" "1") = [] :=
  have h := deploy_without_modules_fails_and_rolls_back sim bareManifest CMDReDeploy
    (St.init pruneRefusingWorld deployedLedger) deployedWorld deployedLedger rfl
  have h2 := deploy_without_modules_fails_and_rolls_back sim bareManifest CMDReDeploy
    (St.init deployedWorld deployedLedger) deployedWorld deployedLedger rfl
  have hpost := h2.2.2 (by decide) rfl (fun hc => absurd hc.1 (by decide))
  ⟨rfl, h.1,
    (h2.2.1.choose_spec.2 (by
      have ht := h2.2.1.choose_spec.1
      rw [show (St.init deployedWorld deployedLedger).trace ++ h2.2.1.choose
        = h2.2.1.choose from rfl] at ht
      rw [← ht]
      decide)).1,
    hpost.1, hpost.2⟩

end Rollback

/-! ## The ledger under `SetStatus` -/

section LedgerClaims

/-- What the loop of `SetStatus` does: either it finds a first entry with the identity
and rewrites that entry's `Status` and `InTransition` in place, or no entry has the
identity and it reports the manifest as not known. -/
theorem updateKnown_cases (uid : ManifestUniqueID) (status : String) (inTransition : Bool) :
    ∀ known : List ManifestStatus,
      (∃ pre m post, known = pre ++ m :: post ∧ (∀ x ∈ pre, x.ManifestUniqueID ≠ uid)
          ∧ m.ManifestUniqueID = uid
          ∧ updateKnown uid status inTransition known
              = some (pre ++ { m with Status := status, InTransition := inTransition } :: post))
      ∨ ((∀ x ∈ known, x.ManifestUniqueID ≠ uid)
          ∧ updateKnown uid status inTransition known = none) := by
  intro known
  induction known with
  | nil => exact Or.inr ⟨by simp, rfl⟩
  | cons m rest ih =>
    by_cases h : m.ManifestUniqueID = uid
    · exact Or.inl ⟨[], m, rest, rfl, by simp, h, by simp [updateKnown, h]⟩
    · rcases ih with ⟨pre, m2, post, h1, h2, h3, h4⟩ | ⟨h1, h2⟩
      · refine Or.inl ⟨m :: pre, m2, post, by simp [h1], ?_, h3, ?_⟩
        · intro x hx
          rcases List.mem_cons.1 hx with hx | hx
          · subst hx; exact h
          · exact h2 x hx
        · simp [updateKnown, h, h4]
      · refine Or.inr ⟨?_, by simp [updateKnown, h, h2]⟩
        intro x hx
        rcases List.mem_cons.1 hx with hx | hx
        · subst hx; exact h
        · exact h1 x hx

/-- C20: `SetStatus` for an identity that is in the ledger rewrites the `Status` and
`InTransition` of the first entry with that identity and nothing else: that entry keeps
its `ManifestID` and `ContainerCount` whatever `manifestID` and `containerCount` are
passed, every other entry, the order and the number of entries are unchanged.  For an
identity that is not in the ledger, the new entry is appended at the end and the previous
entries are unchanged.  In both cases no entry is removed. -/
theorem SetStatus_changes_one_entry_only (manifestID : String) (containerCount : Int)
    (uid : ManifestUniqueID) (status : String) (inTransition : Bool)
    (known : List ManifestStatus) :
    (∃ pre m post, known = pre ++ m :: post ∧ (∀ x ∈ pre, x.ManifestUniqueID ≠ uid)
        ∧ m.ManifestUniqueID = uid
        ∧ SetStatus manifestID containerCount uid status inTransition known
            = pre ++ { ManifestID := m.ManifestID, ManifestUniqueID := m.ManifestUniqueID,
                       Status := status, ContainerCount := m.ContainerCount,
                       InTransition := inTransition } :: post
        ∧ (SetStatus manifestID containerCount uid status inTransition known).length
            = known.length)
      ∨ ((∀ x ∈ known, x.ManifestUniqueID ≠ uid)
        ∧ SetStatus manifestID containerCount uid status inTransition known
            = known ++ [{ ManifestID := manifestID, ManifestUniqueID := uid, Status := status,
                          ContainerCount := containerCount, InTransition := inTransition }]) := by
  rcases updateKnown_cases uid status inTransition known with
    ⟨pre, m, post, h1, h2, h3, h4⟩ | ⟨h1, h2⟩
  · refine Or.inl ⟨pre, m, post, h1, h2, h3, ?_, ?_⟩
    · simp [SetStatus, h4]
    · simp only [SetStatus, h4]
      simp [h1]
  · exact Or.inr ⟨h1, by simp [SetStatus, h2]⟩

/-- C17: `SetStatus` preserves "exactly one entry per `ManifestUniqueID`": on a ledger with
pairwise distinct identities, the resulting ledger has pairwise distinct identities and
holds exactly one entry for `uid`, with `Status = status` and
`InTransition = inTransition`. -/
theorem SetStatus_keeps_one_entry_per_identity (manifestID : String) (containerCount : Int)
    (uid : ManifestUniqueID) (status : String) (inTransition : Bool)
    (known : List ManifestStatus) (h : (known.map (·.ManifestUniqueID)).Nodup) :
    ((SetStatus manifestID containerCount uid status inTransition known).map
        (·.ManifestUniqueID)).Nodup
      ∧ ∃ e, (SetStatus manifestID containerCount uid status inTransition known).filter
            (fun m => decide (m.ManifestUniqueID = uid)) = [e]
          ∧ e.Status = status ∧ e.InTransition = inTransition := by
  rcases updateKnown_cases uid status inTransition known with
    ⟨pre, m, post, h1, h2, h3, h4⟩ | ⟨h1, h2⟩
  · have hset : SetStatus manifestID containerCount uid status inTransition known
        = pre ++ { m with Status := status, InTransition := inTransition } :: post := by
      simp [SetStatus, h4]
    have hpost : ∀ x ∈ post, x.ManifestUniqueID ≠ uid := by
      intro x hx hxu
      rw [h1] at h
      simp only [List.map_append, List.map_cons] at h
      have hnd := (List.nodup_append.1 h).2.1
      have := (List.nodup_cons.1 hnd).1
      apply this
      rw [h3, ← hxu]
      exact List.mem_map_of_mem _ hx
    rw [hset]
    refine ⟨?_, { m with Status := status, InTransition := inTransition }, ?_, rfl, rfl⟩
    · rw [h1] at h
      simpa using h
    · rw [List.filter_append, List.filter_cons_of_pos (by simpa using h3)]
      rw [List.filter_eq_nil_iff.2 (fun x hx => by simpa using h2 x hx),
        List.filter_eq_nil_iff.2 (fun x hx => by simpa using hpost x hx)]
      rfl
  · have hset : SetStatus manifestID containerCount uid status inTransition known
        = known ++ [{ ManifestID := manifestID, ManifestUniqueID := uid, Status := status,
                      ContainerCount := containerCount, InTransition := inTransition }] := by
      simp [SetStatus, h2]
    rw [hset]
    refine ⟨?_, { ManifestID := manifestID, ManifestUniqueID := uid, Status := status,
                  ContainerCount := containerCount, InTransition := inTransition },
      ?_, rfl, rfl⟩
    · simp only [List.map_append, List.map_cons, List.map_nil]
      rw [List.nodup_append]
      refine ⟨h, by simp, ?_⟩
      intro a ha hb
      simp only [List.mem_singleton] at hb
      subst hb
      obtain ⟨x, hx, hxa⟩ := List.mem_map.1 ha
      exact h1 x hx hxa
    · rw [List.filter_append, List.filter_eq_nil_iff.2 (fun x hx => by simpa using h1 x hx)]
      simp

end LedgerClaims

/-- C17 at a concrete input: a status write for `demo` on the ledger where it is
deployed. -/
theorem SetStatus_keeps_one_entry_per_identity_witness :
    (deployedLedger.map (·.ManifestUniqueID)).Nodup
      ∧ ((SetStatus "demo" 2 ⟨"demo", "1"⟩ "STOPPED" false deployedLedger).map
        (·.ManifestUniqueID)).Nodup
      ∧ ∃ e, (SetStatus "demo" 2 ⟨"demo", "1"⟩ "STOPPED" false deployedLedger).filter
            (fun m => decide (m.ManifestUniqueID = ⟨"demo", "1"⟩)) = [e]
          ∧ e.Status = "STOPPED" ∧ e.InTransition = false :=
  ⟨by decide, SetStatus_keeps_one_entry_per_identity "demo" 2 ⟨"demo", "1"⟩ "STOPPED" false
    deployedLedger (by decide)⟩

/-! ## The loops of `StopDataService` and `StartDataService` in full -/

section StopStartLoops
variable {σ : Type}

/-- The stop loop: it stops the running containers in list order and either gets through
all of them, or ends at the first failing stop with `STOP_CONTAINER_FAILED`. -/
theorem stopContainers_spec (rt : Runtime σ) (a v : String) :
    ∀ (cs : List Container) (s : St σ),
      ((stopContainers rt a v cs s).1 = none
          ∧ (stopContainers rt a v cs s).2.trace = s.trace ++ (cs.filter isRunning).map stopped
          ∧ (stopContainers rt a v cs s).2.knownManifests = s.knownManifests)
      ∨ (∃ pre c post e s1, cs = pre ++ c :: post ∧ c.State = "running"
          ∧ (stopContainers rt a v cs s).1 = some e
          ∧ (stopContainers rt a v cs s).2 = setStatus rt a v "STOP_CONTAINER_FAILED" s1
          ∧ (stopContainers rt a v cs s).2.trace
              = s.trace ++ (pre.filter isRunning).map stopped
                ++ [⟨.StopContainer c.ID, some e⟩,
                    ⟨.SetStatus a v "STOP_CONTAINER_FAILED", none⟩]) := by
  intro cs
  induction cs with
  | nil => intro s; exact Or.inl ⟨rfl, by simp [stopContainers], rfl⟩
  | cons c rest ih =>
    intro s
    by_cases hrun : c.State = "running"
    · have hR : isRunning c = true := by simp [isRunning, hrun]
      rcases hc : s.callO (.StopContainer c.ID) (StopContainer rt c.ID) with ⟨o, s1⟩
      obtain ⟨ht, hk, -⟩ := callO_eq hc
      cases o with
      | some e =>
        refine Or.inr ⟨[], c, rest, e, s1, rfl, hrun, ?_, ?_, ?_⟩
        · simp only [stopContainers, if_pos hrun, hc]
        · simp only [stopContainers, if_pos hrun, hc]
        · simp [stopContainers, if_pos hrun, hc, ht]
      | none =>
        simp only [stopContainers, if_pos hrun, hc]
        rcases ih s1 with ⟨h1, h2, h3⟩ | ⟨pre, c2, post, e, s2, h1, h2, h3, h4, h5⟩
        · exact Or.inl ⟨h1, by simp [h2, ht, List.filter_cons_of_pos hR, stopped], by rw [h3, hk]⟩
        · refine Or.inr ⟨c :: pre, c2, post, e, s2, by simp [h1], h2, h3, h4, ?_⟩
          simp [h5, ht, List.filter_cons_of_pos hR, stopped]
    · have hR : ¬ isRunning c = true := by simp [isRunning, hrun]
      simp only [stopContainers, if_neg hrun]
      rcases ih s with ⟨h1, h2, h3⟩ | ⟨pre, c2, post, e, s2, h1, h2, h3, h4, h5⟩
      · exact Or.inl ⟨h1, by simp [h2, List.filter_cons_of_neg hR], h3⟩
      · refine Or.inr ⟨c :: pre, c2, post, e, s2, by simp [h1], h2, h3, h4, ?_⟩
        simp [h5, List.filter_cons_of_neg hR]

/-- The start loop: it starts the exited, created and paused containers in list order and
either gets through all of them, or ends at the first failing start with
`START_FAILED`. -/
theorem startStopped_spec (rt : Runtime σ) (a v : String) :
    ∀ (cs : List Container) (s : St σ),
      ((startStopped rt a v cs s).1 = none
          ∧ (startStopped rt a v cs s).2.trace = s.trace ++ (cs.filter isStartable).map started
          ∧ (startStopped rt a v cs s).2.knownManifests = s.knownManifests)
      ∨ (∃ pre c post e s1, cs = pre ++ c :: post ∧ isStartable c = true
          ∧ (startStopped rt a v cs s).1 = some e
          ∧ (startStopped rt a v cs s).2 = setStatus rt a v "START_FAILED" s1
          ∧ (startStopped rt a v cs s).2.trace
              = s.trace ++ (pre.filter isStartable).map started
                ++ [⟨.StartContainer c.ID, some e⟩,
                    ⟨.SetStatus a v "START_FAILED", none⟩]) := by
  intro cs
  induction cs with
  | nil => intro s; exact Or.inl ⟨rfl, by simp [startStopped], rfl⟩
  | cons c rest ih =>
    intro s
    by_cases hst : c.State = "exited" ∨ c.State = "created" ∨ c.State = "paused"
    · have hR : isStartable c = true := by simp [isStartable, hst]
      rcases hc : s.callO (.StartContainer c.ID) (StartContainer rt c.ID) with ⟨o, s1⟩
      obtain ⟨ht, hk, -⟩ := callO_eq hc
      cases o with
      | some e =>
        refine Or.inr ⟨[], c, rest, e, s1, rfl, hR, ?_, ?_, ?_⟩
        · simp only [startStopped, if_pos hst, hc]
        · simp only [startStopped, if_pos hst, hc]
        · simp [startStopped, if_pos hst, hc, ht]
      | none =>
        simp only [startStopped, if_pos hst, hc]
        rcases ih s1 with ⟨h1, h2, h3⟩ | ⟨pre, c2, post, e, s2, h1, h2, h3, h4, h5⟩
        · exact Or.inl ⟨h1, by simp [h2, ht, List.filter_cons_of_pos hR, started], by rw [h3, hk]⟩
        · refine Or.inr ⟨c :: pre, c2, post, e, s2, by simp [h1], h2, h3, h4, ?_⟩
          simp [h5, ht, List.filter_cons_of_pos hR, started]
    · have hR : ¬ isStartable c = true := by simp [isStartable, hst]
      simp only [startStopped, if_neg hst]
      rcases ih s with ⟨h1, h2, h3⟩ | ⟨pre, c2, post, e, s2, h1, h2, h3, h4, h5⟩
      · exact Or.inl ⟨h1, by simp [h2, List.filter_cons_of_neg hR], h3⟩
      · refine Or.inr ⟨c :: pre, c2, post, e, s2, by simp [h1], h2, h3, h4, ?_⟩
        simp [h5, List.filter_cons_of_neg hR]

@[simp] theorem statusWrites_append (xs ys : List Event) :
    statusWrites (xs ++ ys) = statusWrites xs ++ statusWrites ys := by
  simp [statusWrites, List.filterMap_append]

theorem statusWrites_map_stopped (cs : List Container) :
    statusWrites (cs.map stopped) = [] := by
  induction cs with
  | nil => rfl
  | cons c rest ih => simp [statusWrites, stopped, List.filterMap_cons]

theorem dockerCalls_map_stopped (cs : List Container) :
    dockerCalls (cs.map stopped) = cs.map (fun c => Call.StopContainer c.ID) := by
  induction cs with
  | nil => rfl
  | cons c rest ih => simpa [dockerCalls, stopped] using ih

theorem dockerCalls_map_started (cs : List Container) :
    dockerCalls (cs.map started) = cs.map (fun c => Call.StartContainer c.ID) := by
  induction cs with
  | nil => rfl
  | cons c rest ih => simpa [dockerCalls, started] using ih

theorem listing_of_init (rt : Runtime σ) (a v : String) (w : σ) (known : List ManifestStatus)
    {r : Except Error (List Container)} {s1 : St σ}
    (hc : (St.init w known).callE (.ReadDataServiceContainers a v)
      (ReadDataServiceContainers rt a v) = (r, s1)) :
    (ReadDataServiceContainers rt a v w).1 = r
      ∧ s1.trace = [⟨.ReadDataServiceContainers a v, errOf r⟩]
      ∧ s1.knownManifests = known := by
  obtain ⟨ht, hk, hf⟩ := callE_eq hc
  refine ⟨?_, by simpa [St.init] using ht, by simpa [St.init] using hk⟩
  have : (St.init w known).rt = w := rfl
  rw [this] at hf
  rw [hf]

/-- C11: for every list of containers the listing returns for the identity, when every
call of the run succeeds, `StopDataService` returns no error and its calls are, after the
listing, `StopContainer` on the containers whose `State` is `running`, in list order and on
no other container, followed by the status write `STOPPED`, which the ledger then holds.
In particular, when no listed container is running, the listing is the only call to the
engine. -/
theorem stop_calls_exactly_the_running (rt : Runtime σ) (a v : String) (w : σ)
    (known : List ManifestStatus) (cs : List Container)
    (hL : (ReadDataServiceContainers rt a v w).1 = .ok cs)
    (hok : errorsOf (StopDataService rt a v (St.init w known)).2.trace = []) :
    (StopDataService rt a v (St.init w known)).1 = none
      ∧ (StopDataService rt a v (St.init w known)).2.trace
          = [⟨.ReadDataServiceContainers a v, none⟩] ++ (cs.filter isRunning).map stopped
            ++ [⟨.SetStatus a v "STOPPED", none⟩]
      ∧ dockerCalls (StopDataService rt a v (St.init w known)).2.trace
          = Call.ReadDataServiceContainers a v
            :: (cs.filter isRunning).map (fun c => Call.StopContainer c.ID)
      ∧ endsWithStatus (StopDataService rt a v (St.init w known)).2 a v "STOPPED"
      ∧ ((∀ c ∈ cs, c.State ≠ "running") →
          dockerCalls (StopDataService rt a v (St.init w known)).2.trace
            = [Call.ReadDataServiceContainers a v]) := by
  rcases hc : (St.init w known).callE (.ReadDataServiceContainers a v)
    (ReadDataServiceContainers rt a v) with ⟨r, s1⟩
  obtain ⟨hr, ht, -⟩ := listing_of_init rt a v w known hc
  rw [hL] at hr
  subst hr
  rcases hS : stopContainers rt a v cs s1 with ⟨o, s2⟩
  have hspec := stopContainers_spec rt a v cs s1
  rw [hS] at hspec
  simp only at hspec
  rcases hspec with ⟨h1, h2, -⟩ | ⟨pre, c, post, e, s3, -, -, h3, -, h5⟩
  · subst h1
    have hrun : StopDataService rt a v (St.init w known)
        = (none, setStatus rt a v "STOPPED" s2) := by
      simp only [StopDataService, hc, hS]
    rw [hrun]
    have htr : (setStatus rt a v "STOPPED" s2).trace
        = [⟨.ReadDataServiceContainers a v, none⟩] ++ (cs.filter isRunning).map stopped
          ++ [⟨.SetStatus a v "STOPPED", none⟩] := by
      simp [h2, ht, errOf]
    have hcalls : dockerCalls (setStatus rt a v "STOPPED" s2).trace
        = Call.ReadDataServiceContainers a v
          :: (cs.filter isRunning).map (fun c => Call.StopContainer c.ID) := by
      rw [htr, dockerCalls_append, dockerCalls_append, dockerCalls_map_stopped]
      simp [dockerCalls]
    refine ⟨rfl, htr, hcalls, endsWithStatus_setStatus _ _ _ _ _, ?_⟩
    intro hnone
    rw [hcalls, List.filter_eq_nil_iff.2 (fun c hc => by simpa [isRunning] using hnone c hc)]
    rfl
  · subst h3
    have hrun : StopDataService rt a v (St.init w known) = (some e, s2) := by
      simp only [StopDataService, hc, hS]
    rw [hrun] at hok
    simp only at hok
    rw [h5] at hok
    simp [errorsOf] at hok

/-- C11 at a concrete input: stopping `demo` on the host where it is deployed. -/
theorem stop_calls_exactly_the_running_witness :
    (StopDataService sim "demo" "1" (St.init deployedWorld deployedLedger)).1 = none
      ∧ dockerCalls (StopDataService sim "demo" "1"
          (St.init deployedWorld deployedLedger)).2.trace
          = [Call.ReadDataServiceContainers "demo" "1", Call.StopContainer "m1",
             Call.StopContainer "m2"]
      ∧ endsWithStatus (StopDataService sim "demo" "1"
          (St.init deployedWorld deployedLedger)).2 "demo" "1" "STOPPED" :=
  have h := stop_calls_exactly_the_running sim "demo" "1" deployedWorld deployedLedger
    deployedWorld.containers rfl (by decide)
  ⟨h.1, h.2.2.1, h.2.2.2.1⟩

/-- C12: if `StopContainer` fails in a run of `StopDataService`, the run ends right there:
the failing call is on a running container of the listing, the stops before it are those
on the running containers listed before it, no later container is stopped, the error of
the failing call is returned, and the last call writes `STOP_CONTAINER_FAILED`, which the
ledger then holds; `STOPPED` is not written. -/
theorem stop_aborts_at_first_failure (rt : Runtime σ) (a v : String) (w : σ)
    (known : List ManifestStatus)
    (hfail : ∃ id e, (⟨.StopContainer id, some e⟩ : Event)
      ∈ (StopDataService rt a v (St.init w known)).2.trace) :
    ∃ cs pre c post e, (ReadDataServiceContainers rt a v w).1 = .ok cs
      ∧ cs = pre ++ c :: post ∧ c.State = "running"
      ∧ (StopDataService rt a v (St.init w known)).1 = some e
      ∧ (StopDataService rt a v (St.init w known)).2.trace
          = [⟨.ReadDataServiceContainers a v, none⟩] ++ (pre.filter isRunning).map stopped
            ++ [⟨.StopContainer c.ID, some e⟩, ⟨.SetStatus a v "STOP_CONTAINER_FAILED", none⟩]
      ∧ endsWithStatus (StopDataService rt a v (St.init w known)).2 a v
          "STOP_CONTAINER_FAILED"
      ∧ "STOPPED" ∉ statusWrites (StopDataService rt a v (St.init w known)).2.trace := by
  obtain ⟨id, e0, hmem⟩ := hfail
  rcases hc : (St.init w known).callE (.ReadDataServiceContainers a v)
    (ReadDataServiceContainers rt a v) with ⟨r, s1⟩
  obtain ⟨hr, ht, -⟩ := listing_of_init rt a v w known hc
  cases r with
  | error e1 =>
    have hrun : StopDataService rt a v (St.init w known)
        = (some e1, setStatus rt a v "STOP_SERVICE_FAILED" s1) := by
      simp only [StopDataService, hc]
    rw [hrun] at hmem
    simp [ht, errOf] at hmem
  | ok cs =>
    rcases hS : stopContainers rt a v cs s1 with ⟨o, s2⟩
    have hspec := stopContainers_spec rt a v cs s1
    rw [hS] at hspec
    simp only at hspec
    rcases hspec with ⟨h1, h2, -⟩ | ⟨pre, c, post, e, s3, h1, h2, h3, h4, h5⟩
    · subst h1
      have hrun : StopDataService rt a v (St.init w known)
          = (none, setStatus rt a v "STOPPED" s2) := by
        simp only [StopDataService, hc, hS]
      rw [hrun] at hmem
      simp [h2, ht, errOf, stopped] at hmem
    · subst h3
      have hrun : StopDataService rt a v (St.init w known) = (some e, s2) := by
        simp only [StopDataService, hc, hS]
      rw [hrun]
      have htr : s2.trace
          = [⟨.ReadDataServiceContainers a v, none⟩] ++ (pre.filter isRunning).map stopped
            ++ [⟨.StopContainer c.ID, some e⟩,
                ⟨.SetStatus a v "STOP_CONTAINER_FAILED", none⟩] := by
        rw [h5, ht]
        rfl
      refine ⟨cs, pre, c, post, e, hr, h1, h2, rfl, htr, ?_, ?_⟩
      · simp only
        rw [h4]
        exact endsWithStatus_setStatus _ _ _ _ _
      · simp only
        rw [htr, statusWrites_append, statusWrites_append, statusWrites_map_stopped]
        simp [statusWrites]

/-- C12 at a concrete input: stopping `demo` while the engine refuses to stop the first
container. -/
theorem stop_aborts_at_first_failure_witness :
    ∃ cs pre c post e, (ReadDataServiceContainers sim "demo" "1" stopRefusingWorld).1 = .ok cs
      ∧ cs = pre ++ c :: post ∧ c.State = "running"
      ∧ (StopDataService sim "demo" "1" (St.init stopRefusingWorld deployedLedger)).1 = some e
      ∧ (StopDataService sim "demo" "1" (St.init stopRefusingWorld deployedLedger)).2.trace
          = [⟨.ReadDataServiceContainers "demo" "1", none⟩] ++ (pre.filter isRunning).map stopped
            ++ [⟨.StopContainer c.ID, some e⟩,
                ⟨.SetStatus "demo" "1" "STOP_CONTAINER_FAILED", none⟩]
      ∧ endsWithStatus (StopDataService sim "demo" "1"
          (St.init stopRefusingWorld deployedLedger)).2 "demo" "1" "STOP_CONTAINER_FAILED"
      ∧ "STOPPED" ∉ statusWrites (StopDataService sim "demo" "1"
          (St.init stopRefusingWorld deployedLedger)).2.trace :=
  stop_aborts_at_first_failure sim "demo" "1" stopRefusingWorld deployedLedger
    ⟨"m1", "cannot stop container m1", by decide⟩

/-- C13: for every non-empty list of containers the listing returns for the identity,
`StartDataService` calls `StartContainer` on the containers whose `State` is `exited`,
`created` or `paused`, in list order and on no other container.  Either every start
succeeds, and the run returns no error and ends with the status write `STARTED`; or the
run ends at the first failing start: no later container is started, the error of the
failing call is returned, and the last call writes `START_FAILED`.  The ledger then holds
the status written. -/
theorem start_calls_exactly_the_stopped (rt : Runtime σ) (a v : String) (w : σ)
    (known : List ManifestStatus) (cs : List Container)
    (hL : (ReadDataServiceContainers rt a v w).1 = .ok cs) (hne : cs ≠ []) :
    ((StartDataService rt a v (St.init w known)).1 = none
        ∧ (StartDataService rt a v (St.init w known)).2.trace
            = [⟨.ReadDataServiceContainers a v, none⟩] ++ (cs.filter isStartable).map started
              ++ [⟨.SetStatus a v "STARTED", none⟩]
        ∧ endsWithStatus (StartDataService rt a v (St.init w known)).2 a v "STARTED")
      ∨ (∃ pre c post e, cs = pre ++ c :: post ∧ isStartable c = true
        ∧ (StartDataService rt a v (St.init w known)).1 = some e
        ∧ (StartDataService rt a v (St.init w known)).2.trace
            = [⟨.ReadDataServiceContainers a v, none⟩] ++ (pre.filter isStartable).map started
              ++ [⟨.StartContainer c.ID, some e⟩, ⟨.SetStatus a v "START_FAILED", none⟩]
        ∧ endsWithStatus (StartDataService rt a v (St.init w known)).2 a v "START_FAILED") := by
  rcases hc : (St.init w known).callE (.ReadDataServiceContainers a v)
    (ReadDataServiceContainers rt a v) with ⟨r, s1⟩
  obtain ⟨hr, ht, -⟩ := listing_of_init rt a v w known hc
  rw [hL] at hr
  subst hr
  have hlen : ¬ cs.length = 0 := by
    intro h
    exact hne (List.length_eq_zero.1 h)
  rcases hS : startStopped rt a v cs s1 with ⟨o, s2⟩
  have hspec := startStopped_spec rt a v cs s1
  rw [hS] at hspec
  simp only at hspec
  rcases hspec with ⟨h1, h2, -⟩ | ⟨pre, c, post, e, s3, h1, h2, h3, h4, h5⟩
  · subst h1
    have hrun : StartDataService rt a v (St.init w known)
        = (none, setStatus rt a v "STARTED" s2) := by
      simp only [StartDataService, hc, if_neg hlen, hS]
    rw [hrun]
    exact Or.inl ⟨rfl, by simp [h2, ht, errOf], endsWithStatus_setStatus _ _ _ _ _⟩
  · subst h3
    have hrun : StartDataService rt a v (St.init w known) = (some e, s2) := by
      simp only [StartDataService, hc, if_neg hlen, hS]
    rw [hrun]
    refine Or.inr ⟨pre, c, post, e, h1, h2, rfl, ?_, ?_⟩
    · simp only
      rw [h5, ht]
      rfl
    · simp only
      rw [h4]
      exact endsWithStatus_setStatus _ _ _ _ _

/-- C13 at a concrete input: starting `demo` on the host where it has been stopped. -/
theorem start_calls_exactly_the_stopped_witness :
    ((StartDataService sim "demo" "1" (St.init stoppedWorld deployedLedger)).1 = none
        ∧ (StartDataService sim "demo" "1" (St.init stoppedWorld deployedLedger)).2.trace
            = [⟨.ReadDataServiceContainers "demo" "1", none⟩]
              ++ (stoppedWorld.containers.filter isStartable).map started
              ++ [⟨.SetStatus "demo" "1" "STARTED", none⟩]
        ∧ endsWithStatus (StartDataService sim "demo" "1"
            (St.init stoppedWorld deployedLedger)).2 "demo" "1" "STARTED")
      ∨ (∃ pre c post e, stoppedWorld.containers = pre ++ c :: post ∧ isStartable c = true
        ∧ (StartDataService sim "demo" "1" (St.init stoppedWorld deployedLedger)).1 = some e
        ∧ (StartDataService sim "demo" "1" (St.init stoppedWorld deployedLedger)).2.trace
            = [⟨.ReadDataServiceContainers "demo" "1", none⟩]
              ++ (pre.filter isStartable).map started
              ++ [⟨.StartContainer c.ID, some e⟩, ⟨.SetStatus "demo" "1" "START_FAILED", none⟩]
        ∧ endsWithStatus (StartDataService sim "demo" "1"
            (St.init stoppedWorld deployedLedger)).2 "demo" "1" "START_FAILED") :=
  start_calls_exactly_the_stopped sim "demo" "1" stoppedWorld deployedLedger
    stoppedWorld.containers rfl (by decide)

/-- C14: if the listing returns no container for the identity, `StartDataService` returns
the error "no data service containers found", its only calls are the listing and the status
write `START_FAILED`, which the ledger then holds; no `StartContainer` call is issued. -/
theorem start_without_containers_fails (rt : Runtime σ) (a v : String) (w : σ)
    (known : List ManifestStatus) (hL : (ReadDataServiceContainers rt a v w).1 = .ok []) :
    (StartDataService rt a v (St.init w known)).1 = some "no data service containers found"
      ∧ (StartDataService rt a v (St.init w known)).2.trace
          = [⟨.ReadDataServiceContainers a v, none⟩, ⟨.SetStatus a v "START_FAILED", none⟩]
      ∧ endsWithStatus (StartDataService rt a v (St.init w known)).2 a v "START_FAILED" := by
  rcases hc : (St.init w known).callE (.ReadDataServiceContainers a v)
    (ReadDataServiceContainers rt a v) with ⟨r, s1⟩
  obtain ⟨hr, ht, -⟩ := listing_of_init rt a v w known hc
  rw [hL] at hr
  subst hr
  have hrun : StartDataService rt a v (St.init w known)
      = (some "no data service containers found", setStatus rt a v "START_FAILED" s1) := by
    simp [StartDataService, hc]
  rw [hrun]
  exact ⟨rfl, by simp [ht, errOf], endsWithStatus_setStatus _ _ _ _ _⟩

/-- C14 at a concrete input: starting `demo` on an empty host. -/
theorem start_without_containers_fails_witness :
    (StartDataService sim "demo" "1" (St.init emptyWorld [])).1
        = some "no data service containers found"
      ∧ (StartDataService sim "demo" "1" (St.init emptyWorld [])).2.trace
          = [⟨.ReadDataServiceContainers "demo" "1", none⟩,
             ⟨.SetStatus "demo" "1" "START_FAILED", none⟩]
      ∧ endsWithStatus (StartDataService sim "demo" "1" (St.init emptyWorld [])).2
          "demo" "1" "START_FAILED" :=
  start_without_containers_fails sim "demo" "1" emptyWorld [] rfl

end StopStartLoops

/-! ## What `UndeployDataService` leaves behind -/

section UndeployOutcome
variable {σ : Type}

/-- A run of `UndeployDataService` in which the service exists and both listings succeed
ends with the status write `UNDEPLOYED`, whatever the removals and the prune returned. -/
theorem UndeployDataService_full_final (rt : Runtime σ) (a v : String) (s : St σ)
    (h : undeployListings rt a v s ≠ none) :
    ∃ s1, (UndeployDataService rt a v s).2 = setStatus rt a v "UNDEPLOYED" s1 := by
  rcases hE : DataServiceExist rt a v s with ⟨r, s1⟩
  simp only [undeployListings, hE] at h
  cases r with
  | error e => simp at h
  | ok b =>
    cases b with
    | false => simp at h
    | true =>
      simp only at h
      rcases hL : s1.callE (.ReadDataServiceContainers a v) (ReadDataServiceContainers rt a v)
        with ⟨rl, s2⟩
      simp only [hL] at h
      cases rl with
      | error e => simp at h
      | ok ds =>
        simp only at h
        rcases hR : removeContainers rt a v ds [] "" s2 with ⟨m, el3, s3⟩
        rw [hR] at h
        simp only at h
        rcases hA : s3.callE .ReadAllContainers (ReadAllContainers rt) with ⟨ra, s4⟩
        simp only [hA] at h
        cases ra with
        | error e => simp at h
        | ok cs =>
          rcases hI : removeImages rt a v cs m (rt.rangeOrder (m.map Prod.fst)) el3 s4
            with ⟨el5, s5⟩
          rcases hP : pruneNetwork rt a v el5 s5 with ⟨el6, s6⟩
          refine ⟨s6, ?_⟩
          simp only [UndeployDataService, hE, hL, hR, hA, hI, hP]
          split <;> rfl

/-- C16 fails on the code: undeploying `demo` on the host where it is deployed calls
`ImageRemove` for both images of the service, and no image is left on the host. -/
theorem undeploy_removes_the_images_of_the_service :
    (UndeployDataService sim "demo" "1" (St.init deployedWorld deployedLedger)).1 = none
      ∧ dockerCalls (UndeployDataService sim "demo" "1"
          (St.init deployedWorld deployedLedger)).2.trace
          = [Call.ReadDataServiceNetworks "demo" "1", Call.ReadDataServiceContainers "demo" "1",
             Call.StopAndRemoveContainer "m1", Call.StopAndRemoveContainer "m2",
             Call.ReadAllContainers, Call.ImageRemove "img1:latest",
             Call.ImageRemove "img2:latest", Call.NetworkPrune "demo" "1"]
      ∧ deployedWorld.images = ["img1:latest", "img2:latest"]
      ∧ (UndeployDataService sim "demo" "1"
          (St.init deployedWorld deployedLedger)).2.rt.images = [] := by
  decide

/-- C18 fails on the code: undeploying `demo` while the engine refuses to prune the network
returns the aggregate error, writes `UNDEPLOY_FAILED` and then `UNDEPLOYED`, and the
ledger is left with `UNDEPLOYED`. -/
theorem undeploy_error_leaves_UNDEPLOYED :
    (UndeployDataService sim "demo" "1" (St.init pruneRefusingWorld deployedLedger)).1
        = some ("Data Service could not be undeployed completely. Cause(s): "
            ++ ",cannot prune networks")
      ∧ statusWrites (UndeployDataService sim "demo" "1"
          (St.init pruneRefusingWorld deployedLedger)).2.trace
          = ["UNDEPLOY_FAILED", "UNDEPLOYED"]
      ∧ statusOf ⟨"demo", "1"⟩ (UndeployDataService sim "demo" "1"
          (St.init pruneRefusingWorld deployedLedger)).2.knownManifests = some "UNDEPLOYED" := by
  decide

/-- C19: when `DeployDataService` fails in step 4 (it got past the network creation and
returns an error: the manifest has no modules, or a container could not be created or
started), it has written `<COMMAND>_FAILED` and then run `UndeployDataService` as
rollback from the state `sMid` that write left; and when in that rollback the existence
check finds the network and both container listings succeed, the run ends with the
rollback's status write `UNDEPLOYED`, which is the status the ledger holds for the
identity after `DeployDataService` returns. -/
theorem failed_deploy_is_left_UNDEPLOYED (rt : Runtime σ) (man : Manifest) (c : String)
    (w : σ) (known : List ManifestStatus)
    (hfail : (DeployDataService rt man c (St.init w known)).1 ≠ none)
    (hnet : (⟨.CreateNetwork man.ApplicationID man.Labels, none⟩ : Event)
      ∈ (DeployDataService rt man c (St.init w known)).2.trace) :
    ∃ sMid evsU,
      sMid.trace.getLast?
          = some ⟨.SetStatus man.ID man.VersionName (ToUpper c ++ "_FAILED"), none⟩
        ∧ (DeployDataService rt man c (St.init w known)).2
            = (UndeployDataService rt man.ID man.VersionName sMid).2
        ∧ (DeployDataService rt man c (St.init w known)).2.trace = sMid.trace ++ evsU
        ∧ (undeployListings rt man.ID man.VersionName sMid ≠ none →
            endsWithStatus (DeployDataService rt man c (St.init w known)).2
              man.ID man.VersionName "UNDEPLOYED") := by
  obtain ⟨evs, ht, hrun⟩ := DeployDataService_run rt man c (St.init w known)
  have ht2 : (DeployDataService rt man c (St.init w known)).2.trace = evs := by
    simpa [St.init] using ht
  rw [ht2] at hnet
  have hT : (Call.CreateNetwork man.ApplicationID man.Labels).isTeardown = false := rfl
  have hI : (Call.CreateNetwork man.ApplicationID man.Labels).isImageStep = false := rfl
  have key : ∀ sMid : St σ,
      sMid.trace.getLast?
          = some ⟨.SetStatus man.ID man.VersionName (ToUpper c ++ "_FAILED"), none⟩ →
      (DeployDataService rt man c (St.init w known)).2
          = (UndeployDataService rt man.ID man.VersionName sMid).2 →
      ∃ sMid evsU,
        sMid.trace.getLast?
            = some ⟨.SetStatus man.ID man.VersionName (ToUpper c ++ "_FAILED"), none⟩
          ∧ (DeployDataService rt man c (St.init w known)).2
              = (UndeployDataService rt man.ID man.VersionName sMid).2
          ∧ (DeployDataService rt man c (St.init w known)).2.trace = sMid.trace ++ evsU
          ∧ (undeployListings rt man.ID man.VersionName sMid ≠ none →
              endsWithStatus (DeployDataService rt man c (St.init w known)).2
                man.ID man.VersionName "UNDEPLOYED") := by
    intro sMid hlast hsf
    obtain ⟨evsU, hUt, -, -, -⟩ := UndeployDataService_spec rt man.ID man.VersionName sMid
    refine ⟨sMid, evsU, hlast, hsf, by rw [hsf, hUt], ?_⟩
    intro hlist
    obtain ⟨s1, hs1⟩ := UndeployDataService_full_final rt man.ID man.VersionName sMid hlist
    rw [hsf, hs1]
    exact endsWithStatus_setStatus _ _ _ _ _
  cases hrun with
  | existFailed e1 s1 hr hevs hsf => simp [hevs] at hnet
  | alreadyExists hc1 hex hr hevs hsf => simp [hevs] at hnet
  | teardownFailed evsU s1 hc1 hex hU hfail1 hr hevs hsf =>
    simp [hevs, not_mem_of_all_teardown hU hT] at hnet
  | lookupFailed pre evsP img1 e1 hpre hP hr hevs =>
    simp [hevs, not_mem_of_all_teardown hpre.1 hT, not_mem_of_all_imageStep hP.1 hI] at hnet
  | pullFailed pre evsP img1 e1 s1 hpre hP hr hevs hsf =>
    simp [hevs, not_mem_of_all_teardown hpre.1 hT, not_mem_of_all_imageStep hP.1 hI] at hnet
  | networkFailed pre evsP e1 s1 hpre hP hr hevs hsf =>
    simp [hevs, not_mem_of_all_teardown hpre.1 hT, not_mem_of_all_imageStep hP.1 hI] at hnet
  | noModules pre evsP evsU sMid hpre hP hmods1 hr hmid hU hevs hsf =>
    exact key sMid (by rw [hmid]; exact getLast?_append_pair _ _ _) hsf
  | createFailed pre evsP evsU networkName done m rest e1 sMid hpre hP hmods1 hr hmid hU hevs
      hsf =>
    exact key sMid (by rw [hmid]; exact getLast?_append_pair _ _ _) hsf
  | succeeded pre evsP networkName s1 hpre hP hmods1 hr hevs hsf => exact absurd hr hfail

end UndeployOutcome

/-- C19 at a concrete input: `deploy` of `demo` on an empty host whose engine refuses to
start the second container; the rollback finds the network, and the ledger is left with
`UNDEPLOYED`. -/
theorem failed_deploy_is_left_UNDEPLOYED_witness :
    (∃ sMid evsU,
      sMid.trace.getLast?
          = some ⟨.SetStatus "demo" "1" (ToUpper CMDDeploy ++ "_FAILED"), none⟩
        ∧ (DeployDataService sim demoManifest CMDDeploy (St.init startRefusingWorld [])).2
            = (UndeployDataService sim "demo" "1" sMid).2
        ∧ (DeployDataService sim demoManifest CMDDeploy (St.init startRefusingWorld [])).2.trace
            = sMid.trace ++ evsU
        ∧ (undeployListings sim "demo" "1" sMid ≠ none →
            endsWithStatus (DeployDataService sim demoManifest CMDDeploy
              (St.init startRefusingWorld [])).2 "demo" "1" "UNDEPLOYED"))
      ∧ statusWrites (DeployDataService sim demoManifest CMDDeploy
          (St.init startRefusingWorld [])).2.trace = ["DEPLOY_FAILED", "UNDEPLOYED"]
      ∧ statusOf ⟨"demo", "1"⟩ (DeployDataService sim demoManifest CMDDeploy
          (St.init startRefusingWorld [])).2.knownManifests = some "UNDEPLOYED" :=
  ⟨failed_deploy_is_left_UNDEPLOYED sim demoManifest CMDDeploy startRefusingWorld []
    (by decide) (by decide), by decide, by decide⟩

/-! ## Stop followed by start on the simulated engine -/

section StopThenStart

theorem setState_faults (w : World) (id st : String) : (w.setState id st).faults = w.faults :=
  rfl

theorem hasContainer_setState (w : World) (id st id2 : String) :
    (w.setState id st).hasContainer id2 = w.hasContainer id2 := by
  simp only [World.hasContainer, World.setState, List.any_map]
  congr 1
  funext c
  by_cases h : c.ID = id <;> simp [h]

theorem setStates_faults (ids : List String) (st : String) :
    ∀ w : World, (w.setStates ids st).faults = w.faults := by
  induction ids with
  | nil => intro w; rfl
  | cons id rest ih =>
    intro w
    simp only [World.setStates, List.foldl_cons] at ih ⊢
    rw [ih (w.setState id st)]
    rfl

theorem setStates_containers (ids : List String) (st : String) :
    ∀ w : World, (w.setStates ids st).containers
      = w.containers.map (fun c => if c.ID ∈ ids then { c with State := st } else c) := by
  induction ids with
  | nil => intro w; simp [World.setStates]
  | cons id rest ih =>
    intro w
    simp only [World.setStates, List.foldl_cons] at ih ⊢
    rw [ih (w.setState id st)]
    simp only [World.setState, List.map_map]
    apply List.map_congr_left
    intro c _
    by_cases h1 : c.ID = id
    · by_cases h2 : c.ID ∈ rest <;> simp [h1, h2]
    · by_cases h2 : c.ID ∈ rest <;> simp [h1, h2]

theorem sim_stopContainers (a v : String) :
    ∀ (l : List Container) (s : St World), s.rt.faults = [] →
      (∀ c ∈ l, c.State = "running" ∧ s.rt.hasContainer c.ID = true) →
      (stopContainers sim a v l s).1 = none
        ∧ (stopContainers sim a v l s).2.rt = s.rt.setStates (l.map (·.ID)) "exited" := by
  intro l
  induction l with
  | nil => intro s _ _; exact ⟨rfl, rfl⟩
  | cons c rest ih =>
    intro s hf hl
    obtain ⟨hrun, hhas⟩ := hl c (List.mem_cons_self _ _)
    have hcall : s.callO (.StopContainer c.ID) (StopContainer sim c.ID)
        = (none, { s with rt := s.rt.setState c.ID "exited"
                          trace := s.trace ++ [⟨.StopContainer c.ID, none⟩] }) := by
      simp [St.callO, StopContainer, sim, simContainerStop, refuses_eq_false hf, hhas]
    simp only [stopContainers, if_pos hrun, hcall, List.map_cons, World.setStates,
      List.foldl_cons]
    exact ih _ hf (fun c2 hc2 =>
      ⟨(hl c2 (List.mem_cons_of_mem _ hc2)).1,
        by
          show (s.rt.setState c.ID "exited").hasContainer c2.ID = true
          rw [hasContainer_setState]
          exact (hl c2 (List.mem_cons_of_mem _ hc2)).2⟩)

theorem sim_startStopped (a v : String) :
    ∀ (l : List Container) (s : St World), s.rt.faults = [] →
      (∀ c ∈ l, c.State = "exited" ∧ s.rt.hasContainer c.ID = true) →
      (startStopped sim a v l s).1 = none
        ∧ (startStopped sim a v l s).2.rt = s.rt.setStates (l.map (·.ID)) "running" := by
  intro l
  induction l with
  | nil => intro s _ _; exact ⟨rfl, rfl⟩
  | cons c rest ih =>
    intro s hf hl
    obtain ⟨hex, hhas⟩ := hl c (List.mem_cons_self _ _)
    have hst : c.State = "exited" ∨ c.State = "created" ∨ c.State = "paused" := Or.inl hex
    have hcall : s.callO (.StartContainer c.ID) (StartContainer sim c.ID)
        = (none, { s with rt := s.rt.setState c.ID "running"
                          trace := s.trace ++ [⟨.StartContainer c.ID, none⟩] }) := by
      simp [St.callO, StartContainer, sim, simContainerStart, refuses_eq_false hf, hhas]
    simp only [startStopped, if_pos hst, hcall, List.map_cons, World.setStates,
      List.foldl_cons]
    exact ih _ hf (fun c2 hc2 =>
      ⟨(hl c2 (List.mem_cons_of_mem _ hc2)).1,
        by
          show (s.rt.setState c.ID "running").hasContainer c2.ID = true
          rw [hasContainer_setState]
          exact (hl c2 (List.mem_cons_of_mem _ hc2)).2⟩)

theorem hasContainer_of_mem_filter (w : World) (a v : String) {c : Container}
    (hc : c ∈ w.containers.filter (fun c => hasLabels c.Labels a v)) :
    w.hasContainer c.ID = true := by
  simp only [World.hasContainer, List.any_eq_true]
  exact ⟨c, (List.mem_filter.1 hc).1, by simp⟩

theorem sim_StopDataService (a v : String) (s : St World) (hf : s.rt.faults = [])
    (hrun : ∀ c ∈ s.rt.containers.filter (fun c => hasLabels c.Labels a v),
      c.State = "running") :
    (StopDataService sim a v s).1 = none
      ∧ (StopDataService sim a v s).2.rt
          = s.rt.setStates ((s.rt.containers.filter
              (fun c => hasLabels c.Labels a v)).map (·.ID)) "exited" := by
  obtain ⟨h1, h2⟩ := sim_stopContainers a v
    (s.rt.containers.filter (fun c => hasLabels c.Labels a v))
    { s with trace := s.trace ++ [⟨.ReadDataServiceContainers a v, none⟩] } hf
    (fun c hc => ⟨hrun c hc, hasContainer_of_mem_filter s.rt a v hc⟩)
  rcases hS : stopContainers sim a v (s.rt.containers.filter (fun c => hasLabels c.Labels a v))
    { s with trace := s.trace ++ [⟨.ReadDataServiceContainers a v, none⟩] } with ⟨o, s2⟩
  rw [hS] at h1 h2
  simp only at h1 h2
  subst h1
  simp only [StopDataService, sim_listing a v s hf, hS, setStatus_rt]
  exact ⟨trivial, h2⟩

theorem sim_StartDataService (a v : String) (s : St World) (hf : s.rt.faults = [])
    (hne : s.rt.containers.filter (fun c => hasLabels c.Labels a v) ≠ [])
    (hex : ∀ c ∈ s.rt.containers.filter (fun c => hasLabels c.Labels a v),
      c.State = "exited") :
    (StartDataService sim a v s).1 = none
      ∧ (StartDataService sim a v s).2.rt
          = s.rt.setStates ((s.rt.containers.filter
              (fun c => hasLabels c.Labels a v)).map (·.ID)) "running" := by
  obtain ⟨h1, h2⟩ := sim_startStopped a v
    (s.rt.containers.filter (fun c => hasLabels c.Labels a v))
    { s with trace := s.trace ++ [⟨.ReadDataServiceContainers a v, none⟩] } hf
    (fun c hc => ⟨hex c hc, hasContainer_of_mem_filter s.rt a v hc⟩)
  rcases hS : startStopped sim a v (s.rt.containers.filter (fun c => hasLabels c.Labels a v))
    { s with trace := s.trace ++ [⟨.ReadDataServiceContainers a v, none⟩] } with ⟨o, s2⟩
  rw [hS] at h1 h2
  simp only at h1 h2
  subst h1
  have hlen : ¬ (s.rt.containers.filter (fun c => hasLabels c.Labels a v)).length = 0 :=
    fun h => hne (List.length_eq_zero.1 h)
  simp only [StartDataService, sim_listing a v s hf, if_neg hlen, hS, setStatus_rt]
  exact ⟨trivial, h2⟩

/-- After the containers of the identity have been set to a state, the containers of the
identity are the same ones, in that state. -/
theorem filter_setStates (w : World) (a v st : String) :
    (w.setStates ((w.containers.filter (fun c => hasLabels c.Labels a v)).map (·.ID))
        st).containers.filter (fun c => hasLabels c.Labels a v)
      = (w.containers.filter (fun c => hasLabels c.Labels a v)).map
          (fun c => { c with State := st }) := by
  rw [setStates_containers, List.filter_map]
  have hcongr : w.containers.filter ((fun c => hasLabels c.Labels a v) ∘
      (fun c => if c.ID ∈ (w.containers.filter
        (fun c => hasLabels c.Labels a v)).map (·.ID) then { c with State := st } else c))
      = w.containers.filter (fun c => hasLabels c.Labels a v) := by
    apply List.filter_congr
    intro c _
    simp only [Function.comp]
    split <;> rfl
  rw [hcongr]
  apply List.map_congr_left
  intro c hc
  rw [if_pos (List.mem_map_of_mem _ hc)]

theorem setStates_ids (w : World) (ids : List String) (st : String) :
    (w.setStates ids st).containers.map (·.ID) = w.containers.map (·.ID) := by
  rw [setStates_containers, List.map_map]
  apply List.map_congr_left
  intro c _
  simp only [Function.comp]
  split <;> rfl

/-- C15: on the simulated engine, where a successful stop puts a container in the state
`exited` and a successful start puts it in the state `running`, and no call is refused:
for every identity with at least one container, all of them running, `StopDataService`
returns no error and leaves the containers of the identity exited, and
`StartDataService` right after it returns no error and leaves every container of the
identity running; the containers of the identity are the same ones as before the two
calls, and so are the IDs of all containers of the host. -/
theorem stop_then_start_restores_running (a v : String) (w : World)
    (known : List ManifestStatus) (hf : w.faults = [])
    (hne : w.containers.filter (fun c => hasLabels c.Labels a v) ≠ [])
    (hrun : ∀ c ∈ w.containers.filter (fun c => hasLabels c.Labels a v),
      c.State = "running") :
    (StopDataService sim a v (St.init w known)).1 = none
      ∧ (∀ c ∈ (StopDataService sim a v (St.init w known)).2.rt.containers.filter
            (fun c => hasLabels c.Labels a v), c.State = "exited")
      ∧ (StartDataService sim a v (StopDataService sim a v (St.init w known)).2).1 = none
      ∧ (∀ c ∈ (StartDataService sim a v
            (StopDataService sim a v (St.init w known)).2).2.rt.containers.filter
            (fun c => hasLabels c.Labels a v), c.State = "running")
      ∧ (StartDataService sim a v
            (StopDataService sim a v (St.init w known)).2).2.rt.containers.filter
            (fun c => hasLabels c.Labels a v)
          = w.containers.filter (fun c => hasLabels c.Labels a v)
      ∧ (StartDataService sim a v
            (StopDataService sim a v (St.init w known)).2).2.rt.containers.map (·.ID)
          = w.containers.map (·.ID) := by
  obtain ⟨hstop, hrt1⟩ := sim_StopDataService a v (St.init w known) hf hrun
  have hw : (St.init w known).rt = w := rfl
  rw [hw] at hrt1
  have hf1 : (StopDataService sim a v (St.init w known)).2.rt.faults = [] := by
    rw [hrt1, setStates_faults]
    exact hf
  have hfilter1 : (StopDataService sim a v (St.init w known)).2.rt.containers.filter
      (fun c => hasLabels c.Labels a v)
      = (w.containers.filter (fun c => hasLabels c.Labels a v)).map
          (fun c => { c with State := "exited" }) := by
    rw [hrt1, filter_setStates]
  have hex : ∀ c ∈ (StopDataService sim a v (St.init w known)).2.rt.containers.filter
      (fun c => hasLabels c.Labels a v), c.State = "exited" := by
    intro c hc
    rw [hfilter1] at hc
    obtain ⟨c0, -, hc0⟩ := List.mem_map.1 hc
    rw [← hc0]
  have hne1 : (StopDataService sim a v (St.init w known)).2.rt.containers.filter
      (fun c => hasLabels c.Labels a v) ≠ [] := by
    rw [hfilter1]
    simpa using hne
  obtain ⟨hstart, hrt2⟩ := sim_StartDataService a v
    (StopDataService sim a v (St.init w known)).2 hf1 hne1 hex
  have hfilter2 : (StartDataService sim a v
      (StopDataService sim a v (St.init w known)).2).2.rt.containers.filter
      (fun c => hasLabels c.Labels a v)
      = w.containers.filter (fun c => hasLabels c.Labels a v) := by
    rw [hrt2, filter_setStates, hfilter1, List.map_map]
    conv_rhs => rw [← List.map_id (w.containers.filter (fun c => hasLabels c.Labels a v))]
    apply List.map_congr_left
    intro c hc
    have := hrun c hc
    simp only [Function.comp, id]
    rw [← this]
  refine ⟨hstop, hex, hstart, ?_, hfilter2, ?_⟩
  · rw [hfilter2]
    exact hrun
  · rw [hrt2, setStates_ids, hrt1, setStates_ids]

/-- C15 at a concrete input: stopping and then starting `demo` on the host where it is
deployed. -/
theorem stop_then_start_restores_running_witness :
    (StopDataService sim "demo" "1" (St.init deployedWorld deployedLedger)).1 = none
      ∧ (StartDataService sim "demo" "1"
          (StopDataService sim "demo" "1" (St.init deployedWorld deployedLedger)).2).1 = none
      ∧ (∀ c ∈ (StartDataService sim "demo" "1"
            (StopDataService sim "demo" "1"
              (St.init deployedWorld deployedLedger)).2).2.rt.containers.filter
            (fun c => hasLabels c.Labels "demo" "1"), c.State = "running")
      ∧ (StartDataService sim "demo" "1"
            (StopDataService sim "demo" "1"
              (St.init deployedWorld deployedLedger)).2).2.rt.containers.filter
            (fun c => hasLabels c.Labels "demo" "1")
          = deployedWorld.containers.filter (fun c => hasLabels c.Labels "demo" "1") :=
  have h := stop_then_start_restores_running "demo" "1" deployedWorld deployedLedger rfl
    (by decide) (by decide)
  ⟨h.1, h.2.2.1, h.2.2.2.1, h.2.2.2.2.1⟩

end StopThenStart

end WeeveAgent
